import Mathlib

/-!
# XTS Interactive client SDK: session client, capability tables, transport adapter,
logger and streaming client

A shallow embedding of `src/lib/interactiveRestAPI.js`, `src/lib/customError.js`,
`src/lib/request.js`, `src/lib/logger.js` and `src/lib/interactiveSocket.js`.

Modelling conventions.

* `JSVal` is the universe of JavaScript values the code handles: the JSON data
  values plus instances of `CustomError`.  Numbers are integer valued.  An object
  is the list of its own enumerable properties in enumeration order.  Function
  values are not part of the universe, so an own property is never callable.
* An exception is a thrown `JSVal`; a computation is `Except JSVal α`, and a
  computation on the session object is `Exec α`, which also threads the session
  and the list of requests handed to the transport.
* `await` is transparent: operations are run one at a time.
* The path table `settings.json` and the default URL of `config.json` are not part
  of the sources; they are parameters (`RestApi`, `SocketNames`, `defaultUrl`).
* The collaborators of the transport adapter, the logger and the streaming client
  (the HTTP library, the clock, the file system, the socket library, the timers,
  the local event emitter and the callbacks of the caller) are parameters or logs
  of the calls made to them; a callback is what it returns or throws.
* The streaming client is a state machine: a step is a call by the caller, an event
  of a connection, or the firing of a timer, each run to its end.
-/

set_option autoImplicit false

namespace XTS

/-! ## Values -/

/-- JavaScript values: JSON data and `CustomError` instances. -/
inductive JSVal where
  | undefined
  | null
  | bool (b : Bool)
  | num (n : Int)
  | str (s : String)
  | arr (xs : List JSVal)
  | obj (fields : List (String × JSVal))
  | customError (message stack statusCode : JSVal)
deriving Repr, Inhabited

namespace JSVal

/-- ToBoolean. -/
def truthy : JSVal → Bool
  | .undefined => false
  | .null => false
  | .bool b => b
  | .num n => n != 0
  | .str s => s != ""
  | .arr _ => true
  | .obj _ => true
  | .customError _ _ _ => true

/-- The test `v == null`, equivalently `v == undefined`. -/
def nullish : JSVal → Bool
  | .undefined => true
  | .null => true
  | _ => false

/-- The test `v instanceof CustomError`. -/
def isCustomError : JSVal → Bool
  | .customError _ _ _ => true
  | _ => false

/-- The value a runtime `TypeError` is modelled by: an `Error` instance (not a
`CustomError`) with a non-empty message and a stack, and no `statusCode`. -/
def typeError (msg : String) : JSVal :=
  .obj [("message", .str msg), ("stack", .str ("TypeError: " ++ msg))]

/-- Lookup of an own property in a property list. -/
def lookupField (k : String) : List (String × JSVal) → JSVal
  | [] => .undefined
  | (k1, v) :: rest => if k1 = k then v else lookupField k rest

/-- The decimal index names `"0"`, ..., of a sequence of `n` elements. -/
def indexKeys (n : Nat) : List String :=
  (List.range n).map toString

/-- Element of a list at the index named `k`, `undefined` when `k` names no index. -/
def indexLookup (k : String) (xs : List JSVal) : JSVal :=
  match (List.range xs.length).find? (fun i => toString i = k) with
  | some i => xs.getD i .undefined
  | none => .undefined

/-- Property read `v.k` on a value that is neither `null` nor `undefined`, for a
data property name `k` (the names the code reads are data names or own keys). -/
def getField (v : JSVal) (k : String) : JSVal :=
  match v with
  | .obj fs => lookupField k fs
  | .arr xs => if k = "length" then .num xs.length else indexLookup k xs
  | .str s =>
      if k = "length" then .num s.length
      else indexLookup k (s.toList.map (fun c => .str (String.singleton c)))
  | .customError m st sc =>
      if k = "message" then m
      else if k = "stack" then st
      else if k = "statusCode" then sc
      else if k = "name" then .str "CustomError"
      else .undefined
  | _ => .undefined

/-- Property read `v.k` / `v[k]`: a `TypeError` on `null` and `undefined`. -/
def getProp (v : JSVal) (k : String) : Except JSVal JSVal :=
  if v.nullish then .error (typeError ("Cannot read properties of null or undefined (reading " ++ k ++ ")"))
  else .ok (getField v k)

/-- Own enumerable string keys, in enumeration order (`Object.keys`, `for..in`). -/
def ownKeys : JSVal → List String
  | .obj fs => fs.map Prod.fst
  | .arr xs => indexKeys xs.length
  | .str s => indexKeys s.length
  | .customError m _ _ =>
      match m with
      | .undefined => ["message", "name", "statusCode"]
      | _ => ["name", "statusCode"]
  | _ => []

/-- Whether an own property list has the key `k`. -/
def hasKey (k : String) (fs : List (String × JSVal)) : Bool :=
  fs.any (fun p => p.1 = k)

mutual
/-- ToString (with ToPrimitive on objects): what `"" + v` and a computed property
key evaluate to.  An object whose own `toString` is data (not callable) has no
primitive value: a `TypeError`. -/
def toStr : JSVal → Except JSVal String
  | .undefined => .ok "undefined"
  | .null => .ok "null"
  | .bool true => .ok "true"
  | .bool false => .ok "false"
  | .num n => .ok (toString n)
  | .str s => .ok s
  | .arr xs =>
      match elemStrs xs with
      | .error e => .error e
      | .ok parts => .ok (",".intercalate parts)
  | .obj fs =>
      if hasKey "toString" fs then .error (typeError "Cannot convert object to primitive value")
      else .ok "[object Object]"
  | .customError m _ _ =>
      match m with
      | .undefined => .ok "CustomError"
      | _ =>
        match toStr m with
        | .error e => .error e
        | .ok msg => if msg = "" then .ok "CustomError" else .ok ("CustomError: " ++ msg)
/-- The texts of the elements of an array as `Array.prototype.join` takes them:
empty for `null` and `undefined`. -/
def elemStrs : List JSVal → Except JSVal (List String)
  | [] => .ok []
  | x :: rest =>
      match (match x with
             | .undefined => Except.ok ""
             | .null => Except.ok ""
             | y => toStr y) with
      | .error e => .error e
      | .ok a =>
        match elemStrs rest with
        | .error e => .error e
        | .ok bs => .ok (a :: bs)
end

/-- The method `s.endsWith(suffix)` of strings. -/
def jsEndsWith (s suffix : String) : Bool :=
  suffix.data.isSuffixOf s.data

/-- The expression `s + v` for a string `s`. -/
def strPlus (s : String) (v : JSVal) : Except JSVal String :=
  match toStr v with
  | .ok t => .ok (s ++ t)
  | .error e => .error e

/-- The expression `v + s` for a string `s`. -/
def plusStr (v : JSVal) (s : String) : Except JSVal String :=
  match toStr v with
  | .ok t => .ok (t ++ s)
  | .error e => .error e

/-- The values `for (const k of v)` runs over: a `TypeError` when `v` is not iterable. -/
def iterate : JSVal → Except JSVal (List JSVal)
  | .arr xs => .ok xs
  | .str s => .ok (s.toList.map (fun c => .str (String.singleton c)))
  | _ => .error (typeError "value is not iterable")

end JSVal

/-! ## The error value (`customError.js`) -/

/-- The expression `new CustomError(message, stack, statusCode)`.  The call
`super(message)` converts a message other than `undefined` to a string and throws
when the message has no string form; after it the three fields are stored as
given. -/
def CustomError (message stack statusCode : JSVal) : Except JSVal JSVal :=
  match message with
  | .undefined => .ok (.customError message stack statusCode)
  | _ =>
      match message.toStr with
      | .error e => .error e
      | .ok _ => .ok (.customError message stack statusCode)

/-! ## The session object -/

/-- The session object `this`: its own data properties by name, and the prototype
put in place of the class prototype when the legacy name `__proto__` is assigned
(`none`: the class prototype, with the accessors and the methods). -/
structure Session where
  props : String → Option JSVal
  proto : Option JSVal

/-- The path table `settings.restApi` (the file is not part of the sources). -/
structure RestApi where
  session : String
  profile : String
  balance : String
  holding : String
  position : String
  convert : String
  squareoff : String
  orders : String
  cover : String
  trade : String
  orderHistory : String
  enums : String

/-- One call `processRequest(method, url, headers, data)`. -/
structure Request where
  method : String
  url : String
  headers : JSVal
  data : JSVal

/-- An outcome of `processRequest` for each request: the resolved value or the
value it rejects with. -/
abbrev Transport := Request → Except JSVal JSVal

/-- What an operation runs against: the path table, the transport and the
runtime's `new URLSearchParams(v).toString()`. -/
structure Env where
  api : RestApi
  processRequest : Transport
  urlSearchParams : JSVal → Except JSVal String

namespace Session

/-- Store an own data property. -/
def setOwn (s : Session) (k : String) (v : JSVal) : Session :=
  { s with props := fun x => if x = k then some v else s.props x }

/-- The backing property of the accessors the class declares
(`token`, `userID`, `source`, `url`, `enums`). -/
def accessorField (k : String) : Option String :=
  if k = "token" then some "_token"
  else if k = "userID" then some "_userID"
  else if k = "source" then some "_source"
  else if k = "url" then some "_url"
  else if k = "enums" then some "_enums"
  else none

/-- The assignment `Object.prototype.__proto__` performs: objects and `null`
replace the prototype, other values are ignored. -/
def setProto (s : Session) (v : JSVal) : Session :=
  match v with
  | .arr _ => { s with proto := some v }
  | .obj _ => { s with proto := some v }
  | .customError _ _ _ => { s with proto := some v }
  | .null => { s with proto := some v }
  | _ => s

/-- The assignment `this[k] = v`. With the class prototype in place the accessor
names write their backing property and `__proto__` replaces the prototype; every
other name is an own data property. -/
def put (s : Session) (k : String) (v : JSVal) : Session :=
  match s.proto with
  | none =>
      if k = "__proto__" then setProto s v
      else
        match accessorField k with
        | some b => setOwn s b v
        | none => setOwn s k v
  | some p =>
      if k = "__proto__" then
        match p with
        | .null => setOwn s k v
        | .obj fs => if JSVal.hasKey "__proto__" fs then setOwn s k v else setProto s v
        | _ => setProto s v
      else setOwn s k v

/-- The read `this.k` of a data name or accessor name `k`. -/
def get (s : Session) (k : String) : JSVal :=
  match s.proto with
  | none =>
      match accessorField k with
      | some b => (s.props b).getD .undefined
      | none => (s.props k).getD .undefined
  | some p =>
      match s.props k with
      | some v => v
      | none => if p.nullish then .undefined else p.getField k

/-- Whether `this.name(...)` finds the class method `name`: the class prototype is
in place and no own property of that name hides it. -/
def hasMethod (s : Session) (name : String) : Bool :=
  s.proto.isNone && (s.props name).isNone

/-- The getter `this.url`. -/
def url (s : Session) : JSVal := s.get "url"

/-- The getter `this.token`. -/
def token (s : Session) : JSVal := s.get "token"

/-- The getter `this.userID`. -/
def userID (s : Session) : JSVal := s.get "userID"

/-- The getter `this.source`. -/
def source (s : Session) : JSVal := s.get "source"

/-- The getter `this.enums`. -/
def enums (s : Session) : JSVal := s.get "enums"

/-- The property `this.isLoggedIn`. -/
def isLoggedIn (s : Session) : JSVal := s.get "isLoggedIn"

/-- The property `this.isInvestorClient`. -/
def isInvestorClient (s : Session) : JSVal := s.get "isInvestorClient"

/-- The property `this.clientCodes`. -/
def clientCodes (s : Session) : JSVal := s.get "clientCodes"

end Session

/-- The class constructor: `url` defaults to the configured one; `responseTypes`
and `isLoggedIn = false` are stored. -/
def XTSInteractive (defaultUrl : JSVal) (url : JSVal) : Session :=
  let s0 : Session := { props := fun _ => none, proto := none }
  let s1 := s0.put "url" (match url with | .undefined => defaultUrl | u => u)
  let s2 := s1.put "responseTypes" (.obj [("success", .str "success"), ("failure", .str "failure")])
  s2.put "isLoggedIn" (.bool false)

/-! ## Computations on the session -/

/-- The session and the requests handed to `processRequest` so far. -/
structure World where
  self : Session
  sent : List Request

/-- A computation that may throw, on the session and the request log.  The world
is kept when a value is thrown (no rollback). -/
def Exec (α : Type) : Type := World → Except JSVal α × World

namespace Exec

/-- Return a value. -/
def ret {α : Type} (a : α) : Exec α := fun w => (.ok a, w)

/-- Sequence two computations; a thrown value ends the sequence. -/
def andThen {α β : Type} (m : Exec α) (f : α → Exec β) : Exec β := fun w =>
  match m w with
  | (.ok a, w1) => f a w1
  | (.error e, w1) => (.error e, w1)

instance : Monad Exec where
  pure := ret
  bind := andThen

/-- The statement `throw e`. -/
def raise {α : Type} (e : JSVal) : Exec α := fun w => (.error e, w)

/-- Run a pure computation that may throw. -/
def lift {α : Type} (x : Except JSVal α) : Exec α := fun w => (x, w)

/-- The construct `try { body } catch (error) { return handler(error) }`. -/
def tryCatch (body : Exec JSVal) (handler : JSVal → Exec JSVal) : Exec JSVal := fun w =>
  match body w with
  | (.ok a, w1) => (.ok a, w1)
  | (.error e, w1) => handler e w1

/-- The read `this.k`. -/
def readThis (k : String) : Exec JSVal := fun w => (.ok (w.self.get k), w)

/-- The assignment `this[k] = v`. -/
def writeThis (k : String) (v : JSVal) : Exec Unit := fun w =>
  (.ok (), { w with self := w.self.put k v })

/-- The call `this.name(...)` of a class method with body `body`: a `TypeError`
when the method is hidden. -/
def callMethod {α : Type} (name : String) (body : Exec α) : Exec α := fun w =>
  if w.self.hasMethod name then body w
  else (.error (JSVal.typeError ("this." ++ name ++ " is not a function")), w)

/-- The call `request.processRequest(method, url, headers, data)`: logged, and
answered by the transport. -/
def send (env : Env) (method url : String) (headers data : JSVal) : Exec JSVal := fun w =>
  let req : Request := { method := method, url := url, headers := headers, data := data }
  (env.processRequest req, { w with sent := w.sent ++ [req] })

end Exec

/-! ## The capability-table builder (`populateEnums`) -/

/-- Store an own property of a plain object: a new key is appended, an existing key
keeps its place. -/
def upsert (tbl : List (String × JSVal)) (key : String) (v : JSVal) : List (String × JSVal) :=
  match tbl with
  | [] => [(key, v)]
  | (k1, v1) :: rest => if k1 = key then (k1, v) :: rest else (k1, v1) :: upsert rest key v

/-- The assignment `table[key] = v` on a table created as `{}`: the name `__proto__`
reaches the accessor of `Object.prototype` and never becomes an own property. -/
def tableSet (tbl : List (String × JSVal)) (key : String) (v : JSVal) : List (String × JSVal) :=
  if key = "__proto__" then tbl else upsert tbl key v

/-- The loop `for (const k of items) { table[k] = k; }`. -/
def fillTable (tbl : List (String × JSVal)) : List JSVal → Except JSVal (List (String × JSVal))
  | [] => .ok tbl
  | k :: rest =>
      match JSVal.toStr k with
      | .error e => .error e
      | .ok key => fillTable (tableSet tbl key k) rest

/-- The statement `if (descr.field) { for (const k of descr.field) { table[k] = k; } }`. -/
def collect (tbl : List (String × JSVal)) (descr : JSVal) (field : String) :
    Except JSVal (List (String × JSVal)) := do
  let v ← JSVal.getProp descr field
  if v.truthy then
    let items ← JSVal.iterate v
    fillTable tbl items
  else
    pure tbl

/-- The four local tables of the nested branch. -/
structure Tables where
  exchangeSegments : List (String × JSVal)
  orderTypes : List (String × JSVal)
  productTypes : List (String × JSVal)
  timeInForce : List (String × JSVal)

/-- The loop `for (const j of Object.keys(enumValue)) { ... }` of the nested branch. -/
def scanSubKeys (enumValue : JSVal) : List String → Tables → Except JSVal Tables
  | [], t => .ok t
  | j :: rest, t => do
      let exchangeSegments := tableSet t.exchangeSegments j (.str j)
      let orderTypes ← collect t.orderTypes (enumValue.getField j) "orderType"
      let productTypes ← collect t.productTypes (enumValue.getField j) "productType"
      let timeInForce ← collect t.timeInForce (enumValue.getField j) "timeInForce"
      scanSubKeys enumValue rest
        { exchangeSegments := exchangeSegments, orderTypes := orderTypes,
          productTypes := productTypes, timeInForce := timeInForce }

/-- One round of the outer loop of `populateEnums`, for the category `enumKey`. -/
def populateCategory (enums : JSVal) (enumKey : String) : Exec Unit := do
  let enumValue ← Exec.lift (JSVal.getProp enums enumKey)
  let length ← Exec.lift (JSVal.getProp enumValue "length")
  if length.nullish then
    let t ← Exec.lift (scanSubKeys enumValue enumValue.ownKeys
      { exchangeSegments := [], orderTypes := [], productTypes := [], timeInForce := [] })
    Exec.writeThis enumKey (.obj t.exchangeSegments)
    Exec.writeThis "orderTypes" (.obj t.orderTypes)
    Exec.writeThis "productTypes" (.obj t.productTypes)
    Exec.writeThis "timeInForce" (.obj t.timeInForce)
  else
    let items ← Exec.lift (JSVal.iterate enumValue)
    let simpleEnumObject ← Exec.lift (fillTable [] items)
    Exec.writeThis enumKey (.obj simpleEnumObject)

/-- The loop `for (const i in enums) { ... }` over the keys still to visit. -/
def populateLoop (enums : JSVal) : List String → Exec Unit
  | [] => pure ()
  | i :: rest => do
      populateCategory enums i
      populateLoop enums rest

/-- The method `populateEnums(enums)`. -/
def populateEnums (enums : JSVal) : Exec Unit :=
  populateLoop enums enums.ownKeys

/-! ## The gates -/

/-- The method `checkLoggedIn()`. -/
def checkLoggedIn : Exec JSVal := do
  if (← Exec.readThis "isLoggedIn").truthy then
    pure (.bool true)
  else
    Exec.raise (.obj [("message", .str "Login is Required"), ("stack", .str "login is mandatory"),
      ("statusCode", .num 404)])

/-- The method `checkClientCodes(reqObject)`. -/
def checkClientCodes (reqObject : JSVal) : Exec JSVal := do
  if (← Exec.readThis "isInvestorClient").truthy then
    pure (.bool true)
  else
    if reqObject.nullish then
      Exec.raise (.obj [("message", .str "ClientCode is Required"),
        ("stack", .str "clientCode is mandatory"), ("statusCode", .num 404)])
    else if (reqObject.getField "clientID").nullish then
      Exec.raise (.obj [("message", .str "ClientCode is Required"),
        ("stack", .str "clientCode is mandatory"), ("statusCode", .num 404)])
    else
      pure (.bool true)

/-! ## The uniform catch -/

/-- The expression `error && error.k ? error.k : dflt`. -/
def orDefault (error : JSVal) (k : String) (dflt : JSVal) : Except JSVal JSVal := do
  let c ← (if error.truthy then JSVal.getProp error k else pure error)
  if c.truthy then JSVal.getProp error k else pure dflt

/-- The `catch (error)` block every operation ends with, for the fallback message
of the operation; it throws what `new CustomError(...)` throws. -/
def catchHandler (fallback : String) (error : JSVal) : Exec JSVal := do
  if error.isCustomError then
    pure error
  else
    let message ← Exec.lift (orDefault error "message" (.str fallback))
    let stack ← Exec.lift (orDefault error "stack" .undefined)
    let statusCode ← Exec.lift (orDefault error "statusCode" (.num 500))
    Exec.lift (CustomError message stack statusCode)

/-! ## The public operations: `try` blocks -/

/-- The `try` block of `logIn`. -/
def logInTry (env : Env) (reqObject : JSVal) : Exec JSVal := do
  let url ← Exec.lift ((← Exec.readThis "url").plusStr env.api.session)
  let response ← Exec.send env "POST" url (.obj []) reqObject
  Exec.writeThis "userID" (← Exec.lift (reqObject.getProp "userID"))
  Exec.writeThis "source" (← Exec.lift (reqObject.getProp "source"))
  Exec.writeThis "token" (← Exec.lift (do (← response.getProp "result").getProp "token"))
  Exec.writeThis "enums" (← Exec.lift (do (← response.getProp "result").getProp "enums"))
  Exec.writeThis "clientCodes" (← Exec.lift (do (← response.getProp "result").getProp "clientCodes"))
  Exec.writeThis "isInvestorClient"
    (← Exec.lift (do (← response.getProp "result").getProp "isInvestorClient"))
  Exec.writeThis "isLoggedIn" (.bool true)
  let enums ← Exec.lift (do (← response.getProp "result").getProp "enums")
  Exec.callMethod "populateEnums" (populateEnums enums)
  pure response

/-- The `try` block of `loginWithToken`. -/
def loginWithTokenTry (env : Env) (userID token : JSVal) : Exec JSVal := do
  let url ← Exec.lift ((← Exec.readThis "url").plusStr (env.api.enums ++ "?userID="))
  let url ← Exec.lift (JSVal.strPlus url userID)
  let response ← Exec.send env "GET" url (.obj [("authorization", token)]) .null
  Exec.writeThis "userID" userID
  Exec.writeThis "token" token
  Exec.writeThis "enums" (← Exec.lift (do (← response.getProp "result").getProp "enums"))
  Exec.writeThis "clientCodes" (← Exec.lift (do (← response.getProp "result").getProp "clientCodes"))
  Exec.writeThis "isInvestorClient"
    (← Exec.lift (do (← response.getProp "result").getProp "isInvestorClient"))
  Exec.writeThis "isLoggedIn" (.bool true)
  let enums ← Exec.lift (do (← response.getProp "result").getProp "enums")
  Exec.callMethod "populateEnums" (populateEnums enums)
  pure response

/-- The `try` block of `logOut`. -/
def logOutTry (env : Env) : Exec JSVal := do
  let _ ← Exec.callMethod "checkLoggedIn" checkLoggedIn
  let url ← Exec.lift ((← Exec.readThis "url").plusStr env.api.session)
  let response ← Exec.send env "DELETE" url (.obj [("authorization", ← Exec.readThis "token")]) .null
  pure response

/-- The `try` block of `getProfile`. -/
def getProfileTry (env : Env) (reqObject : JSVal) : Exec JSVal := do
  let _ ← Exec.callMethod "checkLoggedIn" checkLoggedIn
  let apiUrl ← Exec.lift ((← Exec.readThis "url").plusStr env.api.profile)
  let apiUrl ←
    if reqObject.truthy && (reqObject.getField "clientID").truthy then
      Exec.lift (JSVal.strPlus (apiUrl ++ "?clientID=") (reqObject.getField "clientID"))
    else pure apiUrl
  let response ← Exec.send env "GET" apiUrl (.obj [("authorization", ← Exec.readThis "token")]) .null
  pure response

/-- The `try` block of `getBalance`. -/
def getBalanceTry (env : Env) (reqObject : JSVal) : Exec JSVal := do
  let _ ← Exec.callMethod "checkLoggedIn" checkLoggedIn
  let apiUrl ← Exec.lift ((← Exec.readThis "url").plusStr env.api.balance)
  let apiUrl ←
    if reqObject.truthy && (reqObject.getField "clientID").truthy then
      Exec.lift (JSVal.strPlus (apiUrl ++ "?clientID=") (reqObject.getField "clientID"))
    else pure apiUrl
  let response ← Exec.send env "GET" apiUrl (.obj [("authorization", ← Exec.readThis "token")]) .null
  pure response

/-- The `try` block of `getHoldings`. -/
def getHoldingsTry (env : Env) (reqObject : JSVal) : Exec JSVal := do
  let _ ← Exec.callMethod "checkLoggedIn" checkLoggedIn
  let apiUrl ← Exec.lift ((← Exec.readThis "url").plusStr env.api.holding)
  let apiUrl ←
    if reqObject.truthy && (reqObject.getField "clientID").truthy then
      Exec.lift (JSVal.strPlus (apiUrl ++ "?clientID=") (reqObject.getField "clientID"))
    else pure apiUrl
  let response ← Exec.send env "GET" apiUrl (.obj [("authorization", ← Exec.readThis "token")]) .null
  pure response

/-- The `try` block of `getPositions`. -/
def getPositionsTry (env : Env) (reqObject : JSVal) : Exec JSVal := do
  let _ ← Exec.callMethod "checkLoggedIn" checkLoggedIn
  let dayOrNetVal :=
    if reqObject.truthy && (reqObject.getField "dayOrNet").truthy then reqObject.getField "dayOrNet"
    else .str "DayWise"
  let constructedURL ← Exec.lift ((← Exec.readThis "url").plusStr (env.api.position ++ "?dayOrNet="))
  let constructedURL ← Exec.lift (JSVal.strPlus constructedURL dayOrNetVal)
  let constructedURL ←
    if reqObject.truthy && (reqObject.getField "clientID").truthy then
      Exec.lift (JSVal.strPlus (constructedURL ++ "&clientID=") (reqObject.getField "clientID"))
    else pure constructedURL
  let response ← Exec.send env "GET" constructedURL
    (.obj [("authorization", ← Exec.readThis "token")]) .null
  pure response

/-- The `try` block of `positionConversion`. -/
def positionConversionTry (env : Env) (reqObject : JSVal) : Exec JSVal := do
  let _ ← Exec.callMethod "checkLoggedIn" checkLoggedIn
  let url ← Exec.lift ((← Exec.readThis "url").plusStr env.api.convert)
  let response ← Exec.send env "PUT" url (.obj [("authorization", ← Exec.readThis "token")]) reqObject
  pure response

/-- The `try` block of `squareOff`. -/
def squareOffTry (env : Env) (reqObject : JSVal) : Exec JSVal := do
  let _ ← Exec.callMethod "checkLoggedIn" checkLoggedIn
  let url ← Exec.lift ((← Exec.readThis "url").plusStr env.api.squareoff)
  let response ← Exec.send env "PUT" url (.obj [("authorization", ← Exec.readThis "token")]) reqObject
  pure response

/-- The `try` block of `placeOrder`. -/
def placeOrderTry (env : Env) (reqObject : JSVal) : Exec JSVal := do
  let _ ← Exec.callMethod "checkLoggedIn" checkLoggedIn
  let url ← Exec.lift ((← Exec.readThis "url").plusStr env.api.orders)
  let response ← Exec.send env "POST" url (.obj [("authorization", ← Exec.readThis "token")]) reqObject
  pure response

/-- The `try` block of `modifyOrder`. -/
def modifyOrderTry (env : Env) (reqObject : JSVal) : Exec JSVal := do
  let _ ← Exec.callMethod "checkLoggedIn" checkLoggedIn
  let _ ← Exec.callMethod "checkClientCodes" (checkClientCodes reqObject)
  let url ← Exec.lift ((← Exec.readThis "url").plusStr env.api.orders)
  let response ← Exec.send env "PUT" url (.obj [("authorization", ← Exec.readThis "token")]) reqObject
  pure response

/-- The `try` block of `cancelOrder`. -/
def cancelOrderTry (env : Env) (reqObject : JSVal) : Exec JSVal := do
  let _ ← Exec.callMethod "checkLoggedIn" checkLoggedIn
  let _ ← Exec.callMethod "checkClientCodes" (checkClientCodes reqObject)
  let queryString ← Exec.lift (env.urlSearchParams reqObject)
  let url ← Exec.lift ((← Exec.readThis "url").plusStr (env.api.orders ++ "?" ++ queryString))
  let response ← Exec.send env "DELETE" url (.obj [("authorization", ← Exec.readThis "token")]) .null
  pure response

/-- The `try` block of `placeCoverOrder`. -/
def placeCoverOrderTry (env : Env) (reqObject : JSVal) : Exec JSVal := do
  let _ ← Exec.callMethod "checkLoggedIn" checkLoggedIn
  let url ← Exec.lift ((← Exec.readThis "url").plusStr env.api.cover)
  let response ← Exec.send env "POST" url (.obj [("authorization", ← Exec.readThis "token")]) reqObject
  pure response

/-- The `try` block of `exitCoverOrder`. -/
def exitCoverOrderTry (env : Env) (reqObject : JSVal) : Exec JSVal := do
  let _ ← Exec.callMethod "checkLoggedIn" checkLoggedIn
  let url ← Exec.lift ((← Exec.readThis "url").plusStr (env.api.cover ++ "?appOrderID="))
  let url ← Exec.lift (JSVal.strPlus url (← Exec.lift (reqObject.getProp "appOrderID")))
  let response ← Exec.send env "PUT" url (.obj [("authorization", ← Exec.readThis "token")]) .null
  pure response

/-- The `try` block of `getOrderBook`. -/
def getOrderBookTry (env : Env) (reqObject : JSVal) : Exec JSVal := do
  let _ ← Exec.callMethod "checkLoggedIn" checkLoggedIn
  let _ ← Exec.callMethod "checkClientCodes" (checkClientCodes reqObject)
  let url ← Exec.lift ((← Exec.readThis "url").plusStr env.api.orders)
  let response ← Exec.send env "GET" url (.obj [("authorization", ← Exec.readThis "token")]) .null
  pure response

/-- The `try` block of `getTradeBook`. -/
def getTradeBookTry (env : Env) (reqObject : JSVal) : Exec JSVal := do
  let _ ← Exec.callMethod "checkLoggedIn" checkLoggedIn
  let _ ← Exec.callMethod "checkClientCodes" (checkClientCodes reqObject)
  let url ← Exec.lift ((← Exec.readThis "url").plusStr env.api.trade)
  let response ← Exec.send env "GET" url (.obj [("authorization", ← Exec.readThis "token")]) .null
  pure response

/-- The `try` block of `getOrderHistory`. -/
def getOrderHistoryTry (env : Env) (appOrderID : JSVal) : Exec JSVal := do
  let _ ← Exec.callMethod "checkLoggedIn" checkLoggedIn
  let orderHistoryPath :=
    if JSVal.jsEndsWith env.api.orderHistory "/" then env.api.orderHistory
    else env.api.orderHistory ++ "/"
  let url ← Exec.lift ((← Exec.readThis "url").plusStr orderHistoryPath)
  let url ← Exec.lift (JSVal.strPlus url appOrderID)
  let response ← Exec.send env "GET" url (.obj [("authorization", ← Exec.readThis "token")]) .null
  pure response

/-! ## The public operations -/

/-- The method `logIn(reqObject)`. -/
def logIn (env : Env) (reqObject : JSVal) : Exec JSVal :=
  Exec.tryCatch (logInTry env reqObject) (catchHandler "Login operation failed.")

/-- The method `logOut()`. -/
def logOut (env : Env) : Exec JSVal :=
  Exec.tryCatch (logOutTry env) (catchHandler "Logout operation failed.")

/-- The method `getProfile(reqObject)`. -/
def getProfile (env : Env) (reqObject : JSVal) : Exec JSVal :=
  Exec.tryCatch (getProfileTry env reqObject) (catchHandler "Get profile operation failed.")

/-- The method `getBalance(reqObject)`. -/
def getBalance (env : Env) (reqObject : JSVal) : Exec JSVal :=
  Exec.tryCatch (getBalanceTry env reqObject) (catchHandler "Get balance operation failed.")

/-- The method `getHoldings(reqObject)`. -/
def getHoldings (env : Env) (reqObject : JSVal) : Exec JSVal :=
  Exec.tryCatch (getHoldingsTry env reqObject) (catchHandler "Get holdings operation failed.")

/-- The method `getPositions(reqObject)`. -/
def getPositions (env : Env) (reqObject : JSVal) : Exec JSVal :=
  Exec.tryCatch (getPositionsTry env reqObject) (catchHandler "Get positions operation failed.")

/-- The method `positionConversion(reqObject)`. -/
def positionConversion (env : Env) (reqObject : JSVal) : Exec JSVal :=
  Exec.tryCatch (positionConversionTry env reqObject) (catchHandler "Position conversion operation failed.")

/-- The method `squareOff(reqObject)`. -/
def squareOff (env : Env) (reqObject : JSVal) : Exec JSVal :=
  Exec.tryCatch (squareOffTry env reqObject) (catchHandler "Square off operation failed.")

/-- The method `placeOrder(reqObject)`. -/
def placeOrder (env : Env) (reqObject : JSVal) : Exec JSVal :=
  Exec.tryCatch (placeOrderTry env reqObject) (catchHandler "Place order operation failed.")

/-- The method `modifyOrder(reqObject)`. -/
def modifyOrder (env : Env) (reqObject : JSVal) : Exec JSVal :=
  Exec.tryCatch (modifyOrderTry env reqObject) (catchHandler "Modify order operation failed.")

/-- The method `cancelOrder(reqObject)`. -/
def cancelOrder (env : Env) (reqObject : JSVal) : Exec JSVal :=
  Exec.tryCatch (cancelOrderTry env reqObject) (catchHandler "Cancel order operation failed.")

/-- The method `placeCoverOrder(reqObject)`. -/
def placeCoverOrder (env : Env) (reqObject : JSVal) : Exec JSVal :=
  Exec.tryCatch (placeCoverOrderTry env reqObject) (catchHandler "Place cover order operation failed.")

/-- The method `exitCoverOrder(reqObject)`. -/
def exitCoverOrder (env : Env) (reqObject : JSVal) : Exec JSVal :=
  Exec.tryCatch (exitCoverOrderTry env reqObject) (catchHandler "Exit cover order operation failed.")

/-- The method `getOrderBook(reqObject)`. -/
def getOrderBook (env : Env) (reqObject : JSVal) : Exec JSVal :=
  Exec.tryCatch (getOrderBookTry env reqObject) (catchHandler "Get order book operation failed.")

/-- The method `getTradeBook(reqObject)`. -/
def getTradeBook (env : Env) (reqObject : JSVal) : Exec JSVal :=
  Exec.tryCatch (getTradeBookTry env reqObject) (catchHandler "Get trade book operation failed.")

/-- The method `getOrderHistory(appOrderID)`. -/
def getOrderHistory (env : Env) (appOrderID : JSVal) : Exec JSVal :=
  Exec.tryCatch (getOrderHistoryTry env appOrderID) (catchHandler "Get order history operation failed.")

/-- The method `loginWithToken(userID, token)`. -/
def loginWithToken (env : Env) (userID token : JSVal) : Exec JSVal :=
  Exec.tryCatch (loginWithTokenTry env userID token) (catchHandler "Login with token operation failed.")

/-! ## Calls and reachable sessions -/

/-- A call of a public operation with its arguments. -/
inductive Call where
  | logIn (reqObject : JSVal)
  | loginWithToken (userID token : JSVal)
  | logOut
  | getProfile (reqObject : JSVal)
  | getBalance (reqObject : JSVal)
  | getHoldings (reqObject : JSVal)
  | getPositions (reqObject : JSVal)
  | positionConversion (reqObject : JSVal)
  | squareOff (reqObject : JSVal)
  | placeOrder (reqObject : JSVal)
  | modifyOrder (reqObject : JSVal)
  | cancelOrder (reqObject : JSVal)
  | placeCoverOrder (reqObject : JSVal)
  | exitCoverOrder (reqObject : JSVal)
  | getOrderBook (reqObject : JSVal)
  | getTradeBook (reqObject : JSVal)
  | getOrderHistory (appOrderID : JSVal)

namespace Call

/-- The method name of a call. -/
def name : Call → String
  | .logIn _ => "logIn"
  | .loginWithToken _ _ => "loginWithToken"
  | .logOut => "logOut"
  | .getProfile _ => "getProfile"
  | .getBalance _ => "getBalance"
  | .getHoldings _ => "getHoldings"
  | .getPositions _ => "getPositions"
  | .positionConversion _ => "positionConversion"
  | .squareOff _ => "squareOff"
  | .placeOrder _ => "placeOrder"
  | .modifyOrder _ => "modifyOrder"
  | .cancelOrder _ => "cancelOrder"
  | .placeCoverOrder _ => "placeCoverOrder"
  | .exitCoverOrder _ => "exitCoverOrder"
  | .getOrderBook _ => "getOrderBook"
  | .getTradeBook _ => "getTradeBook"
  | .getOrderHistory _ => "getOrderHistory"

/-- Whether the call is one of the two login operations. -/
def isLogin : Call → Bool
  | .logIn _ => true
  | .loginWithToken _ _ => true
  | _ => false

/-- The `try` block of the called operation. -/
def tryBlock (env : Env) : Call → Exec JSVal
  | .logIn r => logInTry env r
  | .loginWithToken u t => loginWithTokenTry env u t
  | .logOut => logOutTry env
  | .getProfile r => getProfileTry env r
  | .getBalance r => getBalanceTry env r
  | .getHoldings r => getHoldingsTry env r
  | .getPositions r => getPositionsTry env r
  | .positionConversion r => positionConversionTry env r
  | .squareOff r => squareOffTry env r
  | .placeOrder r => placeOrderTry env r
  | .modifyOrder r => modifyOrderTry env r
  | .cancelOrder r => cancelOrderTry env r
  | .placeCoverOrder r => placeCoverOrderTry env r
  | .exitCoverOrder r => exitCoverOrderTry env r
  | .getOrderBook r => getOrderBookTry env r
  | .getTradeBook r => getTradeBookTry env r
  | .getOrderHistory a => getOrderHistoryTry env a

/-- The fallback message of the `catch` block of the called operation. -/
def fallback : Call → String
  | .logIn _ => "Login operation failed."
  | .loginWithToken _ _ => "Login with token operation failed."
  | .logOut => "Logout operation failed."
  | .getProfile _ => "Get profile operation failed."
  | .getBalance _ => "Get balance operation failed."
  | .getHoldings _ => "Get holdings operation failed."
  | .getPositions _ => "Get positions operation failed."
  | .positionConversion _ => "Position conversion operation failed."
  | .squareOff _ => "Square off operation failed."
  | .placeOrder _ => "Place order operation failed."
  | .modifyOrder _ => "Modify order operation failed."
  | .cancelOrder _ => "Cancel order operation failed."
  | .placeCoverOrder _ => "Place cover order operation failed."
  | .exitCoverOrder _ => "Exit cover order operation failed."
  | .getOrderBook _ => "Get order book operation failed."
  | .getTradeBook _ => "Get trade book operation failed."
  | .getOrderHistory _ => "Get order history operation failed."

/-- Run the called operation. -/
def run (env : Env) : Call → Exec JSVal
  | .logIn r => XTS.logIn env r
  | .loginWithToken u t => XTS.loginWithToken env u t
  | .logOut => XTS.logOut env
  | .getProfile r => XTS.getProfile env r
  | .getBalance r => XTS.getBalance env r
  | .getHoldings r => XTS.getHoldings env r
  | .getPositions r => XTS.getPositions env r
  | .positionConversion r => XTS.positionConversion env r
  | .squareOff r => XTS.squareOff env r
  | .placeOrder r => XTS.placeOrder env r
  | .modifyOrder r => XTS.modifyOrder env r
  | .cancelOrder r => XTS.cancelOrder env r
  | .placeCoverOrder r => XTS.placeCoverOrder env r
  | .exitCoverOrder r => XTS.exitCoverOrder env r
  | .getOrderBook r => XTS.getOrderBook env r
  | .getTradeBook r => XTS.getTradeBook env r
  | .getOrderHistory a => XTS.getOrderHistory env a

end Call

/-- The sessions a program can hold: the constructed one, and the session after a
call of a public method that the session object still has. -/
inductive Reachable (defaultUrl : JSVal) : Session → Prop where
  | construct (url : JSVal) : Reachable defaultUrl (XTSInteractive defaultUrl url)
  | call (s : Session) (env : Env) (c : Call) (sent : List Request) :
      Reachable defaultUrl s → s.hasMethod c.name = true →
      Reachable defaultUrl (c.run env { self := s, sent := sent }).2.self

/-! ## Predicates on sessions and computations -/

/-- The value the login gate throws. -/
def loginRequired : JSVal :=
  .obj [("message", .str "Login is Required"), ("stack", .str "login is mandatory"),
    ("statusCode", .num 404)]

/-- The value the client-code gate throws. -/
def clientCodeRequired : JSVal :=
  .obj [("message", .str "ClientCode is Required"), ("stack", .str "clientCode is mandatory"),
    ("statusCode", .num 404)]

/-- Every exit of `m` (return or throw) from a session satisfying `P` leaves a
session satisfying `Q`. -/
def Exec.Keeps {α : Type} (P Q : Session → Prop) (m : Exec α) : Prop :=
  ∀ w : World, P w.self → Q (m w).2.self

/-- The own data properties the constructor and the logins store under fixed names. -/
def baseFields : List String :=
  ["_url", "_token", "_userID", "_source", "_enums", "clientCodes", "isInvestorClient",
    "isLoggedIn", "responseTypes"]

/-- The flag `isLoggedIn` is an own property holding a truthy value. -/
def Session.Logged (s : Session) : Prop :=
  ∃ v, s.props "isLoggedIn" = some v ∧ v.truthy = true

/-- No capability table has been stored: the class prototype is in place and the
own properties are among the fixed ones. -/
def Session.Fresh (s : Session) : Prop :=
  s.proto = none ∧ ∀ k, k ∉ baseFields → s.props k = none

/-- The invariant of reachable sessions: a session that is not logged in holds no
capability table and has all of its methods. -/
def Session.Inv (s : Session) : Prop := s.Logged ∨ s.Fresh

/-- The computation hands no request to the transport. -/
structure Exec.Quiet {α : Type} (m : Exec α) : Prop where
  sent_eq : ∀ w : World, (m w).2.sent = w.sent

/-- Whenever the computation returns, it returns `v`. -/
structure Exec.Returns {α : Type} (m : Exec α) (v : α) : Prop where
  eq_of_ok : ∀ (w w1 : World) (r : α), m w = (.ok r, w1) → r = v

/-- Whenever the computation returns, it has handed exactly one request to the
transport and returns the transport's answer to it. -/
structure Exec.Answers (env : Env) (m : Exec JSVal) : Prop where
  one_request : ∀ (w w1 : World) (v : JSVal), m w = (.ok v, w1) →
    ∃ req, w1.sent = w.sent ++ [req] ∧ env.processRequest req = .ok v

/-- A path table for the examples (the shipped `settings.json` is not in the sources). -/
def exampleApi : RestApi :=
  { session := "/interactive/user/session", profile := "/interactive/user/profile",
    balance := "/interactive/user/balance", holding := "/interactive/portfolio/holdings",
    position := "/interactive/portfolio/positions", convert := "/interactive/portfolio/positions/convert",
    squareoff := "/interactive/portfolio/squareoff", orders := "/interactive/orders",
    cover := "/interactive/orders/cover", trade := "/interactive/orders/trades",
    orderHistory := "/interactive/orders", enums := "/interactive/enums" }

/-- An environment whose transport gives the same outcome to every request. -/
def exampleEnv (outcome : Except JSVal JSVal) : Env :=
  { api := exampleApi, processRequest := fun _ => outcome, urlSearchParams := fun _ => .ok "" }

/-- The session `new XTSInteractive("http://test-api.com")`. -/
def exampleSession : Session :=
  XTSInteractive (.str "http://default-api.com") (.str "http://test-api.com")

/-- The example session after the assignments of a login with token `"T"` for a
client that is not an investor client. -/
def exampleLoggedIn : Session :=
  (((exampleSession.put "userID" (.str "u")).put "token" (.str "T")).put "isInvestorClient"
    (.bool false)).put "isLoggedIn" (.bool true)

/-- The property names of the session that a category name must avoid for the
session fields to survive `populateEnums`: the accessors and their backing
properties, the data fields, and the legacy accessor `__proto__`. -/
def reservedNames : List String :=
  ["__proto__", "token", "userID", "source", "url", "enums", "_token", "_userID", "_source",
    "_url", "_enums", "clientCodes", "isInvestorClient", "isLoggedIn", "responseTypes"]

/-- The session after the seven assignments of `logIn(c)` for a response `r`
(before `populateEnums` runs). -/
def logInAssigned (s : Session) (c r : JSVal) : Session :=
  ((((((s.put "userID" (c.getField "userID")).put "source" (c.getField "source")).put
    "token" ((r.getField "result").getField "token")).put
    "enums" ((r.getField "result").getField "enums")).put
    "clientCodes" ((r.getField "result").getField "clientCodes")).put
    "isInvestorClient" ((r.getField "result").getField "isInvestorClient")).put
    "isLoggedIn" (.bool true)

/-- The credentials of the examples. -/
def exampleCredentials : JSVal :=
  .obj [("userID", .str "u"), ("password", .str "p"), ("publicKey", .str "k"), ("source", .str "s")]

/-- A login response with token `"T"` and the enumeration payload `enums`. -/
def exampleResponse (enums : JSVal) : JSVal :=
  .obj [("result", .obj [("token", .str "T"), ("enums", enums),
    ("clientCodes", .arr [.str "C1"]), ("isInvestorClient", .bool false)])]

/-- An enumeration payload with one nested and one flat category. -/
def exampleEnums : JSVal :=
  .obj [("exchangeSegments", .obj [
          ("NSECM", .obj [("orderType", .arr [.str "LIMIT", .str "MARKET"]),
                          ("productType", .arr [.str "MIS"])]),
          ("NSEFO", .obj [("orderType", .arr [.str "LIMIT"]),
                          ("timeInForce", .arr [.str "DAY"])])]),
        ("orderSide", .arr [.str "BUY", .str "SELL"])]

/-- The transport gives no usable login result: for every request it raises, or
answers with `null`/`undefined` or with a response whose `result` is
`null`/`undefined`. -/
def NoResult (t : Transport) : Prop :=
  ∀ req, match t req with
    | .error _ => True
    | .ok r => r.nullish = true ∨ (r.getField "result").nullish = true

/-- The session after the five assignments of `loginWithToken(userID, token)` for a
response `r` (before `populateEnums` runs). -/
def loginWithTokenAssigned (s : Session) (userID token r : JSVal) : Session :=
  (((((s.put "userID" userID).put "token" token).put
    "enums" ((r.getField "result").getField "enums")).put
    "clientCodes" ((r.getField "result").getField "clientCodes")).put
    "isInvestorClient" ((r.getField "result").getField "isInvestorClient")).put
    "isLoggedIn" (.bool true)

/-- A usable login answer: the transport raises, or answers with a response whose
`result` is an object with a token (when `needToken`) and whose enumeration payload
has no category named `__proto__`. -/
def Served (t : Transport) (needToken : Bool) : Prop :=
  ∀ req, match t req with
    | .error _ => True
    | .ok r => r.nullish = false ∧ (r.getField "result").nullish = false ∧
        (needToken = true → ((r.getField "result").getField "token").nullish = false) ∧
        "__proto__" ∉ ((r.getField "result").getField "enums").ownKeys

/-- A call whose login, if it is one, is given a user identifier (and a token), and
is served by the transport. -/
def Call.Complete (env : Env) : Call → Prop
  | .logIn c => c.nullish = false ∧ (c.getField "userID").nullish = false ∧
      Served env.processRequest true
  | .loginWithToken u t => u.nullish = false ∧ t.nullish = false ∧
      Served env.processRequest false
  | _ => True

/-- The sessions reachable by complete calls. -/
inductive ReachableComplete (defaultUrl : JSVal) : Session → Prop where
  | construct (url : JSVal) : ReachableComplete defaultUrl (XTSInteractive defaultUrl url)
  | call (s : Session) (env : Env) (c : Call) (sent : List Request) :
      ReachableComplete defaultUrl s → s.hasMethod c.name = true → c.Complete env →
      ReachableComplete defaultUrl (c.run env { self := s, sent := sent }).2.self

/-- The class prototype is in place, `isLoggedIn` is truthy, and token and userID
hold values. -/
def Session.Established (s : Session) : Prop :=
  s.proto = none ∧ (∃ v, s.props "isLoggedIn" = some v ∧ v.truthy = true) ∧
    (∃ t, s.props "_token" = some t ∧ t.nullish = false) ∧
    (∃ u, s.props "_userID" = some u ∧ u.nullish = false)

/-- The outcome of an operation that gets as far as handing `req` to the transport:
the transport's answer, or what the catch makes of the value the transport raises
(a `CustomError`, or the error of constructing it); the request is logged and the
session is untouched. -/
def sendOutcome (env : Env) (fallback : String) (req : Request) (w : World) :
    Except JSVal JSVal × World :=
  match env.processRequest req with
  | .ok v => (.ok v, { w with sent := w.sent ++ [req] })
  | .error e => catchHandler fallback e { w with sent := w.sent ++ [req] }

/-- An authenticated session: `isLoggedIn` is truthy and the two gate methods are
the ones of the class. -/
structure Session.Authenticated (s : Session) : Prop where
  loggedIn : s.isLoggedIn.truthy = true
  hasLoginGate : s.hasMethod "checkLoggedIn" = true
  hasClientGate : s.hasMethod "checkClientCodes" = true

/-- The outcome `out` of an operation run from `w`: exactly the request `req` was
handed to the transport, the session is untouched, and the transport's answer, when
it gives one, is returned unchanged. -/
def SendsOnce (env : Env) (w : World) (req : Request) (out : Except JSVal JSVal × World) : Prop :=
  out.2.sent = w.sent ++ [req] ∧ out.2.self = w.self ∧
    ∀ v, env.processRequest req = .ok v → out.1 = .ok v

/-- The example session of an investor client. -/
def exampleInvestor : Session :=
  exampleLoggedIn.put "isInvestorClient" (.bool true)

/-- An order payload carrying a client code. -/
def exampleOrder : JSVal :=
  .obj [("clientID", .str "C1"), ("appOrderID", .num 1991237756), ("orderQuantity", .num 100)]

/-- The assignments `this[k] = v` of a list of pairs, in order. -/
def applyWrites (s : Session) (ws : List (String × JSVal)) : Session :=
  ws.foldl (fun t kv => t.put kv.1 kv.2) s

/-- The computation does nothing but a fixed list of assignments to the session,
and its result does not depend on the session. -/
def Exec.Writes {α : Type} (m : Exec α) : Prop :=
  ∃ (ws : List (String × JSVal)) (res : Except JSVal α),
    ∀ w : World, m w = (res, { self := applyWrites w.self ws, sent := w.sent })

/-- The strings of a list all of whose elements are strings. -/
def strItems : List JSVal → Option (List String)
  | [] => some []
  | .str s :: rest => (strItems rest).map (fun l => s :: l)
  | _ :: _ => none

/-- The strings of an optional list of a descriptor: none for an absent field. -/
def optionalStrings : JSVal → Option (List String)
  | .undefined => some []
  | .arr xs => strItems xs
  | _ => none

/-- The table after `table[k] = k` for each of the strings `ks`. -/
def addKeys (tbl : List (String × JSVal)) (ks : List String) : List (String × JSVal) :=
  ks.foldl (fun t k => tableSet t k (.str k)) tbl

/-- The strings of the optional list `field` of the descriptor stored under the
sub-key `j`. -/
def entriesOf (subs : List (String × JSVal)) (field : String) (j : String) : List String :=
  (optionalStrings ((JSVal.lookupField j subs).getField field)).getD []

/-- The aggregated table of `field` after scanning the sub-keys `js`. -/
def aggregate (subs : List (String × JSVal)) (field : String) (js : List String)
    (tbl : List (String × JSVal)) : List (String × JSVal) :=
  js.foldl (fun t j => addKeys t (entriesOf subs field j)) tbl

/-- Every key of the table maps to itself. -/
def SelfMapped (tbl : List (String × JSVal)) : Prop :=
  ∀ p ∈ tbl, p.2 = .str p.1

/-- A flat category: a list of string values. -/
def isFlatList (v : JSVal) : Bool :=
  match v with
  | .arr xs => (strItems xs).isSome
  | _ => false

/-- A descriptor: an object in which each of `orderType`, `productType` and
`timeInForce` is absent or a list of strings. -/
def isDescriptor (d : JSVal) : Bool :=
  match d with
  | .obj _ =>
      (optionalStrings (d.getField "orderType")).isSome &&
      (optionalStrings (d.getField "productType")).isSome &&
      (optionalStrings (d.getField "timeInForce")).isSome
  | _ => false

/-- A nested category: a mapping from sub-keys to descriptors. -/
def isNestedMap (v : JSVal) : Bool :=
  match v with
  | .obj subs => subs.all (fun p => isDescriptor (JSVal.lookupField p.1 subs))
  | _ => false

/-- A well-shaped enumeration payload: a mapping from category names to flat lists
of strings or nested categories. -/
def isWellShaped (enums : JSVal) : Bool :=
  match enums with
  | .obj cats => cats.all (fun p =>
      isFlatList (JSVal.lookupField p.1 cats) || isNestedMap (JSVal.lookupField p.1 cats))
  | _ => false

/-- No nested category of the payload has a sub-key named `length`. -/
def noLengthSubKey (enums : JSVal) : Bool :=
  match enums with
  | .obj cats => cats.all (fun p =>
      match JSVal.lookupField p.1 cats with
      | .obj subs => !(JSVal.hasKey "length" subs)
      | _ => true)
  | _ => true

/-- The sub-keys and descriptors of the nested category of the examples. -/
def exampleSubs : List (String × JSVal) :=
  [("NSECM", .obj [("orderType", .arr [.str "LIMIT", .str "MARKET"]),
                   ("productType", .arr [.str "MIS"])]),
   ("NSEFO", .obj [("orderType", .arr [.str "LIMIT"]),
                   ("timeInForce", .arr [.str "DAY"])])]

/-- The assignments one round of `populateEnums` makes for the category `k` of a
well-shaped payload. -/
def categoryWrites (cats : List (String × JSVal)) (k : String) : List (String × JSVal) :=
  match JSVal.lookupField k cats with
  | .arr xs => [(k, .obj (addKeys [] ((strItems xs).getD [])))]
  | .obj subs =>
      [(k, .obj (addKeys [] (subs.map Prod.fst))),
       ("orderTypes", .obj (aggregate subs "orderType" (subs.map Prod.fst) [])),
       ("productTypes", .obj (aggregate subs "productType" (subs.map Prod.fst) [])),
       ("timeInForce", .obj (aggregate subs "timeInForce" (subs.map Prod.fst) []))]
  | _ => []

/-- The assignments `populateEnums` makes for the categories `ks` of a well-shaped
payload, in order. -/
def payloadWrites (cats : List (String × JSVal)) : List String → List (String × JSVal)
  | [] => []
  | k :: rest => categoryWrites cats k ++ payloadWrites cats rest

/-- The own property that the name `k` reads and writes while the class prototype
is in place. -/
def Session.slotOf (k : String) : String :=
  (Session.accessorField k).getD k

/-- The seven assignments of `logIn(c)` for a response `r`, as a list. -/
def logInWrites (c r : JSVal) : List (String × JSVal) :=
  [("userID", c.getField "userID"), ("source", c.getField "source"),
   ("token", (r.getField "result").getField "token"),
   ("enums", (r.getField "result").getField "enums"),
   ("clientCodes", (r.getField "result").getField "clientCodes"),
   ("isInvestorClient", (r.getField "result").getField "isInvestorClient"),
   ("isLoggedIn", .bool true)]

/-- The example session after a successful login whose response carries
`exampleEnums`. -/
def exampleAfterLogin : Session :=
  (logIn (exampleEnv (.ok (exampleResponse exampleEnums))) exampleCredentials
    { self := exampleSession, sent := [] }).2.self

/-! ## The transport adapter (`request.js`) -/

/-- The configuration object handed to `axios`: `data` is set only for some methods. -/
structure AxiosConfig where
  method : String
  url : String
  headers : JSVal
  data : Option JSVal

/-- The collaborators of `processRequest`: the HTTP library (the value it resolves
with, or the value it rejects with) and `JSON.stringify`. -/
structure Http where
  axios : AxiosConfig → Except JSVal JSVal
  stringify : JSVal → JSVal

/-- What `processRequest` has done besides returning: the values passed to
`logger.logFile`, and the configurations passed to `axios`, in order. -/
structure NetLog where
  logged : List JSVal
  calls : List AxiosConfig

/-- Upper case of one character, as far as a comparison with a word of ASCII
letters can tell: the ASCII letters, and the three characters outside ASCII whose
upper case consists of ASCII letters (U+017F to `S`, U+FB05 and U+FB06 to `ST`).
The upper case of any other character contains a character outside ASCII; it is
left as it is. -/
def upperChar (c : Char) : String :=
  if c.toNat = 0x17F then "S"
  else if c.toNat = 0xFB05 ∨ c.toNat = 0xFB06 then "ST"
  else String.singleton c.toUpper

/-- The method `toUpperCase()` of strings. -/
def toUpperCase (s : String) : String :=
  String.join (s.toList.map upperChar)

/-- The operator `typeof`. -/
def typeOf : JSVal → String
  | .undefined => "undefined"
  | .null => "object"
  | .bool _ => "boolean"
  | .num _ => "number"
  | .str _ => "string"
  | .arr _ => "object"
  | .obj _ => "object"
  | .customError _ _ _ => "object"

/-- The expression
`config.data ? (typeof config.data === 'object' ? Object.keys(config.data) : typeof config.data) : 'N/A'`. -/
def dataToLog (data : Option JSVal) : JSVal :=
  match data with
  | none => .str "N/A"
  | some d =>
      if d.truthy then
        if typeOf d = "object" then .arr (d.ownKeys.map JSVal.str) else .str (typeOf d)
      else .str "N/A"

/-- The `catch (error)` block of `processRequest`: it logs and throws `error` again;
reading `error.response` throws when `error` is `null` or `undefined`. -/
def processRequestCatch (h : Http) (error : JSVal) (st : NetLog) : Except JSVal JSVal × NetLog :=
  let st1 : NetLog :=
    { st with logged := st.logged ++ [.str "Exception object received from the server (Axios error):"] }
  match error.getProp "response" with
  | .error e => (.error e, st1)
  | .ok response =>
      if response.truthy then
        (.error error, { st1 with logged := st1.logged ++ [h.stringify (.obj [
          ("status", response.getField "status"), ("data", response.getField "data"),
          ("headers", response.getField "headers")])] })
      else if (error.getField "request").truthy then
        (.error error, { st1 with logged := st1.logged ++ [h.stringify (.obj [
          ("message", .str "No response received"), ("request", error.getField "request")])] })
      else
        (.error error, { st1 with logged := st1.logged ++ [h.stringify (.obj [
          ("message", error.getField "message")])] })

/-- The function `processRequest(method, url, headers, data)` with what it logs and
what it hands to `axios`. -/
def processRequestRun (h : Http) (req : Request) : Except JSVal JSVal × NetLog :=
  match req.headers.getProp "authorization" with
  | .error e => processRequestCatch h e { logged := [], calls := [] }
  | .ok authorization =>
      let config : AxiosConfig :=
        { method := req.method, url := req.url,
          headers := .obj [("authorization", authorization)],
          data :=
            if toUpperCase req.method = "POST" ∨ toUpperCase req.method = "PUT" ∨
                toUpperCase req.method = "PATCH" then some req.data
            else none }
      let st1 : NetLog :=
        { logged := [.str "Request object sent to the server (Axios config):",
            h.stringify (.obj [("url", .str config.url), ("method", .str config.method),
              ("headers", config.headers), ("dataContent", dataToLog config.data)])],
          calls := [config] }
      match h.axios config with
      | .error e => processRequestCatch h e st1
      | .ok response =>
          let st2 : NetLog :=
            { st1 with logged := st1.logged ++
                [.str "Response object received from the server (Axios response.data):"] }
          match response.getProp "data" with
          | .error e => processRequestCatch h e st2
          | .ok d => (.ok d, { st2 with logged := st2.logged ++ [h.stringify d] })

/-- The function `processRequest` as the transport of the session client. -/
def processRequest (h : Http) : Transport :=
  fun req => (processRequestRun h req).1

/-- The HTTP library resolves with response objects and rejects with error objects,
never with `null` or `undefined`. -/
def Http.WellFormed (h : Http) : Prop :=
  ∀ config, match h.axios config with
    | .ok r => r.nullish = false
    | .error e => e.nullish = false

/-- The escape `JSON.stringify` writes for one character of a string. -/
def escapeChar (c : Char) : String :=
  if c.toNat = 34 then "\\\""
  else if c.toNat = 92 then "\\\\"
  else if c.toNat = 8 then "\\b"
  else if c.toNat = 9 then "\\t"
  else if c.toNat = 10 then "\\n"
  else if c.toNat = 12 then "\\f"
  else if c.toNat = 13 then "\\r"
  else if c.toNat < 16 then "\\u000" ++ String.singleton (Nat.digitChar c.toNat)
  else if c.toNat < 32 then "\\u001" ++ String.singleton (Nat.digitChar (c.toNat - 16))
  else String.singleton c

/-- The JSON text of a string. -/
def quoteJSON (s : String) : String :=
  "\"" ++ String.join (s.toList.map escapeChar) ++ "\""

mutual
/-- The text `JSON.stringify(v)` without indentation; `none` where the result is
`undefined`.  Of a `CustomError` the enumerable members are written: `name` and
`statusCode` (`message` is not enumerable, or is `undefined`). -/
def jsonText : JSVal → Option String
  | .undefined => none
  | .null => some "null"
  | .bool true => some "true"
  | .bool false => some "false"
  | .num n => some (toString n)
  | .str s => some (quoteJSON s)
  | .arr xs => some ("[" ++ ",".intercalate (jsonElems xs) ++ "]")
  | .obj fs => some ("\x7b" ++ ",".intercalate (jsonMembers fs) ++ "\x7d")
  | .customError _ _ sc =>
      some ("\x7b" ++ ",".intercalate
        ([quoteJSON "name" ++ ":" ++ quoteJSON "CustomError"] ++
         (match jsonText sc with
          | none => []
          | some t => [quoteJSON "statusCode" ++ ":" ++ t])) ++ "\x7d")
/-- The texts of the elements of an array: `null` for `undefined`. -/
def jsonElems : List JSVal → List String
  | [] => []
  | x :: rest =>
      (match jsonText x with
       | none => "null"
       | some t => t) :: jsonElems rest
/-- The texts of the members of an object: none for an `undefined` value. -/
def jsonMembers : List (String × JSVal) → List String
  | [] => []
  | (k, v) :: rest =>
      match jsonText v with
      | none => jsonMembers rest
      | some t => (quoteJSON k ++ ":" ++ t) :: jsonMembers rest
end

/-- The function `JSON.stringify` on the values of the model. -/
def jsonStringify (v : JSVal) : JSVal :=
  match jsonText v with
  | none => .undefined
  | some t => .str t

/-- An HTTP library of the examples, with the same outcome for every call. -/
def exampleHttp (outcome : Except JSVal JSVal) : Http :=
  { axios := fun _ => outcome, stringify := jsonStringify }

/-- The configuration `processRequest` builds from its arguments, for headers that
are not `null` or `undefined`. -/
def requestConfig (req : Request) : AxiosConfig :=
  { method := req.method, url := req.url,
    headers := .obj [("authorization", req.headers.getField "authorization")],
    data :=
      if toUpperCase req.method = "POST" ∨ toUpperCase req.method = "PUT" ∨
          toUpperCase req.method = "PATCH" then some req.data
      else none }

/-- The computation hands the transport no request, or exactly one, with a headers
object; and when the transport rejects that one, the computation throws the value
the transport rejected with. -/
structure Exec.Forwards (env : Env) (m : Exec JSVal) : Prop where
  forwards : ∀ (w w1 : World) (r : Except JSVal JSVal), m w = (r, w1) →
    w1.sent = w.sent ∨
      ∃ req, w1.sent = w.sent ++ [req] ∧ req.headers.nullish = false ∧
        ∀ e, env.processRequest req = .error e → r = .error e

/-- The eight fields of the session that `populateEnums` is not meant to write. -/
def sessionFields : List String :=
  ["url", "token", "userID", "source", "enums", "clientCodes", "isInvestorClient", "isLoggedIn"]

/-- The own properties a read of a session field can reach: the fields themselves
and the backing properties of the accessors. -/
def fieldSlots : List String :=
  sessionFields ++ ["_url", "_token", "_userID", "_source", "_enums"]

/-- The property names whose assignment can change a session field: the slots and
the legacy accessor `__proto__`. -/
def fieldWriters : List String :=
  "__proto__" :: fieldSlots

/-! ## The logger (`logger.js`) -/

/-- What the logger reads of a `Date`: the results of `getMonth()` (0 for January),
`getDate()`, `getFullYear()`, `getHours()`, `getMinutes()` and `getSeconds()`. -/
structure Date where
  month : Nat
  date : Nat
  fullYear : Int
  hours : Nat
  minutes : Nat
  seconds : Nat

/-- The expression `n < 10 ? '0' + n : '' + n`. -/
def twoDigits (n : Nat) : String :=
  if n < 10 then "0" ++ toString n else "" ++ toString n

/-- The function `getMonthFormatted(date)`. -/
def getMonthFormatted (date : Date) : String :=
  twoDigits (date.month + 1)

/-- The function `getMonthFormattedString(date)`: the `switch` over the month, and
the statements after it for any other month. -/
def getMonthFormattedString (date : Date) : String :=
  match date.month with
  | 0 => "Jan"
  | 1 => "Feb"
  | 2 => "Mar"
  | 3 => "Apr"
  | 4 => "May"
  | 5 => "Jun"
  | 6 => "Jul"
  | 7 => "Aug"
  | 8 => "Sep"
  | 9 => "Oct"
  | 10 => "Nov"
  | 11 => "Dec"
  | _ => twoDigits (date.month + 1)

/-- The function `getDayFormatted(date)`. -/
def getDayFormatted (date : Date) : String := twoDigits date.date

/-- The function `getHourFormatted(date)`. -/
def getHourFormatted (date : Date) : String := twoDigits date.hours

/-- The function `getMinuteFormatted(date)`. -/
def getMinuteFormatted (date : Date) : String := twoDigits date.minutes

/-- The function `getSecondFormatted(date)`. -/
def getSecondFormatted (date : Date) : String := twoDigits date.seconds

/-- The function `getFormattedDateTime(date)`. -/
def getFormattedDateTime (date : Date) : String :=
  getDayFormatted date ++ "/" ++ getMonthFormatted date ++ "/" ++ toString date.fullYear ++ " " ++
    getHourFormatted date ++ ":" ++ getMinuteFormatted date ++ ":" ++ getSecondFormatted date

/-- The function `getDateTimeFormatted(date)`. -/
def getDateTimeFormatted (date : Date) : String :=
  getMonthFormattedString date ++ " " ++ getDayFormatted date ++ " " ++ toString date.fullYear ++
    " " ++ getHourFormatted date ++ ":" ++ getMinuteFormatted date ++ ":" ++
    getSecondFormatted date

/-- The function `getLogFileName()`, for the working directory of the process and
the date `new Date()` gives it. -/
def getLogFileName (cwd : String) (d : Date) : String :=
  let dir := cwd ++ "/logs"
  let todaysDate := getDayFormatted d ++ "" ++ getMonthFormatted d ++ "" ++ toString d.fullYear
  dir ++ "/debug_" ++ todaysDate ++ ".txt"

mutual
/-- The text `JSON.stringify(v, null, 2)` for a value at the indentation `ind`;
`none` where the result is `undefined`. -/
def jsonIndented (ind : String) : JSVal → Option String
  | .undefined => none
  | .null => some "null"
  | .bool true => some "true"
  | .bool false => some "false"
  | .num n => some (toString n)
  | .str s => some (quoteJSON s)
  | .arr xs =>
      match jsonIndentedElems (ind ++ "  ") xs with
      | [] => some "[]"
      | parts =>
          some ("[\n" ++ ind ++ "  " ++ (",\n" ++ ind ++ "  ").intercalate parts ++ "\n" ++
            ind ++ "]")
  | .obj fs =>
      match jsonIndentedMembers (ind ++ "  ") fs with
      | [] => some "\x7b\x7d"
      | parts =>
          some ("\x7b\n" ++ ind ++ "  " ++ (",\n" ++ ind ++ "  ").intercalate parts ++ "\n" ++
            ind ++ "\x7d")
  | .customError _ _ sc =>
      some ("\x7b\n" ++ ind ++ "  " ++ (",\n" ++ ind ++ "  ").intercalate
        ([quoteJSON "name" ++ ": " ++ quoteJSON "CustomError"] ++
         (match jsonIndented (ind ++ "  ") sc with
          | none => []
          | some t => [quoteJSON "statusCode" ++ ": " ++ t])) ++ "\n" ++ ind ++ "\x7d")
/-- The indented texts of the elements of an array: `null` for `undefined`. -/
def jsonIndentedElems (ind : String) : List JSVal → List String
  | [] => []
  | x :: rest =>
      (match jsonIndented ind x with
       | none => "null"
       | some t => t) :: jsonIndentedElems ind rest
/-- The indented texts of the members of an object: none for an `undefined` value. -/
def jsonIndentedMembers (ind : String) : List (String × JSVal) → List String
  | [] => []
  | (k, v) :: rest =>
      match jsonIndented ind v with
      | none => jsonIndentedMembers ind rest
      | some t => (quoteJSON k ++ ": " ++ t) :: jsonIndentedMembers ind rest
end

/-- The call `JSON.stringify(v, null, 2)`. -/
def jsonStringifyIndented (v : JSVal) : JSVal :=
  match jsonIndented "" v with
  | none => .undefined
  | some t => .str t

/-- The test `typeof v === 'object' && v !== null`. -/
def isObject (v : JSVal) : Bool :=
  match v with
  | .null => false
  | _ => typeOf v = "object"

/-- The callback `logFile` passes to `fs.appendFile`, called with the error of the
append or with `null`. -/
def appendCallback (err : JSVal) : Except JSVal Unit :=
  if err.truthy then pure () else pure ()

/-- The function `logFile(logMessage)`: its outcome and the appends it has requested
of `fs.appendFile` (file name and text), for the two dates `new Date()` gives it. -/
def logFile (cwd : String) (d1 d2 : Date) (logMessage : JSVal) :
    Except JSVal Unit × List (String × String) :=
  let currentLogFileName := getLogFileName cwd d1
  let timestamp := getDateTimeFormatted d2
  match (if isObject logMessage then (jsonStringifyIndented logMessage).toStr
         else logMessage.toStr) with
  | .error e => (.error e, [])
  | .ok formattedMessage =>
      (.ok (), [(currentLogFileName, "[" ++ timestamp ++ "] " ++ formattedMessage ++ " \n")])

/-! ## The streaming client (`interactiveSocket.js`) -/

/-- The event names of `settings.socket` (the file is not part of the sources). -/
structure SocketNames where
  joined : String
  order : String
  trade : String
  position : String
  logout : String

/-- What the streaming client runs against: the configured event names, the
runtime's `JSON.parse` on a text (the value, or the message of the `SyntaxError`),
and the value `eventEmitter.emit('error', payload)` throws when no listener is
registered for `error`. -/
structure SocketEnv where
  names : SocketNames
  parse : String → Except String JSVal
  unhandled : JSVal → JSVal

/-- The value a `SyntaxError` of `JSON.parse` is modelled by. -/
def parseError (msg : String) : JSVal :=
  .obj [("message", .str msg), ("stack", .str ("SyntaxError: " ++ msg))]

/-- The call `JSON.parse(data)`: the text of `data` is parsed. -/
def jsonParse (env : SocketEnv) (data : JSVal) : Except JSVal JSVal :=
  match data.toStr with
  | .error e => .error e
  | .ok text =>
      match env.parse text with
      | .ok v => .ok v
      | .error msg => .error (parseError msg)

/-- The arrow functions `init` registers on a connection, one for each event. -/
inductive Handler where
  | connect
  | joined
  | connectError
  | error
  | disconnect
  | order
  | trade
  | position
  | logout
deriving DecidableEq, Repr

/-- A callback of the caller, by what it does with the value it is called with:
it returns, or it throws a value. -/
abbrev Callback := JSVal → Except JSVal Unit

/-- The two shapes of arrow function the `on...` methods register on the local
event emitter: `(data) => { fn(data) }`, and the one that parses first (the words
of its log line are `what` and `method`). -/
inductive Wrapper where
  | direct
  | parsing (what method : String)
deriving DecidableEq, Repr

/-- A listener registered on the local event emitter: the event it listens to, its
shape, its number in registration order and the callback it wraps. -/
structure Listener where
  event : String
  wrapper : Wrapper
  id : Nat
  fn : Callback

/-- A call of `socketIoClient(url, options)` with the handle it returned, or a call
of `disconnect()` on a handle. -/
inductive ConnAction where
  | opened (handle : Nat) (url : JSVal) (path : String) (reconnection : Bool)
      (token userID : JSVal)
  | closed (handle : Nat)

/-- Whether the action opens a connection. -/
def ConnAction.isOpened : ConnAction → Bool
  | .opened _ _ _ _ _ _ => true
  | .closed _ => false

/-- An `XTSEmitter` instance with what its collaborators have seen of it.
The instance: `url`, `userID`, `token` (the backing properties of the accessors),
the three fields of `socketMD`, and the listeners of `eventEmitter`.
The collaborators: the handlers registered on each connection handle, the recurring
timers that are active, the calls of `socketIoClient` and `disconnect()`, of
`setInterval` (timer and delay), of `init`, of `eventEmitter.emit`, of the callbacks
(listener number and argument), of `logger.logFile` and of `console`. -/
structure Emitter where
  url : JSVal
  userID : JSVal
  token : JSVal
  isConnected : Bool
  socketMarketData : Option Nat
  interval : Option Nat
  listeners : List Listener
  handlers : List (Nat × String × Handler)
  timers : List Nat
  handleCount : Nat
  timerCount : Nat
  connections : List ConnAction
  intervals : List (Nat × Nat)
  inits : List JSVal
  published : List (String × JSVal)
  delivered : List (Nat × JSVal)
  logged : List String
  console : List (List JSVal)

/-- The class constructor `new XTSEmitter(url)`. -/
def XTSEmitter (defaultUrl : JSVal) (url : JSVal) : Emitter :=
  { url := (match url with | .undefined => defaultUrl | u => u),
    userID := .undefined, token := .undefined,
    isConnected := false, socketMarketData := none, interval := none,
    listeners := [], handlers := [], timers := [], handleCount := 0, timerCount := 0,
    connections := [], intervals := [], inits := [], published := [], delivered := [],
    logged := [], console := [] }

/-- A computation of the streaming client that may throw; the state is kept when a
value is thrown. -/
def Sock (α : Type) : Type := Emitter → Except JSVal α × Emitter

namespace Sock

/-- Return a value. -/
def ret {α : Type} (a : α) : Sock α := fun s => (.ok a, s)

/-- Sequence two computations; a thrown value ends the sequence. -/
def andThen {α β : Type} (m : Sock α) (f : α → Sock β) : Sock β := fun s =>
  match m s with
  | (.ok a, s1) => f a s1
  | (.error e, s1) => (.error e, s1)

instance : Monad Sock where
  pure := ret
  bind := andThen

/-- Run a pure computation that may throw. -/
def lift {α : Type} (x : Except JSVal α) : Sock α := fun s => (x, s)

/-- The construct `try { body } catch (e) { handler(e) }`. -/
def tryCatch (body : Sock Unit) (handler : JSVal → Sock Unit) : Sock Unit := fun s =>
  match body s with
  | (.ok a, s1) => (.ok a, s1)
  | (.error e, s1) => handler e s1

/-- Read the state. -/
def get : Sock Emitter := fun s => (.ok s, s)

/-- Change the state. -/
def modify (f : Emitter → Emitter) : Sock Unit := fun s => (.ok (), f s)

end Sock

/-- The call `logger.logFile(msg)`. -/
def logLine (msg : String) : Sock Unit :=
  Sock.modify (fun s => { s with logged := s.logged ++ [msg] })

/-- A call `console.info(...)` or `console.error(...)`. -/
def consoleLine (args : List JSVal) : Sock Unit :=
  Sock.modify (fun s => { s with console := s.console ++ [args] })

/-- The call `fn(arg)` of the callback of a listener. -/
def invoke (l : Listener) (arg : JSVal) : Sock Unit := fun s =>
  (l.fn arg, { s with delivered := s.delivered ++ [(l.id, arg)] })

/-- The arrow function of a listener, called with the payload of an event. -/
def Listener.call (env : SocketEnv) (l : Listener) (data : JSVal) : Sock Unit :=
  match l.wrapper with
  | .direct => invoke l data
  | .parsing what method =>
      Sock.tryCatch
        (do
          let parsed ← Sock.lift (jsonParse env data)
          invoke l parsed)
        (fun e => do
          let message ← Sock.lift (e.getProp "message")
          let a ← Sock.lift
            (JSVal.strPlus ("Error parsing " ++ what ++ " data in " ++ method ++ ": ") message)
          let b ← Sock.lift (JSVal.strPlus (a ++ ", raw data: ") data)
          logLine b
          invoke l data)

/-- The listeners of an event are called in registration order; a value one of them
throws ends the round. -/
def runListeners (env : SocketEnv) (data : JSVal) : List Listener → Sock Unit
  | [] => pure ()
  | l :: rest => do
      l.call env data
      runListeners env data rest

/-- The call `this.eventEmitter.emit(event, data)`: with no listener registered,
the event `error` throws and any other event does nothing. -/
def emit (env : SocketEnv) (event : String) (data : JSVal) : Sock Unit := fun s =>
  let s1 := { s with published := s.published ++ [(event, data)] }
  match s.listeners.filter (fun l => l.event = event) with
  | [] => if event = "error" then (.error (env.unhandled data), s1) else (.ok (), s1)
  | l :: rest => runListeners env data (l :: rest) s1

/-- The statement `this.socketMD.interval = setInterval(callback, 5000)`: a new
recurring timer is active and stored. -/
def startInterval : Sock Unit :=
  Sock.modify (fun s =>
    { s with interval := some s.timerCount, timers := s.timers ++ [s.timerCount],
             timerCount := s.timerCount + 1,
             intervals := s.intervals ++ [(s.timerCount, 5000)] })

/-- The call `clearInterval(this.socketMD.interval)`: the stored timer, if any, is
no longer active. -/
def clearStoredInterval : Sock Unit :=
  Sock.modify (fun s =>
    match s.interval with
    | none => s
    | some t => { s with timers := s.timers.filter (fun x => x ≠ t) })

/-- The block `if (this.socketMD.socketMarketData) { ...disconnect(); delete ...;
... = null; }` of `init`. -/
def dropConnection : Sock Unit :=
  Sock.modify (fun s =>
    match s.socketMarketData with
    | none => s
    | some h =>
        { s with connections := s.connections ++ [.closed h], socketMarketData := none })

/-- The statement `this.socketMD.socketMarketData = socketIoClient(this.url, { path:
"/interactive/socket.io", reconnection: false, query: { token: this.token, userID:
this.userID } })`. -/
def openConnection : Sock Unit :=
  Sock.modify (fun s =>
    { s with
      connections := s.connections ++
        [.opened s.handleCount s.url "/interactive/socket.io" false s.token s.userID],
      socketMarketData := some s.handleCount,
      handleCount := s.handleCount + 1 })

/-- The call `this.socketMD.socketMarketData.on(name, handler)`. -/
def wire (name : String) (handler : Handler) : Sock Unit := fun s =>
  match s.socketMarketData with
  | none => (.error (JSVal.typeError "Cannot read properties of null (reading on)"), s)
  | some h => (.ok (), { s with handlers := s.handlers ++ [(h, name, handler)] })

/-- The method `init(reqObject)`. -/
def init (env : SocketEnv) (reqObject : JSVal) : Sock Unit := do
  Sock.modify (fun s => { s with inits := s.inits ++ [reqObject] })
  let userID ← Sock.lift (reqObject.getProp "userID")
  Sock.modify (fun s => { s with userID := userID })
  let token ← Sock.lift (reqObject.getProp "token")
  Sock.modify (fun s => { s with token := token })
  dropConnection
  openConnection
  let s ← Sock.get
  let a ← Sock.lift
    (JSVal.strPlus "socket is initialized with the following parameters url " s.url)
  let b ← Sock.lift (JSVal.strPlus (a ++ " token ") s.token)
  let c ← Sock.lift (JSVal.strPlus (b ++ " userID ") s.userID)
  logLine c
  wire "connect" .connect
  wire env.names.joined .joined
  wire "connect_error" .connectError
  wire "error" .error
  wire "disconnect" .disconnect
  wire env.names.order .order
  wire env.names.trade .trade
  wire env.names.position .position
  wire env.names.logout .logout

/-- The arrow function `init` registers for an event of the connection, called
with the payload of the event. -/
def Handler.run (env : SocketEnv) : Handler → JSVal → Sock Unit
  | .connect, data => do
      Sock.modify (fun s => { s with isConnected := true })
      consoleLine [.str "socket connected successfully"]
      emit env "connect" data
  | .joined, data => do
      consoleLine [.str "socket joined successfully"]
      emit env env.names.joined data
  | .connectError, err => do
      let m ← Sock.lift (err.getProp "message")
      consoleLine [.str "socket connection error:", m]
      let message ← Sock.lift (err.getProp "message")
      let description ← Sock.lift (err.getProp "description")
      let cause ← Sock.lift (err.getProp "cause")
      emit env "error" (.obj [("type", .str "connect_error"), ("message", message),
        ("description", description), ("cause", cause)])
  | .error, data => do
      consoleLine [.str "socket error occurred"]
      emit env "error" data
  | .disconnect, data => do
      consoleLine [.str "socket got disconnected"]
      Sock.modify (fun s => { s with isConnected := false })
      startInterval
      emit env "disconnect" data
  | .order, data => do
      consoleLine [.str "inside order response channel"]
      emit env env.names.order data
  | .trade, data => do
      consoleLine [.str "inside trade response channel"]
      emit env env.names.trade data
  | .position, data => do
      consoleLine [.str "inside positions response channel"]
      emit env env.names.position data
  | .logout, data => do
      consoleLine [.str "socket logout successfully"]
      emit env env.names.logout data

/-- The arrow function handed to `setInterval` by the `disconnect` handler. -/
def intervalCallback (env : SocketEnv) : Sock Unit := fun s =>
  if s.isConnected then
    (do
      clearStoredInterval
      Sock.modify (fun s => { s with interval := none })) s
  else
    init env (.obj [("userID", s.userID), ("token", s.token)]) s

/-- The handlers of an event of a connection are called in registration order; a
value one of them throws ends the round. -/
def runHandlers (env : SocketEnv) (data : JSVal) : List Handler → Sock Unit
  | [] => pure ()
  | h :: rest => do
      h.run env data
      runHandlers env data rest

/-- The connection `handle` emits the event `name` with the payload `data`. -/
def socketEvent (env : SocketEnv) (handle : Nat) (name : String) (data : JSVal) : Sock Unit :=
  fun s =>
    runHandlers env data
      ((s.handlers.filter (fun x => x.1 = handle ∧ x.2.1 = name)).map (fun x => x.2.2)) s

/-- The recurring timer `timer` fires, if it is active. -/
def tick (env : SocketEnv) (timer : Nat) : Sock Unit := fun s =>
  if s.timers.contains timer then intervalCallback env s else (.ok (), s)

/-- The methods `onConnect`, ..., `onLogout`. -/
inductive OnMethod where
  | onConnect
  | onJoined
  | onError
  | onDisconnect
  | onOrder
  | onTrade
  | onPosition
  | onLogout
deriving DecidableEq, Repr

/-- The event an `on...` method registers its listener for. -/
def OnMethod.event (names : SocketNames) : OnMethod → String
  | .onConnect => "connect"
  | .onJoined => names.joined
  | .onError => "error"
  | .onDisconnect => "disconnect"
  | .onOrder => names.order
  | .onTrade => names.trade
  | .onPosition => names.position
  | .onLogout => names.logout

/-- The arrow function an `on...` method registers. -/
def OnMethod.wrapper : OnMethod → Wrapper
  | .onConnect => .direct
  | .onJoined => .direct
  | .onError => .direct
  | .onDisconnect => .direct
  | .onOrder => .parsing "order" "onOrder"
  | .onTrade => .parsing "trade" "onTrade"
  | .onPosition => .parsing "position" "onPosition"
  | .onLogout => .parsing "logout" "onLogout"

/-- The call `this.eventEmitter.on(event, wrapper)` of an `on...` method with the
callback `fn`. -/
def register (env : SocketEnv) (m : OnMethod) (fn : Callback) : Sock Unit :=
  Sock.modify (fun s =>
    { s with listeners := s.listeners ++
        [{ event := m.event env.names, wrapper := m.wrapper, id := s.listeners.length,
           fn := fn }] })

/-- What happens to an instance: a call of `init` or of an `on...` method by the
caller, an event of one of its connections, or the firing of a timer. -/
inductive Step where
  | init (reqObject : JSVal)
  | register (method : OnMethod) (fn : Callback)
  | event (handle : Nat) (name : String) (data : JSVal)
  | tick (timer : Nat)

/-- The computation of a step. -/
def Step.run (env : SocketEnv) : Step → Sock Unit
  | .init reqObject => XTS.init env reqObject
  | .register method fn => XTS.register env method fn
  | .event handle name data => socketEvent env handle name data
  | .tick timer => XTS.tick env timer

/-- The instance after a step, whether the step returned or threw. -/
def Step.apply (env : SocketEnv) (st : Step) (s : Emitter) : Emitter :=
  (st.run env s).2

/-- The instance after a sequence of steps. -/
def runSteps (env : SocketEnv) (steps : List Step) (s : Emitter) : Emitter :=
  steps.foldl (fun s st => st.apply env s) s

/-- The states of an instance reachable from its construction. -/
inductive Emitter.Reachable (env : SocketEnv) (defaultUrl : JSVal) : Emitter → Prop where
  | construct (url : JSVal) : Emitter.Reachable env defaultUrl (XTSEmitter defaultUrl url)
  | step (s : Emitter) (st : Step) :
      Emitter.Reachable env defaultUrl s → Emitter.Reachable env defaultUrl (st.apply env s)

/-- The configured event names of the examples. -/
def exampleNames : SocketNames :=
  { joined := "joined", order := "order", trade := "trade", position := "position",
    logout := "logout" }

/-- A runtime of the examples: it parses the text of the empty object and no other
text, and for an unhandled `error` event it throws an error with the code
`ERR_UNHANDLED_ERROR` that holds the payload as its `context`. -/
def exampleSocketEnv : SocketEnv :=
  { names := exampleNames,
    parse := fun text =>
      if text = "\x7b\x7d" then .ok (.obj []) else .error "Unexpected token in JSON",
    unhandled := fun payload =>
      .obj [("code", .str "ERR_UNHANDLED_ERROR"), ("context", payload)] }

/-- A run of the examples: a login, then three connections each of which connects,
the first two of which are lost, the reconnection being made by the timer the loss
has started. -/
def exampleReconnects : List Step :=
  [.init (.obj [("userID", .str "u"), ("token", .str "t")]),
   .event 0 "connect" .undefined,
   .event 0 "disconnect" (.str "transport close"),
   .tick 0,
   .event 1 "connect" .undefined,
   .event 1 "disconnect" (.str "transport close"),
   .tick 1,
   .event 2 "connect" .undefined]

/-- A scan of the log of connections: `some p` when every connection was opened
while no earlier one was pending, `p` being the handle that is pending at the end:
opened, and `disconnect()` not called on it since. -/
def pendingAfter : Option Nat → List ConnAction → Option (Option Nat)
  | p, [] => some p
  | p, .opened h _ _ _ _ _ :: rest => if p = none then pendingAfter (some h) rest else none
  | p, .closed h :: rest => pendingAfter (if p = some h then none else p) rest

/-- Every connection was opened with none pending, and the pending one is the one
stored in `socketMD.socketMarketData`. -/
def Emitter.Linked (s : Emitter) : Prop :=
  pendingAfter none s.connections = some s.socketMarketData

/-- The computation opens and closes no connection and leaves the stored handle. -/
structure Sock.Frame {α : Type} (m : Sock α) : Prop where
  conn_eq : ∀ s : Emitter, (m s).2.connections = s.connections ∧
    (m s).2.socketMarketData = s.socketMarketData

/-- From a state with `P` the computation ends, returning or throwing, in a state
with `Q`. -/
def Sock.Keeps {α : Type} (P Q : Emitter → Prop) (m : Sock α) : Prop :=
  ∀ s : Emitter, P s → Q (m s).2

/-- The computation changes nothing but the log of callback calls and the log of
`logFile`. -/
structure Sock.Local {α : Type} (m : Sock α) : Prop where
  state_eq : ∀ s : Emitter, ∃ d l, (m s).2 = { s with delivered := d, logged := l }

/-- The instance `new XTSEmitter(url)` after a sequence of calls of `on...` methods. -/
def afterRegistrations (env : SocketEnv) (defaultUrl url : JSVal)
    (regs : List (OnMethod × Callback)) : Emitter :=
  runSteps env (regs.map (fun r => Step.register r.1 r.2)) (XTSEmitter defaultUrl url)

/-- None of the configured event names is the name `event` of a connection event. -/
def SocketNames.Avoids (names : SocketNames) (event : String) : Prop :=
  names.joined ≠ event ∧ names.order ≠ event ∧ names.trade ≠ event ∧
    names.position ≠ event ∧ names.logout ≠ event

/-- The listener returns normally when it is called with `data`, in every state. -/
def Listener.Returns (env : SocketEnv) (l : Listener) (data : JSVal) : Prop :=
  ∀ s : Emitter, (l.call env data s).1 = .ok ()

/-- The payload the `connect_error` handler publishes for the value `err`. -/
def connectErrorPayload (err : JSVal) : JSVal :=
  .obj [("type", .str "connect_error"), ("message", err.getField "message"),
    ("description", err.getField "description"), ("cause", err.getField "cause")]

/-- The instance of the examples: `new XTSEmitter("http://x")` with one callback
registered by the `on...` method `m`. -/
def exampleEmitter (m : OnMethod) (fn : Callback) : Emitter :=
  afterRegistrations exampleSocketEnv (.str "http://d") (.str "http://x") [(m, fn)]


/-! ## Basic facts about computations -/

@[simp] theorem Exec.pure_run {α : Type} (a : α) (w : World) :
    (pure a : Exec α) w = (.ok a, w) := rfl

@[simp] theorem Exec.bind_run {α β : Type} (m : Exec α) (f : α → Exec β) (w : World) :
    (m >>= f) w = (match m w with
      | (.ok a, w1) => f a w1
      | (.error e, w1) => (.error e, w1)) := rfl

@[simp] theorem Exec.lift_ok {α : Type} (a : α) (w : World) :
    Exec.lift (Except.ok a : Except JSVal α) w = (.ok a, w) := rfl

@[simp] theorem Exec.lift_error {α : Type} (e : JSVal) (w : World) :
    Exec.lift (Except.error e : Except JSVal α) w = (.error e, w) := rfl

@[simp] theorem Exec.raise_run {α : Type} (e : JSVal) (w : World) :
    (Exec.raise e : Exec α) w = (.error e, w) := rfl

@[simp] theorem Exec.readThis_run (k : String) (w : World) :
    Exec.readThis k w = (.ok (w.self.get k), w) := rfl

@[simp] theorem Exec.writeThis_run (k : String) (v : JSVal) (w : World) :
    Exec.writeThis k v w = (.ok (), { w with self := w.self.put k v }) := rfl

theorem gate_closed (w : World) (hm : w.self.hasMethod "checkLoggedIn" = true)
    (h : (w.self.get "isLoggedIn").truthy = false) :
    Exec.callMethod "checkLoggedIn" checkLoggedIn w = (.error loginRequired, w) := by
  simp [Exec.callMethod, hm, checkLoggedIn, h, loginRequired]

theorem gate_open (w : World) (hm : w.self.hasMethod "checkLoggedIn" = true)
    (h : (w.self.get "isLoggedIn").truthy = true) :
    Exec.callMethod "checkLoggedIn" checkLoggedIn w = (.ok (.bool true), w) := by
  simp [Exec.callMethod, hm, checkLoggedIn, h]

theorem catchHandler_loginRequired (fb : String) (w : World) :
    catchHandler fb loginRequired w =
      (.ok (.customError (.str "Login is Required") (.str "login is mandatory") (.num 404)), w) := by
  rfl

/-! ## State predicates carried through computations -/

theorem Exec.keeps_pure {α : Type} {P Q : Session → Prop} (a : α) (h : ∀ s, P s → Q s) :
    Exec.Keeps P Q (pure a : Exec α) := fun _ hw => h _ hw

theorem Exec.keeps_lift {α : Type} {P Q : Session → Prop} (x : Except JSVal α)
    (h : ∀ s, P s → Q s) : Exec.Keeps P Q (Exec.lift x) := fun _ hw => h _ hw

theorem Exec.keeps_raise {α : Type} {P Q : Session → Prop} (e : JSVal)
    (h : ∀ s, P s → Q s) : Exec.Keeps P Q (Exec.raise e : Exec α) := fun _ hw => h _ hw

theorem Exec.keeps_readThis {P Q : Session → Prop} (k : String)
    (h : ∀ s, P s → Q s) : Exec.Keeps P Q (Exec.readThis k) := fun _ hw => h _ hw

theorem Exec.keeps_send {P Q : Session → Prop} (env : Env) (m u : String) (hd d : JSVal)
    (h : ∀ s, P s → Q s) : Exec.Keeps P Q (Exec.send env m u hd d) := fun _ hw => h _ hw

theorem Exec.keeps_writeThis {P Q : Session → Prop} (k : String) (v : JSVal)
    (h : ∀ s, P s → Q (s.put k v)) : Exec.Keeps P Q (Exec.writeThis k v) := fun _ hw => h _ hw

theorem Exec.keeps_bind {α β : Type} {P Q : Session → Prop} (R : Session → Prop)
    {m : Exec α} {f : α → Exec β}
    (hm : Exec.Keeps P R m) (hRQ : ∀ s, R s → Q s) (hf : ∀ a, Exec.Keeps R Q (f a)) :
    Exec.Keeps P Q (m >>= f) := by
  intro w hw
  have h1 := hm w hw
  simp only [Exec.bind_run]
  cases hmw : m w with
  | mk r w1 =>
    rw [hmw] at h1
    cases r with
    | ok a => exact hf a w1 h1
    | error e => exact hRQ _ h1

theorem Exec.keeps_callMethod {α : Type} {P Q : Session → Prop} (name : String) {body : Exec α}
    (hb : Exec.Keeps P Q body) (h : ∀ s, P s → Q s) :
    Exec.Keeps P Q (Exec.callMethod name body) := by
  intro w hw
  unfold Exec.callMethod
  split
  · exact hb w hw
  · exact h _ hw

theorem Exec.keeps_tryCatch {P Q : Session → Prop} (R : Session → Prop)
    {body : Exec JSVal} {handler : JSVal → Exec JSVal}
    (hb : Exec.Keeps P R body) (hRQ : ∀ s, R s → Q s) (hh : ∀ e, Exec.Keeps R Q (handler e)) :
    Exec.Keeps P Q (Exec.tryCatch body handler) := by
  intro w hw
  have h1 := hb w hw
  unfold Exec.tryCatch
  cases hmw : body w with
  | mk r w1 =>
    rw [hmw] at h1
    cases r with
    | ok a => exact hRQ _ h1
    | error e => exact hh e w1 h1

theorem keeps_catchHandler {P : Session → Prop} (fb : String) (e : JSVal) :
    Exec.Keeps P P (catchHandler fb e) := by
  unfold catchHandler
  split
  · exact Exec.keeps_pure _ (fun _ h => h)
  · repeat (first
      | exact Exec.keeps_pure _ (fun _ h => h)
      | exact Exec.keeps_lift _ (fun _ h => h)
      | refine Exec.keeps_bind P ?_ (fun _ h => h) (fun _ => ?_))

theorem keeps_checkLoggedIn {P : Session → Prop} : Exec.Keeps P P checkLoggedIn := by
  unfold checkLoggedIn
  refine Exec.keeps_bind P (Exec.keeps_readThis _ (fun _ h => h)) (fun _ h => h) (fun _ => ?_)
  split
  · exact Exec.keeps_pure _ (fun _ h => h)
  · exact Exec.keeps_raise _ (fun _ h => h)

theorem keeps_checkClientCodes {P : Session → Prop} (r : JSVal) :
    Exec.Keeps P P (checkClientCodes r) := by
  unfold checkClientCodes
  refine Exec.keeps_bind P (Exec.keeps_readThis _ (fun _ h => h)) (fun _ h => h) (fun _ => ?_)
  repeat (first
    | exact Exec.keeps_pure _ (fun _ h => h)
    | exact Exec.keeps_raise _ (fun _ h => h)
    | split)

/-- The operations other than the two logins never assign to the session. -/
theorem keeps_nonLogin {P : Session → Prop} (env : Env) (c : Call) (hc : c.isLogin = false) :
    Exec.Keeps P P (c.tryBlock env) := by
  cases c <;> first | (simp [Call.isLogin] at hc; done) | skip
  all_goals
    simp only [Call.tryBlock, logOutTry, getProfileTry, getBalanceTry, getHoldingsTry,
      getPositionsTry, positionConversionTry, squareOffTry, placeOrderTry, modifyOrderTry,
      cancelOrderTry, placeCoverOrderTry, exitCoverOrderTry, getOrderBookTry, getTradeBookTry,
      getOrderHistoryTry]
    repeat (first
      | refine Exec.keeps_bind P ?_ (fun _ h => h) (fun _ => ?_)
      | exact Exec.keeps_callMethod _ keeps_checkLoggedIn (fun _ h => h)
      | exact Exec.keeps_callMethod _ (keeps_checkClientCodes _) (fun _ h => h)
      | exact Exec.keeps_send _ _ _ _ _ (fun _ h => h)
      | exact Exec.keeps_readThis _ (fun _ h => h)
      | exact Exec.keeps_lift _ (fun _ h => h)
      | exact Exec.keeps_pure _ (fun _ h => h)
      | split)

/-! ## The invariant of reachable sessions -/

theorem Session.Logged.truthy {s : Session} (h : s.Logged) : s.isLoggedIn.truthy = true := by
  obtain ⟨v, hv, ht⟩ := h
  unfold Session.isLoggedIn Session.get
  cases hp : s.proto with
  | none => simp [Session.accessorField, hv, ht]
  | some p => simp [hv, ht]

theorem Session.Fresh.hasMethod {s : Session} (h : s.Fresh) (name : String)
    (hn : name ∉ baseFields) : s.hasMethod name = true := by
  simp [Session.hasMethod, h.1, h.2 name hn]

theorem fresh_construct (defaultUrl url : JSVal) : (XTSInteractive defaultUrl url).Fresh := by
  refine ⟨rfl, ?_⟩
  intro k hk
  simp only [baseFields, List.mem_cons, List.mem_singleton, not_or, List.not_mem_nil,
    not_false_eq_true, and_true] at hk
  simp [XTSInteractive, Session.put, Session.accessorField, Session.setOwn, hk]

theorem Session.Fresh.put_fresh {s : Session} (h : s.Fresh) (k : String) (v : JSVal)
    (hk : k ∈ ["userID", "source", "token", "enums", "clientCodes", "isInvestorClient",
      "isLoggedIn"]) : (s.put k v).Fresh := by
  obtain ⟨hp, hf⟩ := h
  simp only [List.mem_cons, List.mem_singleton, List.not_mem_nil, or_false] at hk
  refine ⟨?_, ?_⟩
  · rcases hk with rfl | rfl | rfl | rfl | rfl | rfl | rfl <;>
      simp [Session.put, hp, Session.accessorField, Session.setOwn]
  · intro x hx
    have hx0 := hf x hx
    simp only [baseFields, List.mem_cons, List.mem_singleton, not_or, List.not_mem_nil,
      not_false_eq_true, and_true] at hx
    rcases hk with rfl | rfl | rfl | rfl | rfl | rfl | rfl <;>
      simp [Session.put, hp, Session.accessorField, Session.setOwn, hx, hx0]

theorem Session.Logged.put_logged {s : Session} (h : s.Logged) (k : String) (v : JSVal)
    (hk : k ≠ "isLoggedIn" ∨ v.truthy = true) : (s.put k v).Logged := by
  obtain ⟨u, hu, ht⟩ := h
  have key : ∀ b : String, (b ≠ "isLoggedIn" ∨ v.truthy = true) → (s.setOwn b v).Logged := by
    intro b hb
    by_cases hb1 : b = "isLoggedIn"
    · subst hb1
      exact ⟨v, by simp [Session.setOwn], by simpa using hb⟩
    · refine ⟨u, ?_, ht⟩
      simp only [Session.setOwn]
      rw [if_neg (fun h => hb1 h.symm)]
      exact hu
  have keyp : (s.setProto v).Logged := by
    unfold Session.setProto
    split <;> exact ⟨u, hu, ht⟩
  unfold Session.put
  split
  · split
    · exact keyp
    · split
      · next b hb =>
        refine key b (Or.inl ?_)
        unfold Session.accessorField at hb
        repeat (first | split at hb | (cases hb; decide) | contradiction)
      · exact key k hk
  · split
    · split
      · exact key k hk
      · split
        · exact key k hk
        · exact keyp
      · exact keyp
    · exact key k hk

theorem Session.logged_put_isLoggedIn (s : Session) :
    (s.put "isLoggedIn" (.bool true)).Logged := by
  unfold Session.put
  split
  · exact ⟨.bool true, by simp [Session.accessorField, Session.setOwn], rfl⟩
  · exact ⟨.bool true, by simp [Session.setOwn], rfl⟩

theorem keeps_populateCategory_logged (enums : JSVal) (k : String) :
    Exec.Keeps Session.Logged Session.Logged (populateCategory enums k) := by
  unfold populateCategory
  repeat (first
    | refine Exec.keeps_bind Session.Logged ?_ (fun _ h => h) (fun _ => ?_)
    | exact Exec.keeps_writeThis _ _ (fun s h => h.put_logged _ _ (Or.inr rfl))
    | exact Exec.keeps_lift _ (fun _ h => h)
    | exact Exec.keeps_pure _ (fun _ h => h)
    | split)

theorem keeps_populateLoop_logged (enums : JSVal) (ks : List String) :
    Exec.Keeps Session.Logged Session.Logged (populateLoop enums ks) := by
  induction ks with
  | nil => exact Exec.keeps_pure _ (fun _ h => h)
  | cons k rest ih =>
    unfold populateLoop
    exact Exec.keeps_bind Session.Logged (keeps_populateCategory_logged enums k) (fun _ h => h)
      (fun _ => ih)

theorem keeps_populateEnums_logged (enums : JSVal) :
    Exec.Keeps Session.Logged Session.Logged (populateEnums enums) :=
  keeps_populateLoop_logged enums _

theorem Session.Inv.put_inv {s : Session} (h : s.Inv) (k : String) (v : JSVal)
    (hk : k ∈ ["userID", "source", "token", "enums", "clientCodes", "isInvestorClient"]) :
    (s.put k v).Inv := by
  rcases h with h | h
  · refine Or.inl (h.put_logged k v (Or.inl ?_))
    rintro rfl
    simp at hk
  · refine Or.inr (h.put_fresh k v ?_)
    simp only [List.mem_cons, List.mem_singleton, List.not_mem_nil, or_false] at hk ⊢
    tauto

theorem keeps_logInTry (env : Env) (r : JSVal) :
    Exec.Keeps Session.Inv Session.Inv (logInTry env r) := by
  unfold logInTry
  repeat (first
    | refine Exec.keeps_bind Session.Logged
        (Exec.keeps_writeThis "isLoggedIn" _ (fun s _ => s.logged_put_isLoggedIn))
        (fun _ h => Or.inl h) (fun _ => ?_)
    | (show Exec.Keeps Session.Logged Session.Inv _
       refine Exec.keeps_bind Session.Logged ?_ (fun _ h => Or.inl h) (fun _ => ?_))
    | (show Exec.Keeps Session.Inv Session.Inv _
       refine Exec.keeps_bind Session.Inv ?_ (fun _ h => h) (fun _ => ?_))
    | exact Exec.keeps_lift _ (fun _ h => h)
    | exact Exec.keeps_pure _ (fun _ h => Or.inl h)
    | exact Exec.keeps_callMethod _ (keeps_populateEnums_logged _) (fun _ h => h)
    | exact Exec.keeps_writeThis _ _ (fun s h => h.put_inv _ _ (by simp))
    | exact Exec.keeps_send _ _ _ _ _ (fun _ h => h)
    | exact Exec.keeps_readThis _ (fun _ h => h)
    | exact Exec.keeps_lift _ (fun _ h => h)
    | exact Exec.keeps_lift _ (fun _ h => Or.inl h)
    | exact Exec.keeps_pure _ (fun _ h => h)
    | exact Exec.keeps_pure _ (fun _ h => Or.inl h))

theorem keeps_loginWithTokenTry (env : Env) (u t : JSVal) :
    Exec.Keeps Session.Inv Session.Inv (loginWithTokenTry env u t) := by
  unfold loginWithTokenTry
  repeat (first
    | refine Exec.keeps_bind Session.Logged
        (Exec.keeps_writeThis "isLoggedIn" _ (fun s _ => s.logged_put_isLoggedIn))
        (fun _ h => Or.inl h) (fun _ => ?_)
    | (show Exec.Keeps Session.Logged Session.Inv _
       refine Exec.keeps_bind Session.Logged ?_ (fun _ h => Or.inl h) (fun _ => ?_))
    | (show Exec.Keeps Session.Inv Session.Inv _
       refine Exec.keeps_bind Session.Inv ?_ (fun _ h => h) (fun _ => ?_))
    | exact Exec.keeps_lift _ (fun _ h => h)
    | exact Exec.keeps_pure _ (fun _ h => Or.inl h)
    | exact Exec.keeps_callMethod _ (keeps_populateEnums_logged _) (fun _ h => h)
    | exact Exec.keeps_writeThis _ _ (fun s h => h.put_inv _ _ (by simp))
    | exact Exec.keeps_send _ _ _ _ _ (fun _ h => h)
    | exact Exec.keeps_readThis _ (fun _ h => h)
    | exact Exec.keeps_lift _ (fun _ h => h)
    | exact Exec.keeps_lift _ (fun _ h => Or.inl h)
    | exact Exec.keeps_pure _ (fun _ h => h)
    | exact Exec.keeps_pure _ (fun _ h => Or.inl h))

theorem keeps_tryBlock (env : Env) (c : Call) :
    Exec.Keeps Session.Inv Session.Inv (c.tryBlock env) := by
  cases hc : c.isLogin with
  | false => exact keeps_nonLogin env c hc
  | true =>
    cases c <;> first | (simp [Call.isLogin] at hc; done) | skip
    · exact keeps_logInTry env _
    · exact keeps_loginWithTokenTry env _ _

theorem Call.run_eq (env : Env) (c : Call) :
    c.run env = Exec.tryCatch (c.tryBlock env) (catchHandler c.fallback) := by
  cases c <;> rfl

theorem keeps_run {P : Session → Prop} (env : Env) (c : Call)
    (h : Exec.Keeps P P (c.tryBlock env)) : Exec.Keeps P P (c.run env) := by
  rw [Call.run_eq]
  exact Exec.keeps_tryCatch P h (fun _ h => h) (fun e => keeps_catchHandler _ e)

theorem Reachable.inv {defaultUrl : JSVal} {s : Session} (h : Reachable defaultUrl s) : s.Inv := by
  induction h with
  | construct url => exact Or.inr (fresh_construct defaultUrl url)
  | call s env c sent _ _ ih => exact keeps_run env c (keeps_tryBlock env c) _ ih

/-! ## The login gate -/

theorem run_gate_closed (env : Env) (c : Call) (hc : c.isLogin = false) (w : World)
    (hm : w.self.hasMethod "checkLoggedIn" = true)
    (h : (w.self.get "isLoggedIn").truthy = false) :
    c.run env w =
      (.ok (.customError (.str "Login is Required") (.str "login is mandatory") (.num 404)), w) := by
  cases c <;> first | (simp [Call.isLogin] at hc; done) | skip
  all_goals
    simp [Call.run, logOut, getProfile, getBalance, getHoldings, getPositions, positionConversion,
      squareOff, placeOrder, modifyOrder, cancelOrder, placeCoverOrder, exitCoverOrder,
      getOrderBook, getTradeBook, getOrderHistory, Exec.tryCatch,
      logOutTry, getProfileTry, getBalanceTry, getHoldingsTry,
      getPositionsTry, positionConversionTry, squareOffTry, placeOrderTry, modifyOrderTry,
      cancelOrderTry, placeCoverOrderTry, exitCoverOrderTry, getOrderBookTry, getTradeBookTry,
      getOrderHistoryTry, gate_closed w hm h, catchHandler_loginRequired]

/-- C1. In every reachable session whose `isLoggedIn` is false, every operation
other than `logIn` and `loginWithToken`, with any argument and any transport,
returns the `CustomError` with message "Login is Required" and statusCode 404,
hands no request to `processRequest` and leaves the session as it was; the
operations with a client-code gate included. -/
theorem login_gate_404 (defaultUrl : JSVal) (s : Session) (hr : Reachable defaultUrl s)
    (hl : s.isLoggedIn.truthy = false) (env : Env) (c : Call) (hc : c.isLogin = false)
    (sent : List Request) :
    c.run env { self := s, sent := sent } =
      (.ok (.customError (.str "Login is Required") (.str "login is mandatory") (.num 404)),
        { self := s, sent := sent }) := by
  have hf : s.Fresh := by
    rcases hr.inv with h | h
    · rw [h.truthy] at hl
      exact absurd hl (by decide)
    · exact h
  exact run_gate_closed env c hc _ (hf.hasMethod _ (by decide)) hl

theorem login_gate_404_witness :
    (XTSInteractive (.str "http://default") (.str "http://test-api.com")).isLoggedIn.truthy = false ∧
    (Call.modifyOrder .null).run
        { api := ⟨"/s", "/p", "/b", "/h", "/pos", "/c", "/sq", "/o", "/cv", "/t", "/oh", "/e"⟩,
          processRequest := fun _ => .ok .null, urlSearchParams := fun _ => .ok "" }
        { self := XTSInteractive (.str "http://default") (.str "http://test-api.com"), sent := [] } =
      (.ok (.customError (.str "Login is Required") (.str "login is mandatory") (.num 404)),
        { self := XTSInteractive (.str "http://default") (.str "http://test-api.com"), sent := [] }) :=
  ⟨by rfl, login_gate_404 (.str "http://default") _ (Reachable.construct _) (by rfl) _ _ (by rfl) []⟩

/-! ## The uniform catch -/

theorem JSVal.nullish_of_truthy {v : JSVal} (h : v.truthy = true) : v.nullish = false := by
  cases v <;> simp_all [JSVal.truthy, JSVal.nullish]

theorem JSVal.getProp_of_not_nullish {v : JSVal} (h : v.nullish = false) (k : String) :
    v.getProp k = .ok (v.getField k) := by
  simp [JSVal.getProp, h]

theorem orDefault_eq (e : JSVal) (k : String) (d : JSVal) :
    orDefault e k d =
      .ok (if e.truthy = true ∧ (e.getField k).truthy = true then e.getField k else d) := by
  unfold orDefault
  cases ht : e.truthy with
  | true =>
    simp only [JSVal.getProp_of_not_nullish (JSVal.nullish_of_truthy ht), if_true, true_and]
    cases hf : (e.getField k).truthy <;> simp [bind, Except.bind, hf, pure, Except.pure]
  | false =>
    simp [bind, Except.bind, ht, pure, Except.pure]

/-- The constructor throws what the conversion of the message to a string throws
(the conversion of `undefined`, which the constructor skips, does not throw). -/
theorem CustomError_eq (m st sc : JSVal) :
    CustomError m st sc =
      (match m.toStr with
        | .error e => .error e
        | .ok _ => .ok (.customError m st sc)) := by
  cases m <;> rfl

/-- The outcome of the `catch` block for a thrown value `e`: `e` itself when it is a
`CustomError`, otherwise what `new CustomError` gives for the truthy fields. -/
theorem catchHandler_eq (fb : String) (e : JSVal) (w : World) :
    catchHandler fb e w =
      ((if e.isCustomError = true then Except.ok e
        else CustomError
          (if e.truthy = true ∧ (e.getField "message").truthy = true then e.getField "message"
            else .str fb)
          (if e.truthy = true ∧ (e.getField "stack").truthy = true then e.getField "stack"
            else .undefined)
          (if e.truthy = true ∧ (e.getField "statusCode").truthy = true
            then e.getField "statusCode" else .num 500)), w) := by
  unfold catchHandler
  split
  · rename_i h
    simp [h]
  · rename_i h
    simp [orDefault_eq, h, Exec.lift]

/-- The `catch` block leaves the world as it is, and what it returns is a
`CustomError`. -/
theorem catchHandler_outcome (fb : String) (e : JSVal) (w : World) :
    (catchHandler fb e w).2 = w ∧
      ∀ v, (catchHandler fb e w).1 = .ok v → v.isCustomError = true := by
  rw [catchHandler_eq]
  refine ⟨rfl, ?_⟩
  intro v hv
  simp only at hv
  split at hv
  · rename_i h
    cases hv
    exact h
  · rw [CustomError_eq] at hv
    split at hv
    · cases hv
    · cases hv
      rfl

/-- The two outcomes of the `catch` block: it returns a `CustomError`, or the caught
value is not a `CustomError`, its `message` is truthy and has no string form, and
the block throws the error of the conversion. -/
theorem catchHandler_cases (fb : String) (e : JSVal) (w : World) :
    (∃ v, catchHandler fb e w = (.ok v, w) ∧ v.isCustomError = true) ∨
    (∃ te, e.isCustomError = false ∧ e.truthy = true ∧ (e.getField "message").truthy = true ∧
      (e.getField "message").toStr = .error te ∧ catchHandler fb e w = (.error te, w)) := by
  rw [catchHandler_eq]
  by_cases hc : e.isCustomError = true
  · exact Or.inl ⟨e, by rw [if_pos hc], hc⟩
  · have hc1 : e.isCustomError = false := by simpa using hc
    rw [if_neg hc, CustomError_eq]
    by_cases hm : e.truthy = true ∧ (e.getField "message").truthy = true
    · rw [if_pos hm]
      cases ht : (e.getField "message").toStr with
      | ok t => exact Or.inl ⟨_, rfl, rfl⟩
      | error te => exact Or.inr ⟨te, hc1, hm.1, hm.2, rfl, rfl⟩
    · rw [if_neg hm]
      exact Or.inl ⟨_, rfl, rfl⟩

/-- C3. When the `try` block of an operation throws `e`: if `e` is a `CustomError`
the operation returns `e` itself; otherwise the `catch` block calls
`new CustomError` with the message `e.message` when truthy and the fallback message
of the operation otherwise, the stack `e.stack` when truthy and `undefined`
otherwise, and the statusCode `e.statusCode` when truthy and 500 otherwise. When
that message has a string form the operation returns the new `CustomError`, its
three fields as passed; when it has none (so it is `e.message`), the operation
throws the `TypeError` of the constructor. -/
theorem error_normalisation (env : Env) (c : Call) (w w1 : World) (e : JSVal)
    (hb : c.tryBlock env w = (.error e, w1)) :
    (e.isCustomError = true → c.run env w = (.ok e, w1)) ∧
    (e.isCustomError = false →
      (∀ text,
        (if e.truthy = true ∧ (e.getField "message").truthy = true then e.getField "message"
          else JSVal.str c.fallback).toStr = .ok text →
        c.run env w =
          (.ok (.customError
            (if e.truthy = true ∧ (e.getField "message").truthy = true
              then e.getField "message" else .str c.fallback)
            (if e.truthy = true ∧ (e.getField "stack").truthy = true then e.getField "stack"
              else .undefined)
            (if e.truthy = true ∧ (e.getField "statusCode").truthy = true
              then e.getField "statusCode" else .num 500)), w1)) ∧
      (∀ te,
        (if e.truthy = true ∧ (e.getField "message").truthy = true then e.getField "message"
          else JSVal.str c.fallback).toStr = .error te →
        e.truthy = true ∧ (e.getField "message").truthy = true ∧
          (e.getField "message").toStr = .error te ∧
          c.run env w = (.error te, w1))) := by
  have hrun : c.run env w = catchHandler c.fallback e w1 := by
    rw [Call.run_eq]
    unfold Exec.tryCatch
    rw [hb]
  rw [hrun, catchHandler_eq]
  refine ⟨fun h => by simp [h], fun h => ⟨?_, ?_⟩⟩
  · intro text ht
    simp only [h, Bool.false_eq_true, if_false]
    rw [CustomError_eq, ht]
  · intro te ht
    simp only [h, Bool.false_eq_true, if_false]
    rw [CustomError_eq, ht]
    by_cases hc : e.truthy = true ∧ (e.getField "message").truthy = true
    · rw [if_pos hc] at ht
      exact ⟨hc.1, hc.2, ht, rfl⟩
    · rw [if_neg hc] at ht
      cases ht

/-! ## Requests and returned values -/

theorem Exec.quiet_pure {α : Type} (a : α) : Exec.Quiet (pure a : Exec α) := ⟨fun _ => rfl⟩

theorem Exec.quiet_lift {α : Type} (x : Except JSVal α) : Exec.Quiet (Exec.lift x) := ⟨fun _ => rfl⟩

theorem Exec.quiet_raise {α : Type} (e : JSVal) : Exec.Quiet (Exec.raise e : Exec α) :=
  ⟨fun _ => rfl⟩

theorem Exec.quiet_readThis (k : String) : Exec.Quiet (Exec.readThis k) := ⟨fun _ => rfl⟩

theorem Exec.quiet_writeThis (k : String) (v : JSVal) : Exec.Quiet (Exec.writeThis k v) :=
  ⟨fun _ => rfl⟩

theorem Exec.quiet_bind {α β : Type} {m : Exec α} {f : α → Exec β}
    (hm : Exec.Quiet m) (hf : ∀ a, Exec.Quiet (f a)) : Exec.Quiet (m >>= f) := by
  constructor
  intro w
  have h1 := hm.sent_eq w
  simp only [Exec.bind_run]
  cases hmw : m w with
  | mk r w1 =>
    rw [hmw] at h1
    cases r with
    | ok a => exact ((hf a).sent_eq w1).trans h1
    | error e => exact h1

theorem Exec.quiet_callMethod {α : Type} (name : String) {body : Exec α}
    (hb : Exec.Quiet body) : Exec.Quiet (Exec.callMethod name body) := by
  constructor
  intro w
  unfold Exec.callMethod
  split
  · exact hb.sent_eq w
  · rfl

theorem Exec.returns_pure {α : Type} (a : α) : Exec.Returns (pure a : Exec α) a := by
  constructor
  intro w w1 r h
  simp only [Exec.pure_run, Prod.mk.injEq, Except.ok.injEq] at h
  exact h.1.symm

theorem Exec.returns_bind {α β : Type} {m : Exec α} {f : α → Exec β} {v : β}
    (hf : ∀ a, Exec.Returns (f a) v) : Exec.Returns (m >>= f) v := by
  constructor
  intro w w1 r h
  simp only [Exec.bind_run] at h
  cases hmw : m w with
  | mk r0 w0 =>
    rw [hmw] at h
    cases r0 with
    | ok a => exact (hf a).eq_of_ok w0 w1 r h
    | error e => simp at h

theorem Exec.answers_bind {α : Type} {env : Env} {m : Exec α} {f : α → Exec JSVal}
    (hm : Exec.Quiet m) (hf : ∀ a, Exec.Answers env (f a)) : Exec.Answers env (m >>= f) := by
  constructor
  intro w w1 v h
  have h1 := hm.sent_eq w
  simp only [Exec.bind_run] at h
  cases hmw : m w with
  | mk r0 w0 =>
    rw [hmw] at h h1
    cases r0 with
    | ok a =>
      obtain ⟨req, hreq, hans⟩ := (hf a).one_request w0 w1 v h
      exact ⟨req, by rw [hreq, h1], hans⟩
    | error e => simp at h

theorem Exec.answers_send {env : Env} (mt u : String) (hd d : JSVal) {k : JSVal → Exec JSVal}
    (hq : ∀ r, Exec.Quiet (k r)) (hr : ∀ r, Exec.Returns (k r) r) :
    Exec.Answers env (Exec.send env mt u hd d >>= k) := by
  constructor
  intro w w1 v h
  simp only [Exec.bind_run, Exec.send] at h
  cases hp : env.processRequest { method := mt, url := u, headers := hd, data := d } with
  | error e => rw [hp] at h; simp at h
  | ok r =>
    rw [hp] at h
    simp only at h
    refine ⟨{ method := mt, url := u, headers := hd, data := d }, ?_, ?_⟩
    · have := (hq r).sent_eq { self := w.self, sent := w.sent ++ [{ method := mt, url := u, headers := hd, data := d }] }
      rw [h] at this
      exact this
    · rw [hp, (hr r).eq_of_ok _ _ _ h]

theorem quiet_checkLoggedIn : Exec.Quiet checkLoggedIn := by
  unfold checkLoggedIn
  refine Exec.quiet_bind (Exec.quiet_readThis _) (fun _ => ?_)
  split
  · exact Exec.quiet_pure _
  · exact Exec.quiet_raise _

theorem quiet_checkClientCodes (r : JSVal) : Exec.Quiet (checkClientCodes r) := by
  unfold checkClientCodes
  refine Exec.quiet_bind (Exec.quiet_readThis _) (fun _ => ?_)
  repeat (first
    | exact Exec.quiet_pure _
    | exact Exec.quiet_raise _
    | split)

theorem quiet_populateCategory (enums : JSVal) (k : String) :
    Exec.Quiet (populateCategory enums k) := by
  unfold populateCategory
  repeat (first
    | refine Exec.quiet_bind ?_ (fun _ => ?_)
    | exact Exec.quiet_writeThis _ _
    | exact Exec.quiet_lift _
    | exact Exec.quiet_pure _
    | split)

theorem quiet_populateLoop (enums : JSVal) (ks : List String) :
    Exec.Quiet (populateLoop enums ks) := by
  induction ks with
  | nil => exact Exec.quiet_pure _
  | cons k rest ih =>
    unfold populateLoop
    exact Exec.quiet_bind (quiet_populateCategory enums k) (fun _ => ih)

theorem quiet_populateEnums (enums : JSVal) : Exec.Quiet (populateEnums enums) :=
  quiet_populateLoop enums _

/-- An operation that returns from its `try` block has sent exactly one request and
returns the transport's answer to it. -/
theorem answers_tryBlock (env : Env) (c : Call) : Exec.Answers env (c.tryBlock env) := by
  cases c
  all_goals
    simp only [Call.tryBlock, logInTry, loginWithTokenTry, logOutTry, getProfileTry, getBalanceTry,
      getHoldingsTry, getPositionsTry, positionConversionTry, squareOffTry, placeOrderTry,
      modifyOrderTry, cancelOrderTry, placeCoverOrderTry, exitCoverOrderTry, getOrderBookTry,
      getTradeBookTry, getOrderHistoryTry]
    repeat (first
      | refine Exec.answers_send _ _ _ _ (fun _ => ?_) (fun _ => ?_)
      | refine Exec.answers_bind ?_ (fun _ => ?_)
      | refine Exec.quiet_bind ?_ (fun _ => ?_)
      | refine Exec.returns_bind (fun _ => ?_)
      | exact Exec.returns_pure _
      | exact Exec.quiet_callMethod _ quiet_checkLoggedIn
      | exact Exec.quiet_callMethod _ (quiet_checkClientCodes _)
      | exact Exec.quiet_callMethod _ (quiet_populateEnums _)
      | exact Exec.quiet_writeThis _ _
      | exact Exec.quiet_readThis _
      | exact Exec.quiet_lift _
      | exact Exec.quiet_pure _
      | split)

/-- C2. For every operation, argument, session and transport: the operation returns
a value, which is a `CustomError` or the transport's answer to the one request the
operation has sent; or else its `try` block has thrown a value that is not a
`CustomError` and whose `message` is truthy and has no string form, and the
operation throws the `TypeError` that `new CustomError` throws on that message. -/
theorem operation_returns_or_rejects (env : Env) (c : Call) (w : World) :
    (∃ v, (c.run env w).1 = .ok v ∧
      (v.isCustomError = true ∨
        ∃ req, (c.run env w).2.sent = w.sent ++ [req] ∧ env.processRequest req = .ok v)) ∨
    (∃ e te w1, c.tryBlock env w = (.error e, w1) ∧ e.isCustomError = false ∧
      e.truthy = true ∧ (e.getField "message").truthy = true ∧
      (e.getField "message").toStr = .error te ∧ c.run env w = (.error te, w1)) := by
  rw [Call.run_eq]
  unfold Exec.tryCatch
  cases hb : c.tryBlock env w with
  | mk r w1 =>
    cases r with
    | ok v => exact Or.inl ⟨v, rfl, Or.inr ((answers_tryBlock env c).one_request w w1 v hb)⟩
    | error e =>
      simp only
      rcases catchHandler_cases c.fallback e w1 with ⟨v, hv, hcu⟩ | ⟨te, h1, h2, h3, h4, h5⟩
      · rw [hv]
        exact Or.inl ⟨v, rfl, Or.inl hcu⟩
      · rw [h5]
        exact Or.inr ⟨e, te, w1, rfl, h1, h2, h3, h4, rfl⟩

/-- C2 as stated fails: `logOut()` in the logged-in session of the examples, with a
transport that raises a value whose `message` is an object with no string form,
throws a `TypeError`. -/
theorem logOut_throws :
    ((Call.logOut).run
      (exampleEnv (.error (.obj [("message", .obj [("toString", .num 1)])])))
      { self := exampleLoggedIn, sent := [] }).1 =
      .error (JSVal.typeError "Cannot convert object to primitive value") := by
  rfl

/-- C3 at `placeOrder` in the logged-in session of the examples, with a transport
that raises `{message: "Order rejected", statusCode: 401}`. -/
theorem error_normalisation_witness :
    (Call.placeOrder (.obj [("orderQuantity", .num 20)])).run
        (exampleEnv (.error (.obj [("message", .str "Order rejected"), ("statusCode", .num 401)])))
        { self := exampleLoggedIn, sent := [] } =
      (.ok (.customError (.str "Order rejected") .undefined (.num 401)),
        { self := exampleLoggedIn,
          sent := [{ method := "POST", url := "http://test-api.com/interactive/orders",
                     headers := .obj [("authorization", .str "T")],
                     data := .obj [("orderQuantity", .num 20)] }] }) :=
  ((error_normalisation _ (Call.placeOrder (.obj [("orderQuantity", .num 20)]))
    { self := exampleLoggedIn, sent := [] }
    { self := exampleLoggedIn,
      sent := [{ method := "POST", url := "http://test-api.com/interactive/orders",
                 headers := .obj [("authorization", .str "T")],
                 data := .obj [("orderQuantity", .num 20)] }] }
    (.obj [("message", .str "Order rejected"), ("statusCode", .num 401)]) (by rfl)).2
      (by rfl)).1 "Order rejected" (by rfl)

/-- C3 as stated fails: `placeOrder` with a transport that raises a value whose
`message` is an object with no string form returns nothing: it throws. -/
theorem placeOrder_throws_on_message :
    ((Call.placeOrder (.obj [("orderQuantity", .num 20)])).run
      (exampleEnv (.error (.obj [("message", .obj [("toString", .num 1)]),
        ("statusCode", .num 401)])))
      { self := exampleLoggedIn, sent := [] }).1 =
      .error (JSVal.typeError "Cannot convert object to primitive value") := by
  rfl

/-! ## The fields `populateEnums` leaves alone -/

theorem Session.put_frame (s : Session) (k : String) (v : JSVal) (f : String)
    (hp : s.proto = none) (hk : k ∉ reservedNames) (hf : f ∈ baseFields) :
    (s.put k v).proto = none ∧ (s.put k v).props f = s.props f := by
  simp only [reservedNames, List.mem_cons, List.mem_singleton, not_or, List.not_mem_nil,
    not_false_eq_true, and_true] at hk
  have hne : f ≠ k := by
    rintro rfl
    simp only [baseFields, List.mem_cons, List.mem_singleton, List.not_mem_nil, or_false] at hf
    rcases hf with h | h | h | h | h | h | h | h | h <;> simp [h] at hk
  simp [Session.put, hp, hk, Session.accessorField, Session.setOwn, hne]

theorem keeps_populateCategory_frame (enums : JSVal) (k : String) (hk : k ∉ reservedNames)
    (f : String) (hf : f ∈ baseFields) (x : Option JSVal) :
    Exec.Keeps (fun s => s.proto = none ∧ s.props f = x) (fun s => s.proto = none ∧ s.props f = x)
      (populateCategory enums k) := by
  unfold populateCategory
  repeat (first
    | refine Exec.keeps_bind (fun s => s.proto = none ∧ s.props f = x) ?_ (fun _ h => h) (fun _ => ?_)
    | exact Exec.keeps_writeThis _ _ (fun s h =>
        ⟨(s.put_frame _ _ f h.1 hk hf).1, (s.put_frame _ _ f h.1 hk hf).2.trans h.2⟩)
    | exact Exec.keeps_writeThis _ _ (fun s h =>
        ⟨(s.put_frame _ _ f h.1 (by decide) hf).1, (s.put_frame _ _ f h.1 (by decide) hf).2.trans h.2⟩)
    | exact Exec.keeps_lift _ (fun _ h => h)
    | exact Exec.keeps_pure _ (fun _ h => h)
    | split)

theorem keeps_populateLoop_frame (enums : JSVal) (ks : List String)
    (hk : ∀ k ∈ ks, k ∉ reservedNames) (f : String) (hf : f ∈ baseFields) (x : Option JSVal) :
    Exec.Keeps (fun s => s.proto = none ∧ s.props f = x) (fun s => s.proto = none ∧ s.props f = x)
      (populateLoop enums ks) := by
  induction ks with
  | nil => exact Exec.keeps_pure _ (fun _ h => h)
  | cons k rest ih =>
    unfold populateLoop
    exact Exec.keeps_bind _
      (keeps_populateCategory_frame enums k (hk k (List.mem_cons_self _ _)) f hf x) (fun _ h => h)
      (fun _ => ih (fun k1 h1 => hk k1 (List.mem_cons_of_mem _ h1)))

/-- When no category is named like a property of the session, `populateEnums` leaves
the class prototype in place and every fixed field as it was, also when it throws. -/
theorem populateEnums_frame (enums : JSVal) (hk : ∀ k ∈ enums.ownKeys, k ∉ reservedNames)
    (w : World) (hp : w.self.proto = none) (f : String) (hf : f ∈ baseFields) :
    (populateEnums enums w).2.self.proto = none ∧
      (populateEnums enums w).2.self.props f = w.self.props f :=
  keeps_populateLoop_frame enums _ hk f hf (w.self.props f) w ⟨hp, rfl⟩

/-! ## Login -/

theorem Exec.andThen_run {α β : Type} (m : Exec α) (f : α → Exec β) (w : World) :
    (m.andThen f) w = (match m w with
      | (.ok a, w1) => f a w1
      | (.error e, w1) => (.error e, w1)) := rfl

theorem Exec.lift_run {α : Type} (x : Except JSVal α) (w : World) : Exec.lift x w = (x, w) := rfl

theorem send_run (env : Env) (m u : String) (h d : JSVal) (w : World) :
    Exec.send env m u h d w =
      (env.processRequest { method := m, url := u, headers := h, data := d },
        { w with sent := w.sent ++ [{ method := m, url := u, headers := h, data := d }] }) := rfl

theorem callMethod_run {α : Type} (name : String) (body : Exec α) (w : World) :
    Exec.callMethod name body w =
      if w.self.hasMethod name = true then body w
      else (.error (JSVal.typeError ("this." ++ name ++ " is not a function")), w) := rfl

/-- The outcome of `logIn` when the transport answers with a usable result and
`populateEnums` does not throw. -/
theorem logIn_eq (env : Env) (s : Session) (sent : List Request) (c r : JSVal) (u : String)
    (hm : s.hasMethod "populateEnums" = true)
    (hu : s.url.plusStr env.api.session = .ok u)
    (hc : c.nullish = false)
    (hr : env.processRequest { method := "POST", url := u, headers := .obj [], data := c } = .ok r)
    (hres : r.nullish = false) (hresult : (r.getField "result").nullish = false)
    (hpop : ∀ w, (populateEnums ((r.getField "result").getField "enums") w).1 = .ok ()) :
    logIn env c { self := s, sent := sent } =
      (.ok r, (populateEnums ((r.getField "result").getField "enums")
        { self := logInAssigned s c r,
          sent := sent ++ [{ method := "POST", url := u, headers := .obj [], data := c }] }).2) := by
  have hp : s.proto = none := by
    simp only [Session.hasMethod, Bool.and_eq_true, Option.isNone_iff_eq_none] at hm
    exact hm.1
  have hq : s.props "populateEnums" = none := by
    simp only [Session.hasMethod, Bool.and_eq_true, Option.isNone_iff_eq_none] at hm
    exact hm.2
  have hu1 : (s.get "url").plusStr env.api.session = .ok u := hu
  have hm1 : (logInAssigned s c r).hasMethod "populateEnums" = true := by
    simp [logInAssigned, Session.hasMethod, Session.put, hp, hq, Session.accessorField,
      Session.setOwn]
  simp only [logIn, Exec.tryCatch, logInTry, Exec.bind_run, Exec.readThis_run, Exec.writeThis_run,
    Exec.andThen_run, send_run, callMethod_run, Exec.lift_run, hu1, hr,
    JSVal.getProp_of_not_nullish hc,
    JSVal.getProp_of_not_nullish hres, JSVal.getProp_of_not_nullish hresult, bind, Except.bind,
    Exec.pure_run]
  simp only [logInAssigned] at hm1
  simp only [hm1, if_true]
  have h1 := hpop (World.mk (logInAssigned s c r)
    (sent ++ [{ method := "POST", url := u, headers := .obj [], data := c }]))
  simp only [logInAssigned] at h1 ⊢
  revert h1
  generalize populateEnums ((r.getField "result").getField "enums") _ = out
  intro h1
  obtain ⟨o1, o2⟩ := out
  simp only at h1
  subst h1
  rfl

theorem logInAssigned_props (s : Session) (c r : JSVal) (hp : s.proto = none) :
    (logInAssigned s c r).proto = none ∧
    (logInAssigned s c r).props "isLoggedIn" = some (.bool true) ∧
    (logInAssigned s c r).props "_token" = some ((r.getField "result").getField "token") ∧
    (logInAssigned s c r).props "_enums" = some ((r.getField "result").getField "enums") ∧
    (logInAssigned s c r).props "clientCodes" = some ((r.getField "result").getField "clientCodes") ∧
    (logInAssigned s c r).props "isInvestorClient" =
      some ((r.getField "result").getField "isInvestorClient") ∧
    (logInAssigned s c r).props "_userID" = some (c.getField "userID") ∧
    (logInAssigned s c r).props "_source" = some (c.getField "source") := by
  simp [logInAssigned, Session.put, hp, Session.accessorField, Session.setOwn]

theorem Session.get_of_props (s : Session) (hp : s.proto = none) (k b : String) (v : JSVal)
    (hk : Session.accessorField k = some b) (hv : s.props b = some v) : s.get k = v := by
  simp [Session.get, hp, hk, hv]

theorem Session.get_of_props_data (s : Session) (hp : s.proto = none) (k : String) (v : JSVal)
    (hk : Session.accessorField k = none) (hv : s.props k = some v) : s.get k = v := by
  simp [Session.get, hp, hk, hv]

/-- C4 (amended). For credentials `c` that are not null, a session that still has
its `populateEnums` method, and a successful response `r` whose `result` is not
null, whose enumeration payload `populateEnums` processes without throwing and
names no category like a property of the session: `logIn(c)` sends the one request
`POST url + session path` with empty headers and body `c`, returns `r`, and leaves
`isLoggedIn = true`, `token`, `enums`, `clientCodes` and `isInvestorClient` equal to
the fields of `r.result`, `userID = c.userID` and `source = c.source`. -/
theorem logIn_stores_result (env : Env) (s : Session) (sent : List Request) (c r : JSVal)
    (u : String)
    (hm : s.hasMethod "populateEnums" = true)
    (hu : s.url.plusStr env.api.session = .ok u)
    (hc : c.nullish = false)
    (hr : env.processRequest { method := "POST", url := u, headers := .obj [], data := c } = .ok r)
    (hres : r.nullish = false) (hresult : (r.getField "result").nullish = false)
    (hpop : ∀ w, (populateEnums ((r.getField "result").getField "enums") w).1 = .ok ())
    (hk : ∀ k ∈ ((r.getField "result").getField "enums").ownKeys, k ∉ reservedNames) :
    (logIn env c { self := s, sent := sent }).1 = .ok r ∧
    (logIn env c { self := s, sent := sent }).2.sent =
      sent ++ [{ method := "POST", url := u, headers := .obj [], data := c }] ∧
    (logIn env c { self := s, sent := sent }).2.self.isLoggedIn = .bool true ∧
    (logIn env c { self := s, sent := sent }).2.self.token = (r.getField "result").getField "token" ∧
    (logIn env c { self := s, sent := sent }).2.self.enums = (r.getField "result").getField "enums" ∧
    (logIn env c { self := s, sent := sent }).2.self.clientCodes =
      (r.getField "result").getField "clientCodes" ∧
    (logIn env c { self := s, sent := sent }).2.self.isInvestorClient =
      (r.getField "result").getField "isInvestorClient" ∧
    (logIn env c { self := s, sent := sent }).2.self.userID = c.getField "userID" ∧
    (logIn env c { self := s, sent := sent }).2.self.source = c.getField "source" := by
  have hp : s.proto = none := by
    simp only [Session.hasMethod, Bool.and_eq_true, Option.isNone_iff_eq_none] at hm
    exact hm.1
  rw [logIn_eq env s sent c r u hm hu hc hr hres hresult hpop]
  obtain ⟨a0, a1, a2, a3, a4, a5, a6, a7⟩ := logInAssigned_props s c r hp
  have fr := fun f hf => populateEnums_frame ((r.getField "result").getField "enums") hk
    (World.mk (logInAssigned s c r)
      (sent ++ [{ method := "POST", url := u, headers := .obj [], data := c }])) a0 f hf
  refine ⟨rfl, (quiet_populateEnums _).sent_eq _, ?_, ?_, ?_, ?_, ?_, ?_, ?_⟩
  · exact Session.get_of_props_data _ (fr "isLoggedIn" (by decide)).1 _ _ rfl
      ((fr "isLoggedIn" (by decide)).2.trans a1)
  · exact Session.get_of_props _ (fr "_token" (by decide)).1 _ "_token" _ rfl
      ((fr "_token" (by decide)).2.trans a2)
  · exact Session.get_of_props _ (fr "_enums" (by decide)).1 _ "_enums" _ rfl
      ((fr "_enums" (by decide)).2.trans a3)
  · exact Session.get_of_props_data _ (fr "clientCodes" (by decide)).1 _ _ rfl
      ((fr "clientCodes" (by decide)).2.trans a4)
  · exact Session.get_of_props_data _ (fr "isInvestorClient" (by decide)).1 _ _ rfl
      ((fr "isInvestorClient" (by decide)).2.trans a5)
  · exact Session.get_of_props _ (fr "_userID" (by decide)).1 _ "_userID" _ rfl
      ((fr "_userID" (by decide)).2.trans a6)
  · exact Session.get_of_props _ (fr "_source" (by decide)).1 _ "_source" _ rfl
      ((fr "_source" (by decide)).2.trans a7)

theorem logIn_stores_result_witness :
    (logIn (exampleEnv (.ok (exampleResponse exampleEnums))) exampleCredentials
        { self := exampleSession, sent := [] }).1 = .ok (exampleResponse exampleEnums) ∧
    (logIn (exampleEnv (.ok (exampleResponse exampleEnums))) exampleCredentials
        { self := exampleSession, sent := [] }).2.sent =
      [] ++ [{ method := "POST", url := "http://test-api.com/interactive/user/session",
               headers := .obj [], data := exampleCredentials }] ∧
    (logIn (exampleEnv (.ok (exampleResponse exampleEnums))) exampleCredentials
        { self := exampleSession, sent := [] }).2.self.isLoggedIn = .bool true ∧
    (logIn (exampleEnv (.ok (exampleResponse exampleEnums))) exampleCredentials
        { self := exampleSession, sent := [] }).2.self.token = .str "T" :=
  have h := logIn_stores_result (exampleEnv (.ok (exampleResponse exampleEnums))) exampleSession []
    exampleCredentials (exampleResponse exampleEnums) "http://test-api.com/interactive/user/session"
    (by rfl) (by rfl) (by rfl) (by rfl) (by rfl) (by rfl) (fun _ => by rfl) (by decide)
  ⟨h.1, h.2.1, h.2.2.1, h.2.2.2.1⟩

/-- C4 as stated fails: a category named `token` makes `populateEnums` overwrite the
stored token with a capability table, although the response is returned. -/
theorem logIn_token_overwritten :
    (logIn (exampleEnv (.ok (exampleResponse (.obj [("token", .arr [.str "X"])]))))
        exampleCredentials { self := exampleSession, sent := [] }).1 =
      .ok (exampleResponse (.obj [("token", .arr [.str "X"])])) ∧
    (logIn (exampleEnv (.ok (exampleResponse (.obj [("token", .arr [.str "X"])]))))
        exampleCredentials { self := exampleSession, sent := [] }).2.self.token =
      .obj [("X", .str "X")] ∧
    ((exampleResponse (.obj [("token", .arr [.str "X"])])).getField "result").getField "token" =
      .str "T" :=
  ⟨by rfl, by rfl, by rfl⟩

theorem Session.get_isLoggedIn_put (s : Session) (k : String) (v : JSVal)
    (hk : k ∈ ["userID", "source", "token", "enums", "clientCodes", "isInvestorClient"]) :
    (s.put k v).get "isLoggedIn" = s.get "isLoggedIn" := by
  simp only [List.mem_cons, List.mem_singleton, List.not_mem_nil, or_false] at hk
  cases hp : s.proto with
  | none =>
    rcases hk with rfl | rfl | rfl | rfl | rfl | rfl <;>
      simp [Session.put, Session.get, hp, Session.accessorField, Session.setOwn]
  | some p =>
    rcases hk with rfl | rfl | rfl | rfl | rfl | rfl <;>
      simp [Session.put, Session.get, hp, Session.accessorField, Session.setOwn]

theorem getResult_error (r : JSVal) (k : String)
    (h : r.nullish = true ∨ (r.getField "result").nullish = true) :
    ∃ e, (do (← r.getProp "result").getProp k : Except JSVal JSVal) = .error e := by
  cases hn : r.nullish with
  | true => exact ⟨_, by simp [JSVal.getProp, hn, bind, Except.bind]; rfl⟩
  | false =>
    have h2 : (r.getField "result").nullish = true := by
      rcases h with h | h
      · rw [hn] at h; exact absurd h (by decide)
      · exact h
    exact ⟨_, by simp [JSVal.getProp, hn, h2, bind, Except.bind]; rfl⟩

theorem logInTry_noResult (env : Env) (s : Session) (sent : List Request) (c : JSVal)
    (hfail : NoResult env.processRequest) :
    ∃ e w1, logInTry env c { self := s, sent := sent } = (.error e, w1) ∧
      w1.self.get "isLoggedIn" = s.get "isLoggedIn" := by
  cases hu : (s.get "url").plusStr env.api.session with
  | error e =>
    refine ⟨e, World.mk s sent, ?_, ?_⟩
    · simp only [logInTry, Exec.bind_run, Exec.readThis_run, Exec.lift_run, hu]
    · rfl
  | ok u =>
    have hf := hfail (Request.mk "POST" u (.obj []) c)
    cases hr : env.processRequest (Request.mk "POST" u (.obj []) c) with
    | error e =>
      refine ⟨e, World.mk s (sent ++ [Request.mk "POST" u (.obj []) c]), ?_, ?_⟩
      · simp only [logInTry, Exec.bind_run, Exec.readThis_run, Exec.lift_run, hu, send_run, hr]
      · rfl
    | ok r =>
      rw [hr] at hf
      simp only at hf
      cases hc : c.nullish with
      | true =>
        refine ⟨JSVal.typeError ("Cannot read properties of null or undefined (reading " ++ "userID" ++ ")"),
          World.mk s (sent ++ [Request.mk "POST" u (.obj []) c]), ?_, ?_⟩
        · simp only [logInTry, Exec.bind_run, Exec.readThis_run, Exec.lift_run, hu, send_run, hr,
            JSVal.getProp, hc, if_true]
        · rfl
      | false =>
        obtain ⟨e, he⟩ := getResult_error r "token" hf
        refine ⟨e, World.mk ((s.put "userID" (c.getField "userID")).put "source" (c.getField "source"))
          (sent ++ [Request.mk "POST" u (.obj []) c]), ?_, ?_⟩
        · simp only [logInTry, Exec.bind_run, Exec.readThis_run, Exec.lift_run, hu, send_run, hr,
            JSVal.getProp_of_not_nullish hc, Exec.writeThis_run, he]
        · simp only [Session.get_isLoggedIn_put _ _ _ (by decide : "userID" ∈ _),
            Session.get_isLoggedIn_put _ _ _ (by decide : "source" ∈ _)]

theorem loginWithTokenTry_noResult (env : Env) (s : Session) (sent : List Request)
    (userID token : JSVal) (hfail : NoResult env.processRequest) :
    ∃ e w1, loginWithTokenTry env userID token { self := s, sent := sent } = (.error e, w1) ∧
      w1.self.get "isLoggedIn" = s.get "isLoggedIn" := by
  cases hu : (s.get "url").plusStr (env.api.enums ++ "?userID=") with
  | error e =>
    refine ⟨e, World.mk s sent, ?_, ?_⟩
    · simp only [loginWithTokenTry, Exec.bind_run, Exec.readThis_run, Exec.lift_run, hu]
    · rfl
  | ok u =>
    cases hu2 : JSVal.strPlus u userID with
    | error e =>
      refine ⟨e, World.mk s sent, ?_, ?_⟩
      · simp only [loginWithTokenTry, Exec.bind_run, Exec.readThis_run, Exec.lift_run, hu, hu2]
      · rfl
    | ok u2 =>
      have hf := hfail (Request.mk "GET" u2 (.obj [("authorization", token)]) .null)
      cases hr : env.processRequest (Request.mk "GET" u2 (.obj [("authorization", token)]) .null) with
      | error e =>
        refine ⟨e, World.mk s (sent ++ [Request.mk "GET" u2 (.obj [("authorization", token)]) .null]),
          ?_, ?_⟩
        · simp only [loginWithTokenTry, Exec.bind_run, Exec.readThis_run, Exec.lift_run, hu, hu2,
            send_run, hr]
        · rfl
      | ok r =>
        rw [hr] at hf
        simp only at hf
        obtain ⟨e, he⟩ := getResult_error r "enums" hf
        refine ⟨e, World.mk ((s.put "userID" userID).put "token" token)
          (sent ++ [Request.mk "GET" u2 (.obj [("authorization", token)]) .null]), ?_, ?_⟩
        · simp only [loginWithTokenTry, Exec.bind_run, Exec.readThis_run, Exec.lift_run, hu, hu2,
            send_run, hr, Exec.writeThis_run, he]
        · simp only [Session.get_isLoggedIn_put _ _ _ (by decide : "userID" ∈ _),
            Session.get_isLoggedIn_put _ _ _ (by decide : "token" ∈ _)]

/-- C5 (amended). On a session whose `isLoggedIn` is false, when the transport
raises or answers without a usable `result`, `isLoggedIn` is still false after a
call of `logIn` or `loginWithToken`, and the call returns a `CustomError`; or else
the value thrown in its `try` block carries a truthy `message` with no string form,
and the call throws the `TypeError` that `new CustomError` throws on it. -/
theorem login_failure_stays_unauthenticated (env : Env) (s : Session) (sent : List Request)
    (hl : s.isLoggedIn.truthy = false) (hfail : NoResult env.processRequest) :
    (∀ c,
        (logIn env c { self := s, sent := sent }).2.self.isLoggedIn.truthy = false ∧
        ((∃ err, (logIn env c { self := s, sent := sent }).1 = .ok err ∧
            err.isCustomError = true) ∨
         (∃ e te w1, logInTry env c { self := s, sent := sent } = (.error e, w1) ∧
            e.isCustomError = false ∧ e.truthy = true ∧ (e.getField "message").truthy = true ∧
            (e.getField "message").toStr = .error te ∧
            (logIn env c { self := s, sent := sent }).1 = .error te))) ∧
    (∀ userID token,
        (loginWithToken env userID token { self := s, sent := sent }).2.self.isLoggedIn.truthy
          = false ∧
        ((∃ err, (loginWithToken env userID token { self := s, sent := sent }).1 = .ok err ∧
            err.isCustomError = true) ∨
         (∃ e te w1,
            loginWithTokenTry env userID token { self := s, sent := sent } = (.error e, w1) ∧
            e.isCustomError = false ∧ e.truthy = true ∧ (e.getField "message").truthy = true ∧
            (e.getField "message").toStr = .error te ∧
            (loginWithToken env userID token { self := s, sent := sent }).1 = .error te))) := by
  constructor
  · intro c
    obtain ⟨e, w1, h1, h2⟩ := logInTry_noResult env s sent c hfail
    have hrun : logIn env c { self := s, sent := sent } =
        catchHandler "Login operation failed." e w1 := by
      simp only [logIn, Exec.tryCatch, h1]
    have hst : (catchHandler "Login operation failed." e w1).2 = w1 :=
      (catchHandler_outcome _ e w1).1
    rw [hrun]
    refine ⟨by rw [hst]; simp only [Session.isLoggedIn, h2]; exact hl, ?_⟩
    rcases catchHandler_cases "Login operation failed." e w1 with
      ⟨v, hv, hcu⟩ | ⟨te, a1, a2, a3, a4, a5⟩
    · exact Or.inl ⟨v, by rw [hv], hcu⟩
    · exact Or.inr ⟨e, te, w1, h1, a1, a2, a3, a4, by rw [a5]⟩
  · intro userID token
    obtain ⟨e, w1, h1, h2⟩ := loginWithTokenTry_noResult env s sent userID token hfail
    have hrun : loginWithToken env userID token { self := s, sent := sent } =
        catchHandler "Login with token operation failed." e w1 := by
      simp only [loginWithToken, Exec.tryCatch, h1]
    have hst : (catchHandler "Login with token operation failed." e w1).2 = w1 :=
      (catchHandler_outcome _ e w1).1
    rw [hrun]
    refine ⟨by rw [hst]; simp only [Session.isLoggedIn, h2]; exact hl, ?_⟩
    rcases catchHandler_cases "Login with token operation failed." e w1 with
      ⟨v, hv, hcu⟩ | ⟨te, a1, a2, a3, a4, a5⟩
    · exact Or.inl ⟨v, by rw [hv], hcu⟩
    · exact Or.inr ⟨e, te, w1, h1, a1, a2, a3, a4, by rw [a5]⟩

/-- C5 at a login the transport rejects with `{message: "Login failed", statusCode:
401}`: the flag stays false and a `CustomError` with these two fields is
returned. -/
theorem login_failure_stays_unauthenticated_witness :
    (logIn (exampleEnv (.error (.obj [("message", .str "Login failed"), ("statusCode", .num 401)])))
        exampleCredentials { self := exampleSession, sent := [] }).2.self.isLoggedIn.truthy = false ∧
    (logIn (exampleEnv (.error (.obj [("message", .str "Login failed"), ("statusCode", .num 401)])))
        exampleCredentials { self := exampleSession, sent := [] }).1 =
      .ok (.customError (.str "Login failed") .undefined (.num 401)) :=
  ⟨((login_failure_stays_unauthenticated
    (exampleEnv (.error (.obj [("message", .str "Login failed"), ("statusCode", .num 401)])))
    exampleSession [] (by rfl) (fun _ => trivial)).1 exampleCredentials).1, by rfl⟩

/-- C5 as stated fails: when `populateEnums` throws on the enumeration payload,
`logIn` returns a `CustomError` although `isLoggedIn` has already been set. -/
theorem logIn_error_after_flag :
    exampleSession.isLoggedIn = .bool false ∧
    (logIn (exampleEnv (.ok (exampleResponse (.obj [("exchangeSegments", .null)]))))
        exampleCredentials { self := exampleSession, sent := [] }).1 =
      .ok (.customError (.str "Cannot read properties of null or undefined (reading length)")
        (.str "TypeError: Cannot read properties of null or undefined (reading length)")
        (.num 500)) ∧
    (logIn (exampleEnv (.ok (exampleResponse (.obj [("exchangeSegments", .null)]))))
        exampleCredentials { self := exampleSession, sent := [] }).2.self.isLoggedIn =
      .bool true :=
  ⟨by rfl, by rfl, by rfl⟩

/-! ## Token, user identifier and the login flag -/

theorem logInTry_assigned (env : Env) (s : Session) (sent : List Request) (c r : JSVal)
    (u : String)
    (hu : (s.get "url").plusStr env.api.session = .ok u)
    (hc : c.nullish = false)
    (hr : env.processRequest (Request.mk "POST" u (.obj []) c) = .ok r)
    (hres : r.nullish = false) (hresult : (r.getField "result").nullish = false) :
    logInTry env c { self := s, sent := sent } =
      (Exec.callMethod "populateEnums" (populateEnums ((r.getField "result").getField "enums")) >>=
        fun _ => pure r)
        (World.mk (logInAssigned s c r) (sent ++ [Request.mk "POST" u (.obj []) c])) := by
  simp only [logInTry, Exec.bind_run, Exec.readThis_run, Exec.writeThis_run,
    Exec.andThen_run, send_run, Exec.lift_run, hu, hr,
    JSVal.getProp_of_not_nullish hc,
    JSVal.getProp_of_not_nullish hres, JSVal.getProp_of_not_nullish hresult, bind, Except.bind,
    Exec.pure_run, logInAssigned]

theorem loginWithTokenTry_assigned (env : Env) (s : Session) (sent : List Request)
    (userID token r : JSVal) (u u2 : String)
    (hu : (s.get "url").plusStr (env.api.enums ++ "?userID=") = .ok u)
    (hu2 : JSVal.strPlus u userID = .ok u2)
    (hr : env.processRequest (Request.mk "GET" u2 (.obj [("authorization", token)]) .null) = .ok r)
    (hres : r.nullish = false) (hresult : (r.getField "result").nullish = false) :
    loginWithTokenTry env userID token { self := s, sent := sent } =
      (Exec.callMethod "populateEnums" (populateEnums ((r.getField "result").getField "enums")) >>=
        fun _ => pure r)
        (World.mk (loginWithTokenAssigned s userID token r)
          (sent ++ [Request.mk "GET" u2 (.obj [("authorization", token)]) .null])) := by
  simp only [loginWithTokenTry, Exec.bind_run, Exec.readThis_run, Exec.writeThis_run,
    Exec.andThen_run, send_run, Exec.lift_run, hu, hu2, hr,
    JSVal.getProp_of_not_nullish hres, JSVal.getProp_of_not_nullish hresult, bind, Except.bind,
    Exec.pure_run, loginWithTokenAssigned]

theorem Session.Established.put_obj {s : Session} (h : s.Established) (k : String)
    (fs : List (String × JSVal)) (hk : k ≠ "__proto__") : (s.put k (.obj fs)).Established := by
  obtain ⟨hp, ⟨v, hv, hvt⟩, ⟨t, ht, htn⟩, ⟨u, hu, hun⟩⟩ := h
  have key : ∀ b : String, (s.setOwn b (.obj fs)).Established := by
    intro b
    refine ⟨hp, ?_, ?_, ?_⟩
    · by_cases hb : "isLoggedIn" = b
      · exact ⟨.obj fs, by simp [Session.setOwn, hb], rfl⟩
      · exact ⟨v, by simp [Session.setOwn, hb, hv], hvt⟩
    · by_cases hb : "_token" = b
      · exact ⟨.obj fs, by simp [Session.setOwn, hb], rfl⟩
      · exact ⟨t, by simp [Session.setOwn, hb, ht], htn⟩
    · by_cases hb : "_userID" = b
      · exact ⟨.obj fs, by simp [Session.setOwn, hb], rfl⟩
      · exact ⟨u, by simp [Session.setOwn, hb, hu], hun⟩
  unfold Session.put
  rw [hp]
  simp only [hk, if_false]
  split
  · exact key _
  · exact key _

theorem keeps_populateCategory_established (enums : JSVal) (k : String) (hk : k ≠ "__proto__") :
    Exec.Keeps Session.Established Session.Established (populateCategory enums k) := by
  unfold populateCategory
  repeat (first
    | refine Exec.keeps_bind Session.Established ?_ (fun _ h => h) (fun _ => ?_)
    | exact Exec.keeps_writeThis _ _ (fun s h => h.put_obj _ _ hk)
    | exact Exec.keeps_writeThis _ _ (fun s h => h.put_obj _ _ (by decide))
    | exact Exec.keeps_lift _ (fun _ h => h)
    | exact Exec.keeps_pure _ (fun _ h => h)
    | split)

theorem keeps_populateLoop_established (enums : JSVal) (ks : List String)
    (hk : "__proto__" ∉ ks) :
    Exec.Keeps Session.Established Session.Established (populateLoop enums ks) := by
  induction ks with
  | nil => exact Exec.keeps_pure _ (fun _ h => h)
  | cons k rest ih =>
    unfold populateLoop
    simp only [List.mem_cons, not_or] at hk
    exact Exec.keeps_bind _
      (keeps_populateCategory_established enums k (fun h => hk.1 h.symm)) (fun _ h => h)
      (fun _ => ih hk.2)

theorem keeps_populateTail_established (enums r : JSVal) (hk : "__proto__" ∉ enums.ownKeys) :
    Exec.Keeps Session.Established Session.Established
      (Exec.callMethod "populateEnums" (populateEnums enums) >>= fun _ => (pure r : Exec JSVal)) :=
  Exec.keeps_bind _
    (Exec.keeps_callMethod _ (keeps_populateLoop_established enums _ hk) (fun _ h => h))
    (fun _ h => h) (fun _ => Exec.keeps_pure _ (fun _ h => h))

theorem logInAssigned_established (s : Session) (c r : JSVal) (hp : s.proto = none)
    (hu : (c.getField "userID").nullish = false)
    (ht : ((r.getField "result").getField "token").nullish = false) :
    (logInAssigned s c r).Established := by
  obtain ⟨a0, a1, a2, _, _, _, a6, _⟩ := logInAssigned_props s c r hp
  exact ⟨a0, ⟨_, a1, rfl⟩, ⟨_, a2, ht⟩, ⟨_, a6, hu⟩⟩

theorem loginWithTokenAssigned_established (s : Session) (u t r : JSVal) (hp : s.proto = none)
    (hu : u.nullish = false) (ht : t.nullish = false) :
    (loginWithTokenAssigned s u t r).Established := by
  refine ⟨?_, ⟨.bool true, ?_, rfl⟩, ⟨t, ?_, ht⟩, ⟨u, ?_, hu⟩⟩ <;>
    simp [loginWithTokenAssigned, Session.put, hp, Session.accessorField, Session.setOwn]

theorem Call.run_snd (env : Env) (c : Call) (w : World) :
    (c.run env w).2 = (c.tryBlock env w).2 := by
  rw [Call.run_eq]
  unfold Exec.tryCatch
  cases hb : c.tryBlock env w with
  | mk r w1 =>
    cases r with
    | ok v => rfl
    | error e => simp only [catchHandler_eq]

theorem logInTry_step (env : Env) (s : Session) (sent : List Request) (c : JSVal)
    (hp : s.proto = none) (hc : c.nullish = false) (hid : (c.getField "userID").nullish = false)
    (hs : Served env.processRequest true) :
    (logInTry env c { self := s, sent := sent }).2.self = s ∨
      (logInTry env c { self := s, sent := sent }).2.self.Established := by
  cases hu : (s.get "url").plusStr env.api.session with
  | error e =>
    left
    simp only [logInTry, Exec.bind_run, Exec.readThis_run, Exec.lift_run, hu]
  | ok u =>
    have hf := hs (Request.mk "POST" u (.obj []) c)
    cases hr : env.processRequest (Request.mk "POST" u (.obj []) c) with
    | error e =>
      left
      simp only [logInTry, Exec.bind_run, Exec.readThis_run, Exec.lift_run, hu, send_run, hr]
    | ok r =>
      rw [hr] at hf
      simp only at hf
      obtain ⟨h1, h2, h3, h4⟩ := hf
      right
      rw [logInTry_assigned env s sent c r u hu hc hr h1 h2]
      exact keeps_populateTail_established _ r h4 _
        (logInAssigned_established s c r hp hid (h3 trivial))

theorem loginWithTokenTry_step (env : Env) (s : Session) (sent : List Request) (u t : JSVal)
    (hp : s.proto = none) (hu0 : u.nullish = false) (ht : t.nullish = false)
    (hs : Served env.processRequest false) :
    (loginWithTokenTry env u t { self := s, sent := sent }).2.self = s ∨
      (loginWithTokenTry env u t { self := s, sent := sent }).2.self.Established := by
  cases hu : (s.get "url").plusStr (env.api.enums ++ "?userID=") with
  | error e =>
    left
    simp only [loginWithTokenTry, Exec.bind_run, Exec.readThis_run, Exec.lift_run, hu]
  | ok u1 =>
    cases hu2 : JSVal.strPlus u1 u with
    | error e =>
      left
      simp only [loginWithTokenTry, Exec.bind_run, Exec.readThis_run, Exec.lift_run, hu, hu2]
    | ok u2 =>
      have hf := hs (Request.mk "GET" u2 (.obj [("authorization", t)]) .null)
      cases hr : env.processRequest (Request.mk "GET" u2 (.obj [("authorization", t)]) .null) with
      | error e =>
        left
        simp only [loginWithTokenTry, Exec.bind_run, Exec.readThis_run, Exec.lift_run, hu, hu2,
          send_run, hr]
      | ok r =>
        rw [hr] at hf
        simp only at hf
        obtain ⟨h1, h2, _, h4⟩ := hf
        right
        rw [loginWithTokenTry_assigned env s sent u t r u1 u2 hu hu2 hr h1 h2]
        exact keeps_populateTail_established _ r h4 _
          (loginWithTokenAssigned_established s u t r hp hu0 ht)

theorem ReachableComplete.constructed_or_established {defaultUrl : JSVal} {s : Session}
    (h : ReachableComplete defaultUrl s) :
    (∃ url, s = XTSInteractive defaultUrl url) ∨ s.Established := by
  induction h with
  | construct url => exact Or.inl ⟨url, rfl⟩
  | call s env c sent _ _ hcomp ih =>
    have hp : s.proto = none := by
      rcases ih with ⟨url, rfl⟩ | h
      · rfl
      · exact h.1
    rw [Call.run_snd]
    have key : (c.tryBlock env { self := s, sent := sent }).2.self = s ∨
        (c.tryBlock env { self := s, sent := sent }).2.self.Established := by
      cases hc : c.isLogin with
      | false => exact Or.inl (keeps_nonLogin (P := fun x => x = s) env c hc _ rfl)
      | true =>
        cases c <;> first | (simp [Call.isLogin] at hc; done) | skip
        · exact logInTry_step env s sent _ hp hcomp.1 hcomp.2.1 hcomp.2.2
        · exact loginWithTokenTry_step env s sent _ _ hp hcomp.1 hcomp.2.1 hcomp.2.2
    rcases key with h | h
    · rw [h]; exact ih
    · exact Or.inr h

/-- C6 (amended). In every session reachable by operations whose login calls are
given a user identifier (and token) and are served by a transport that either
raises or answers with a result carrying a token and no category named
`__proto__`: token and userID are both set if and only if `isLoggedIn` is true. -/
theorem token_userID_iff_loggedIn (defaultUrl : JSVal) (s : Session)
    (h : ReachableComplete defaultUrl s) :
    (s.token.nullish = false ∧ s.userID.nullish = false) ↔ s.isLoggedIn.truthy = true := by
  rcases h.constructed_or_established with ⟨url, rfl⟩ | ⟨hp, ⟨v, hv, hvt⟩, ⟨t, ht, htn⟩, ⟨u, hu, hun⟩⟩
  · have e1 : (XTSInteractive defaultUrl url).token = .undefined := rfl
    have e3 : (XTSInteractive defaultUrl url).isLoggedIn = .bool false := rfl
    rw [e1, e3]
    constructor
    · intro h1
      exact absurd h1.1 (by decide)
    · intro h1
      exact absurd h1 (by decide)
  · have e1 : s.token = t := Session.get_of_props s hp "token" "_token" t rfl ht
    have e2 : s.userID = u := Session.get_of_props s hp "userID" "_userID" u rfl hu
    have e3 : s.isLoggedIn = v := Session.get_of_props_data s hp "isLoggedIn" v rfl hv
    rw [e1, e2, e3]
    exact ⟨fun _ => hvt, fun _ => ⟨htn, hun⟩⟩

theorem token_userID_iff_loggedIn_witness :
    (((Call.logIn exampleCredentials).run (exampleEnv (.ok (exampleResponse exampleEnums)))
        { self := exampleSession, sent := [] }).2.self.token.nullish = false ∧
      ((Call.logIn exampleCredentials).run (exampleEnv (.ok (exampleResponse exampleEnums)))
        { self := exampleSession, sent := [] }).2.self.userID.nullish = false) ↔
    ((Call.logIn exampleCredentials).run (exampleEnv (.ok (exampleResponse exampleEnums)))
        { self := exampleSession, sent := [] }).2.self.isLoggedIn.truthy = true :=
  token_userID_iff_loggedIn (.str "http://default-api.com") _
    (ReachableComplete.call exampleSession (exampleEnv (.ok (exampleResponse exampleEnums)))
      (Call.logIn exampleCredentials) [] (ReachableComplete.construct _) (by rfl)
      ⟨by rfl, by rfl, fun _ => ⟨by rfl, by rfl, fun _ => by rfl, by decide⟩⟩)

/-- C6 as stated fails: `loginWithToken` stores userID and token before it reads the
response, so a response without a result leaves both set while `isLoggedIn` is false. -/
theorem token_set_while_logged_out :
    Reachable (.str "http://default-api.com")
      ((Call.loginWithToken (.str "u") (.str "t")).run (exampleEnv (.ok (.obj [])))
        { self := exampleSession, sent := [] }).2.self ∧
    ((Call.loginWithToken (.str "u") (.str "t")).run (exampleEnv (.ok (.obj [])))
        { self := exampleSession, sent := [] }).2.self.token = .str "t" ∧
    ((Call.loginWithToken (.str "u") (.str "t")).run (exampleEnv (.ok (.obj [])))
        { self := exampleSession, sent := [] }).2.self.userID = .str "u" ∧
    ((Call.loginWithToken (.str "u") (.str "t")).run (exampleEnv (.ok (.obj [])))
        { self := exampleSession, sent := [] }).2.self.isLoggedIn = .bool false :=
  ⟨Reachable.call exampleSession _ _ [] (Reachable.construct _) (by rfl), by rfl, by rfl, by rfl⟩

/-! ## The client-code gate -/

theorem checkClientCodes_eq (r : JSVal) (w : World) :
    checkClientCodes r w =
      if (w.self.get "isInvestorClient").truthy = true then (.ok (.bool true), w)
      else if r.nullish = true ∨ (r.getField "clientID").nullish = true then
        (.error clientCodeRequired, w)
      else (.ok (.bool true), w) := by
  simp only [checkClientCodes, Exec.bind_run, Exec.readThis_run]
  cases h1 : (w.self.get "isInvestorClient").truthy with
  | true => simp
  | false =>
    cases h2 : r.nullish with
    | true => simp [clientCodeRequired]
    | false =>
      cases h3 : (r.getField "clientID").nullish with
      | true => simp [clientCodeRequired]
      | false => simp

/-- C7. `checkClientCodes` succeeds for every payload when `isInvestorClient` is
truthy; otherwise it throws the value with statusCode 404 and message
"ClientCode is Required" exactly when the payload is `null`/`undefined` or its
`clientID` is `null`/`undefined`, and succeeds in every other case. -/
theorem checkClientCodes_spec (r : JSVal) (w : World) :
    checkClientCodes r w =
      if w.self.isInvestorClient.truthy = true then (.ok (.bool true), w)
      else if r.nullish = true ∨ (r.getField "clientID").nullish = true then
        (.error (.obj [("message", .str "ClientCode is Required"),
          ("stack", .str "clientCode is mandatory"), ("statusCode", .num 404)]), w)
      else (.ok (.bool true), w) :=
  checkClientCodes_eq r w

theorem sendOutcome_snd (env : Env) (fb : String) (req : Request) (w : World) :
    (sendOutcome env fb req w).2 = { w with sent := w.sent ++ [req] } := by
  unfold sendOutcome
  split
  · rfl
  · simp only [catchHandler_eq]

theorem sendOutcome_ok (env : Env) (fb : String) (req : Request) (w : World) (v : JSVal)
    (h : env.processRequest req = .ok v) : (sendOutcome env fb req w).1 = .ok v := by
  unfold sendOutcome
  rw [h]

theorem plusStr_of_toStr {v : JSVal} {base : String} (h : v.toStr = .ok base) (p : String) :
    v.plusStr p = .ok (base ++ p) := by
  simp [JSVal.plusStr, h]

theorem clientGate_run (r : JSVal) (w : World)
    (hm : w.self.hasMethod "checkClientCodes" = true) :
    Exec.callMethod "checkClientCodes" (checkClientCodes r) w = checkClientCodes r w := by
  simp [Exec.callMethod, hm]

theorem catchHandler_clientCodeRequired (fb : String) (w : World) :
    catchHandler fb clientCodeRequired w =
      (.ok (.customError (.str "ClientCode is Required") (.str "clientCode is mandatory")
        (.num 404)), w) := by
  rfl

/-- The four operations behind the client-code gate, in a session that is not an
investor client and for a payload without client code: the 404 error, no request. -/
theorem clientGate_closed (env : Env) (r : JSVal) (w : World) (ha : w.self.Authenticated)
    (hi : w.self.isInvestorClient.truthy = false)
    (hr : r.nullish = true ∨ (r.getField "clientID").nullish = true) (c : Call)
    (hc : c = .getOrderBook r ∨ c = .getTradeBook r ∨ c = .modifyOrder r ∨ c = .cancelOrder r) :
    c.run env w =
      (.ok (.customError (.str "ClientCode is Required") (.str "clientCode is mandatory")
        (.num 404)), w) := by
  have hi1 : (w.self.get "isInvestorClient").truthy = false := hi
  rcases hc with rfl | rfl | rfl | rfl <;>
    simp only [Call.run, getOrderBook, getTradeBook, modifyOrder, cancelOrder, Exec.tryCatch,
      getOrderBookTry, getTradeBookTry, modifyOrderTry, cancelOrderTry, Exec.bind_run,
      gate_open w ha.hasLoginGate ha.loggedIn, clientGate_run r w ha.hasClientGate,
      checkClientCodes_eq, hi1, hr, if_true, catchHandler_clientCodeRequired] <;> rfl

/-! ## Operations in an authenticated session -/

/-- The operations that send the payload as the request body, and the two book
reads, once the gates are passed: one request, answered or handed to the `catch`
block. -/
theorem passThrough_run (env : Env) (r : JSVal) (w : World) (base : String)
    (ha : w.self.Authenticated) (hb : w.self.url.toStr = .ok base) :
    placeOrder env r w = sendOutcome env "Place order operation failed."
      (Request.mk "POST" (base ++ env.api.orders) (.obj [("authorization", w.self.token)]) r) w ∧
    positionConversion env r w = sendOutcome env "Position conversion operation failed."
      (Request.mk "PUT" (base ++ env.api.convert) (.obj [("authorization", w.self.token)]) r) w ∧
    squareOff env r w = sendOutcome env "Square off operation failed."
      (Request.mk "PUT" (base ++ env.api.squareoff) (.obj [("authorization", w.self.token)]) r) w ∧
    placeCoverOrder env r w = sendOutcome env "Place cover order operation failed."
      (Request.mk "POST" (base ++ env.api.cover) (.obj [("authorization", w.self.token)]) r) w ∧
    logOut env w = sendOutcome env "Logout operation failed."
      (Request.mk "DELETE" (base ++ env.api.session) (.obj [("authorization", w.self.token)])
        .null) w := by
  have hb1 : (w.self.get "url").toStr = .ok base := hb
  refine ⟨?_, ?_, ?_, ?_, ?_⟩ <;>
    simp only [placeOrder, positionConversion, squareOff, placeCoverOrder, logOut, Exec.tryCatch,
      placeOrderTry, positionConversionTry, squareOffTry, placeCoverOrderTry, logOutTry,
      Exec.bind_run, gate_open w ha.hasLoginGate ha.loggedIn, Exec.readThis_run, Exec.lift_run,
      plusStr_of_toStr hb1, send_run, Exec.pure_run, sendOutcome, Session.token] <;>
    cases env.processRequest _ <;> rfl

/-- The operations behind the client-code gate, once both gates are passed. -/
theorem clientGated_run (env : Env) (r : JSVal) (w : World) (base : String)
    (ha : w.self.Authenticated) (hb : w.self.url.toStr = .ok base)
    (hg : w.self.isInvestorClient.truthy = true ∨
      (r.nullish = false ∧ (r.getField "clientID").nullish = false)) :
    modifyOrder env r w = sendOutcome env "Modify order operation failed."
      (Request.mk "PUT" (base ++ env.api.orders) (.obj [("authorization", w.self.token)]) r) w ∧
    getOrderBook env r w = sendOutcome env "Get order book operation failed."
      (Request.mk "GET" (base ++ env.api.orders) (.obj [("authorization", w.self.token)]) .null) w ∧
    getTradeBook env r w = sendOutcome env "Get trade book operation failed."
      (Request.mk "GET" (base ++ env.api.trade) (.obj [("authorization", w.self.token)]) .null) w ∧
    (∀ q, env.urlSearchParams r = .ok q →
      cancelOrder env r w = sendOutcome env "Cancel order operation failed."
        (Request.mk "DELETE" (base ++ (env.api.orders ++ "?" ++ q))
          (.obj [("authorization", w.self.token)]) .null) w) := by
  have hb1 : (w.self.get "url").toStr = .ok base := hb
  have hgate : checkClientCodes r w = (.ok (.bool true), w) := by
    rw [checkClientCodes_eq]
    rcases hg with h | ⟨h1, h2⟩
    · have h' : (w.self.get "isInvestorClient").truthy = true := h
      simp [h']
    · simp [h1, h2]
  refine ⟨?_, ?_, ?_, ?_⟩
  on_goal 4 =>
    intro q hq
    simp only [cancelOrder, Exec.tryCatch, cancelOrderTry,
      Exec.bind_run, gate_open w ha.hasLoginGate ha.loggedIn,
      clientGate_run r w ha.hasClientGate, hgate, hq, Exec.readThis_run, Exec.lift_run,
      plusStr_of_toStr hb1, send_run, Exec.pure_run, sendOutcome, Session.token]
  on_goal 1 =>
    simp only [modifyOrder, Exec.tryCatch, modifyOrderTry,
      Exec.bind_run, gate_open w ha.hasLoginGate ha.loggedIn,
      clientGate_run r w ha.hasClientGate, hgate, Exec.readThis_run, Exec.lift_run,
      plusStr_of_toStr hb1, send_run, Exec.pure_run, sendOutcome, Session.token]
  on_goal 2 =>
    simp only [getOrderBook, Exec.tryCatch, getOrderBookTry,
      Exec.bind_run, gate_open w ha.hasLoginGate ha.loggedIn,
      clientGate_run r w ha.hasClientGate, hgate, Exec.readThis_run, Exec.lift_run,
      plusStr_of_toStr hb1, send_run, Exec.pure_run, sendOutcome, Session.token]
  on_goal 3 =>
    simp only [getTradeBook, Exec.tryCatch, getTradeBookTry,
      Exec.bind_run, gate_open w ha.hasLoginGate ha.loggedIn,
      clientGate_run r w ha.hasClientGate, hgate, Exec.readThis_run, Exec.lift_run,
      plusStr_of_toStr hb1, send_run, Exec.pure_run, sendOutcome, Session.token]
  all_goals cases env.processRequest _ <;> rfl

theorem sendOutcome_sendsOnce (env : Env) (fb : String) (req : Request) (w : World) :
    SendsOnce env w req (sendOutcome env fb req w) := by
  refine ⟨?_, ?_, fun v hv => sendOutcome_ok env fb req w v hv⟩
  · rw [sendOutcome_snd]
  · rw [sendOutcome_snd]

/-- C8. In an authenticated session and for a payload that is `null`/`undefined` or
has no `clientID`: when the session is not an investor client, `getOrderBook`,
`getTradeBook`, `modifyOrder` and `cancelOrder` return the `CustomError` with
statusCode 404 and message "ClientCode is Required" and send nothing; when it is an
investor client each of them sends exactly one request (for `cancelOrder`, with the
query string the runtime makes of the payload). -/
theorem client_code_gate (env : Env) (r : JSVal) (w : World) (ha : w.self.Authenticated)
    (hr : r.nullish = true ∨ (r.getField "clientID").nullish = true) :
    (w.self.isInvestorClient.truthy = false →
      ∀ c : Call,
        c = .getOrderBook r ∨ c = .getTradeBook r ∨ c = .modifyOrder r ∨ c = .cancelOrder r →
        c.run env w =
          (.ok (.customError (.str "ClientCode is Required") (.str "clientCode is mandatory")
            (.num 404)), w)) ∧
    (w.self.isInvestorClient.truthy = true → ∀ base, w.self.url.toStr = .ok base →
      SendsOnce env w (Request.mk "GET" (base ++ env.api.orders)
        (.obj [("authorization", w.self.token)]) .null) (getOrderBook env r w) ∧
      SendsOnce env w (Request.mk "GET" (base ++ env.api.trade)
        (.obj [("authorization", w.self.token)]) .null) (getTradeBook env r w) ∧
      SendsOnce env w (Request.mk "PUT" (base ++ env.api.orders)
        (.obj [("authorization", w.self.token)]) r) (modifyOrder env r w) ∧
      ∀ q, env.urlSearchParams r = .ok q →
        SendsOnce env w (Request.mk "DELETE" (base ++ (env.api.orders ++ "?" ++ q))
          (.obj [("authorization", w.self.token)]) .null) (cancelOrder env r w)) := by
  constructor
  · intro hi c hc
    exact clientGate_closed env r w ha hi hr c hc
  · intro hi base hb
    obtain ⟨h1, h2, h3, h4⟩ := clientGated_run env r w base ha hb (Or.inl hi)
    refine ⟨?_, ?_, ?_, ?_⟩
    · rw [h2]; exact sendOutcome_sendsOnce _ _ _ _
    · rw [h3]; exact sendOutcome_sendsOnce _ _ _ _
    · rw [h1]; exact sendOutcome_sendsOnce _ _ _ _
    · intro q hq
      rw [h4 q hq]; exact sendOutcome_sendsOnce _ _ _ _

theorem client_code_gate_witness :
    (Call.getOrderBook .null).run (exampleEnv (.ok .null)) { self := exampleLoggedIn, sent := [] } =
      (.ok (.customError (.str "ClientCode is Required") (.str "clientCode is mandatory")
        (.num 404)), { self := exampleLoggedIn, sent := [] }) ∧
    SendsOnce (exampleEnv (.ok .null)) { self := exampleInvestor, sent := [] }
      (Request.mk "GET" ("http://test-api.com" ++ "/interactive/orders")
        (.obj [("authorization", .str "T")]) .null)
      (getOrderBook (exampleEnv (.ok .null)) .null { self := exampleInvestor, sent := [] }) :=
  ⟨(client_code_gate (exampleEnv (.ok .null)) .null { self := exampleLoggedIn, sent := [] }
      ⟨by rfl, by rfl, by rfl⟩ (Or.inl rfl)).1 (by rfl) _ (Or.inl rfl),
   ((client_code_gate (exampleEnv (.ok .null)) .null { self := exampleInvestor, sent := [] }
      ⟨by rfl, by rfl, by rfl⟩ (Or.inl rfl)).2 (by rfl) "http://test-api.com" (by rfl)).1⟩

/-- C9. In an authenticated session, for every payload `p`: `placeOrder` sends
exactly one `POST url + orders path`, `positionConversion` one
`PUT url + convert path`, `squareOff` one `PUT url + squareoff path` and
`placeCoverOrder` one `POST url + cover path`, and, when the client-code gate is
satisfied (an investor client, or a payload with a `clientID`), `modifyOrder` one
`PUT url + orders path`; each with headers `{authorization: token}` and body `p`
itself, and each returns the transport's answer unchanged. -/
theorem order_payload_verbatim (env : Env) (p : JSVal) (w : World) (base : String)
    (ha : w.self.Authenticated) (hb : w.self.url.toStr = .ok base) :
    SendsOnce env w (Request.mk "POST" (base ++ env.api.orders)
      (.obj [("authorization", w.self.token)]) p) (placeOrder env p w) ∧
    ((w.self.isInvestorClient.truthy = true ∨
        (p.nullish = false ∧ (p.getField "clientID").nullish = false)) →
      SendsOnce env w (Request.mk "PUT" (base ++ env.api.orders)
        (.obj [("authorization", w.self.token)]) p) (modifyOrder env p w)) ∧
    SendsOnce env w (Request.mk "PUT" (base ++ env.api.convert)
      (.obj [("authorization", w.self.token)]) p) (positionConversion env p w) ∧
    SendsOnce env w (Request.mk "PUT" (base ++ env.api.squareoff)
      (.obj [("authorization", w.self.token)]) p) (squareOff env p w) ∧
    SendsOnce env w (Request.mk "POST" (base ++ env.api.cover)
      (.obj [("authorization", w.self.token)]) p) (placeCoverOrder env p w) := by
  obtain ⟨h1, h2, h3, h4, _⟩ := passThrough_run env p w base ha hb
  rw [h1, h2, h3, h4]
  refine ⟨sendOutcome_sendsOnce _ _ _ _, ?_, sendOutcome_sendsOnce _ _ _ _,
    sendOutcome_sendsOnce _ _ _ _, sendOutcome_sendsOnce _ _ _ _⟩
  intro hg
  obtain ⟨h5, _, _, _⟩ := clientGated_run env p w base ha hb hg
  rw [h5]
  exact sendOutcome_sendsOnce _ _ _ _

/-- C9 in the logged-in session of the examples, which is not an investor client:
`placeOrder` with a payload without `clientID`, and `modifyOrder` with a payload
that has one. -/
theorem order_payload_verbatim_witness :
    SendsOnce (exampleEnv (.ok (.obj [("type", .str "success")])))
      { self := exampleLoggedIn, sent := [] }
      (Request.mk "POST" ("http://test-api.com" ++ "/interactive/orders")
        (.obj [("authorization", .str "T")]) (.obj [("orderQuantity", .num 20)]))
      (placeOrder (exampleEnv (.ok (.obj [("type", .str "success")])))
        (.obj [("orderQuantity", .num 20)]) { self := exampleLoggedIn, sent := [] }) ∧
    SendsOnce (exampleEnv (.ok (.obj [("type", .str "success")])))
      { self := exampleLoggedIn, sent := [] }
      (Request.mk "PUT" ("http://test-api.com" ++ "/interactive/orders")
        (.obj [("authorization", .str "T")]) exampleOrder)
      (modifyOrder (exampleEnv (.ok (.obj [("type", .str "success")]))) exampleOrder
        { self := exampleLoggedIn, sent := [] }) :=
  ⟨(order_payload_verbatim (exampleEnv (.ok (.obj [("type", .str "success")])))
      (.obj [("orderQuantity", .num 20)])
      { self := exampleLoggedIn, sent := [] } "http://test-api.com" ⟨by rfl, by rfl, by rfl⟩
      (by rfl)).1,
   (order_payload_verbatim (exampleEnv (.ok (.obj [("type", .str "success")]))) exampleOrder
      { self := exampleLoggedIn, sent := [] } "http://test-api.com" ⟨by rfl, by rfl, by rfl⟩
      (by rfl)).2.1 (Or.inr ⟨by rfl, by rfl⟩)⟩

theorem strPlus_of_toStr {v : JSVal} {t : String} (h : v.toStr = .ok t) (p : String) :
    JSVal.strPlus p v = .ok (p ++ t) := by
  simp [JSVal.strPlus, h]

/-- C10 (amended). In an authenticated session `getPositions(r)` sends
`GET url + position path + "?dayOrNet=" + d`, where `d` is `r.dayOrNet` when `r` and
`r.dayOrNet` are truthy and `"DayWise"` otherwise (so for `null`, for an empty object and
for an empty or zero `dayOrNet`), followed by `"&clientID=" + r.clientID` exactly when `r`
and `r.clientID` are truthy. -/
theorem getPositions_url (env : Env) (r : JSVal) (w : World) (base d cid : String)
    (ha : w.self.Authenticated) (hb : w.self.url.toStr = .ok base)
    (hd : (if (r.truthy && (r.getField "dayOrNet").truthy) = true then r.getField "dayOrNet"
      else JSVal.str "DayWise").toStr = .ok d)
    (hc : (r.truthy && (r.getField "clientID").truthy) = true →
      (r.getField "clientID").toStr = .ok cid) :
    SendsOnce env w
      (Request.mk "GET"
        (if (r.truthy && (r.getField "clientID").truthy) = true then
          base ++ (env.api.position ++ "?dayOrNet=") ++ d ++ "&clientID=" ++ cid
         else base ++ (env.api.position ++ "?dayOrNet=") ++ d)
        (.obj [("authorization", w.self.token)]) .null)
      (getPositions env r w) := by
  have hb1 : (w.self.get "url").toStr = .ok base := hb
  have key : getPositions env r w = sendOutcome env "Get positions operation failed."
      (Request.mk "GET"
        (if (r.truthy && (r.getField "clientID").truthy) = true then
          base ++ (env.api.position ++ "?dayOrNet=") ++ d ++ "&clientID=" ++ cid
         else base ++ (env.api.position ++ "?dayOrNet=") ++ d)
        (.obj [("authorization", w.self.token)]) .null) w := by
    cases hcond : (r.truthy && (r.getField "clientID").truthy) with
    | true =>
      have hc1 := hc hcond
      simp only [getPositions, Exec.tryCatch, getPositionsTry, Exec.bind_run,
        gate_open w ha.hasLoginGate ha.loggedIn, Exec.readThis_run, Exec.lift_run,
        plusStr_of_toStr hb1, strPlus_of_toStr hd, strPlus_of_toStr hc1, hcond, if_true,
        send_run, Exec.pure_run, sendOutcome, Session.token]
      cases env.processRequest _ <;> rfl
    | false =>
      simp only [getPositions, Exec.tryCatch, getPositionsTry, Exec.bind_run,
        gate_open w ha.hasLoginGate ha.loggedIn, Exec.readThis_run, Exec.lift_run,
        plusStr_of_toStr hb1, strPlus_of_toStr hd, hcond, if_false, Bool.false_eq_true,
        send_run, Exec.pure_run, sendOutcome, Session.token]
      cases env.processRequest _ <;> rfl
  rw [key]
  exact sendOutcome_sendsOnce _ _ _ _

theorem getPositions_url_witness :
    SendsOnce (exampleEnv (.ok .null)) { self := exampleLoggedIn, sent := [] }
      (Request.mk "GET"
        "http://test-api.com/interactive/portfolio/positions?dayOrNet=NetWise&clientID=X"
        (.obj [("authorization", .str "T")]) .null)
      (getPositions (exampleEnv (.ok .null))
        (.obj [("dayOrNet", .str "NetWise"), ("clientID", .str "X")])
        { self := exampleLoggedIn, sent := [] }) :=
  getPositions_url (exampleEnv (.ok .null))
    (.obj [("dayOrNet", .str "NetWise"), ("clientID", .str "X")])
    { self := exampleLoggedIn, sent := [] } "http://test-api.com" "NetWise" "X"
    ⟨by rfl, by rfl, by rfl⟩ (by rfl) (by rfl) (fun _ => by rfl)

/-- C10 as stated fails: a payload that carries the client identifier `0` (which the
client-code gate accepts as a `clientID`) gets no `clientID` parameter, and an empty
`dayOrNet` is replaced by the default. -/
theorem getPositions_falsy_fields :
    (getPositions (exampleEnv (.ok .null)) (.obj [("dayOrNet", .str ""), ("clientID", .num 0)])
        { self := exampleLoggedIn, sent := [] }).2.sent =
      [Request.mk "GET" "http://test-api.com/interactive/portfolio/positions?dayOrNet=DayWise"
        (.obj [("authorization", .str "T")]) .null] ∧
    JSVal.getField (.obj [("dayOrNet", .str ""), ("clientID", .num 0)]) "clientID" = .num 0 ∧
    JSVal.getField (.obj [("dayOrNet", .str ""), ("clientID", .num 0)]) "dayOrNet" = .str "" :=
  ⟨by rfl, by rfl, by rfl⟩

/-- The three account reads, once the login gate is passed. -/
theorem accountRead_run (env : Env) (r : JSVal) (w : World) (base cid : String)
    (ha : w.self.Authenticated) (hb : w.self.url.toStr = .ok base)
    (hc : (r.truthy && (r.getField "clientID").truthy) = true →
      (r.getField "clientID").toStr = .ok cid) :
    getProfile env r w = sendOutcome env "Get profile operation failed."
      (Request.mk "GET"
        (if (r.truthy && (r.getField "clientID").truthy) = true then
          base ++ env.api.profile ++ "?clientID=" ++ cid
         else base ++ env.api.profile)
        (.obj [("authorization", w.self.token)]) .null) w ∧
    getBalance env r w = sendOutcome env "Get balance operation failed."
      (Request.mk "GET"
        (if (r.truthy && (r.getField "clientID").truthy) = true then
          base ++ env.api.balance ++ "?clientID=" ++ cid
         else base ++ env.api.balance)
        (.obj [("authorization", w.self.token)]) .null) w ∧
    getHoldings env r w = sendOutcome env "Get holdings operation failed."
      (Request.mk "GET"
        (if (r.truthy && (r.getField "clientID").truthy) = true then
          base ++ env.api.holding ++ "?clientID=" ++ cid
         else base ++ env.api.holding)
        (.obj [("authorization", w.self.token)]) .null) w := by
  have hb1 : (w.self.get "url").toStr = .ok base := hb
  cases hcond : (r.truthy && (r.getField "clientID").truthy) with
  | true =>
    have hc1 := hc hcond
    refine ⟨?_, ?_, ?_⟩ <;>
      simp only [getProfile, getBalance, getHoldings, Exec.tryCatch, getProfileTry, getBalanceTry,
        getHoldingsTry, Exec.bind_run,
        gate_open w ha.hasLoginGate ha.loggedIn, Exec.readThis_run, Exec.lift_run,
        plusStr_of_toStr hb1, strPlus_of_toStr hc1, hcond, if_true,
        send_run, Exec.pure_run, sendOutcome, Session.token] <;>
      cases env.processRequest _ <;> rfl
  | false =>
    refine ⟨?_, ?_, ?_⟩ <;>
      simp only [getProfile, getBalance, getHoldings, Exec.tryCatch, getProfileTry, getBalanceTry,
        getHoldingsTry, Exec.bind_run,
        gate_open w ha.hasLoginGate ha.loggedIn, Exec.readThis_run, Exec.lift_run,
        plusStr_of_toStr hb1, hcond, if_false, Bool.false_eq_true,
        send_run, Exec.pure_run, sendOutcome, Session.token] <;>
      cases env.processRequest _ <;> rfl

/-- C11 (amended). In an authenticated session with stored token `T`, `getProfile(r)`,
`getBalance(r)` and `getHoldings(r)` each send exactly one `GET` with headers
`{authorization: T}` and `null` body to `url +` the path of the operation, followed
by `"?clientID=" + r.clientID` exactly when `r` and `r.clientID` are truthy; for
`r = null` the URL has no query string. -/
theorem account_reads_url (env : Env) (r : JSVal) (w : World) (base cid : String)
    (ha : w.self.Authenticated) (hb : w.self.url.toStr = .ok base)
    (hc : (r.truthy && (r.getField "clientID").truthy) = true →
      (r.getField "clientID").toStr = .ok cid) :
    SendsOnce env w (Request.mk "GET"
        (if (r.truthy && (r.getField "clientID").truthy) = true then
          base ++ env.api.profile ++ "?clientID=" ++ cid
         else base ++ env.api.profile)
        (.obj [("authorization", w.self.token)]) .null) (getProfile env r w) ∧
    SendsOnce env w (Request.mk "GET"
        (if (r.truthy && (r.getField "clientID").truthy) = true then
          base ++ env.api.balance ++ "?clientID=" ++ cid
         else base ++ env.api.balance)
        (.obj [("authorization", w.self.token)]) .null) (getBalance env r w) ∧
    SendsOnce env w (Request.mk "GET"
        (if (r.truthy && (r.getField "clientID").truthy) = true then
          base ++ env.api.holding ++ "?clientID=" ++ cid
         else base ++ env.api.holding)
        (.obj [("authorization", w.self.token)]) .null) (getHoldings env r w) := by
  obtain ⟨h1, h2, h3⟩ := accountRead_run env r w base cid ha hb hc
  rw [h1, h2, h3]
  exact ⟨sendOutcome_sendsOnce _ _ _ _, sendOutcome_sendsOnce _ _ _ _,
    sendOutcome_sendsOnce _ _ _ _⟩

theorem account_reads_url_witness :
    SendsOnce (exampleEnv (.ok (exampleResponse (.obj []))))
      (logIn (exampleEnv (.ok (exampleResponse (.obj [])))) exampleCredentials
        { self := exampleSession, sent := [] }).2
      (Request.mk "GET" "http://test-api.com/interactive/user/profile"
        (.obj [("authorization", .str "T")]) .null)
      (getProfile (exampleEnv (.ok (exampleResponse (.obj [])))) .null
        (logIn (exampleEnv (.ok (exampleResponse (.obj [])))) exampleCredentials
          { self := exampleSession, sent := [] }).2) :=
  (account_reads_url (exampleEnv (.ok (exampleResponse (.obj [])))) .null
    (logIn (exampleEnv (.ok (exampleResponse (.obj [])))) exampleCredentials
      { self := exampleSession, sent := [] }).2 "http://test-api.com" ""
    ⟨by rfl, by rfl, by rfl⟩ (by rfl) (fun h => absurd h (by decide))).1

/-- C11 as stated fails: a payload carrying the client identifier `0` gets no
`clientID` parameter. -/
theorem getProfile_falsy_clientID :
    (getProfile (exampleEnv (.ok .null)) (.obj [("clientID", .num 0)])
        { self := exampleLoggedIn, sent := [] }).2.sent =
      [Request.mk "GET" "http://test-api.com/interactive/user/profile"
        (.obj [("authorization", .str "T")]) .null] ∧
    JSVal.getField (.obj [("clientID", .num 0)]) "clientID" = .num 0 :=
  ⟨by rfl, by rfl⟩

theorem loginWithTokenAssigned_props (s : Session) (u t r : JSVal) (hp : s.proto = none) :
    (loginWithTokenAssigned s u t r).proto = none ∧
    (loginWithTokenAssigned s u t r).props "isLoggedIn" = some (.bool true) ∧
    (loginWithTokenAssigned s u t r).props "_token" = some t ∧
    (loginWithTokenAssigned s u t r).props "_enums" = some ((r.getField "result").getField "enums") ∧
    (loginWithTokenAssigned s u t r).props "clientCodes" =
      some ((r.getField "result").getField "clientCodes") ∧
    (loginWithTokenAssigned s u t r).props "isInvestorClient" =
      some ((r.getField "result").getField "isInvestorClient") ∧
    (loginWithTokenAssigned s u t r).props "_userID" = some u ∧
    (loginWithTokenAssigned s u t r).props "_source" = s.props "_source" ∧
    (loginWithTokenAssigned s u t r).props "populateEnums" = s.props "populateEnums" := by
  simp [loginWithTokenAssigned, Session.put, hp, Session.accessorField, Session.setOwn]

/-- The outcome of `loginWithToken` when the transport answers with a usable result
and `populateEnums` does not throw. -/
theorem loginWithToken_eq (env : Env) (s : Session) (sent : List Request) (u t r : JSVal)
    (base uid : String)
    (hm : s.hasMethod "populateEnums" = true)
    (hb : s.url.toStr = .ok base) (hid : u.toStr = .ok uid)
    (hr : env.processRequest (Request.mk "GET" (base ++ (env.api.enums ++ "?userID=") ++ uid)
      (.obj [("authorization", t)]) .null) = .ok r)
    (hres : r.nullish = false) (hresult : (r.getField "result").nullish = false)
    (hpop : ∀ w, (populateEnums ((r.getField "result").getField "enums") w).1 = .ok ()) :
    loginWithToken env u t { self := s, sent := sent } =
      (.ok r, (populateEnums ((r.getField "result").getField "enums")
        (World.mk (loginWithTokenAssigned s u t r)
          (sent ++ [Request.mk "GET" (base ++ (env.api.enums ++ "?userID=") ++ uid)
            (.obj [("authorization", t)]) .null]))).2) := by
  have hp : s.proto = none := by
    simp only [Session.hasMethod, Bool.and_eq_true, Option.isNone_iff_eq_none] at hm
    exact hm.1
  have hq : s.props "populateEnums" = none := by
    simp only [Session.hasMethod, Bool.and_eq_true, Option.isNone_iff_eq_none] at hm
    exact hm.2
  have hb1 : (s.get "url").toStr = .ok base := hb
  obtain ⟨a0, _, _, _, _, _, _, _, a8⟩ := loginWithTokenAssigned_props s u t r hp
  have hm1 : (loginWithTokenAssigned s u t r).hasMethod "populateEnums" = true := by
    simp [Session.hasMethod, a0, a8, hq]
  have h0 := loginWithTokenTry_assigned env s sent u t r _ _
    (plusStr_of_toStr hb1 _) (strPlus_of_toStr hid _) hr hres hresult
  have h1 := hpop (World.mk (loginWithTokenAssigned s u t r)
    (sent ++ [Request.mk "GET" (base ++ (env.api.enums ++ "?userID=") ++ uid)
      (.obj [("authorization", t)]) .null]))
  simp only [loginWithToken, Exec.tryCatch, h0, Exec.bind_run, callMethod_run, hm1, if_true]
  revert h1
  generalize populateEnums ((r.getField "result").getField "enums") _ = out
  intro h1
  obtain ⟨o1, o2⟩ := out
  simp only at h1
  subst h1
  rfl

/-- C12 (amended). For a session that still has its `populateEnums` method, a user
identifier `u` with a string value and a successful response `r` whose `result` is not
null, whose enumeration payload `populateEnums` processes without throwing and names no
category like a property of the session: `loginWithToken(u, t)` sends exactly one
`GET url + enums path + "?userID=" + u` with headers `{authorization: t}` and `null`
body, returns `r`, and leaves the session that `populateEnums` builds from the stored
fields, with `isLoggedIn = true`, `userID = u`, `token = t`, `enums`, `clientCodes` and
`isInvestorClient` from `r.result`, and `source` as it was. -/
theorem loginWithToken_stores_result (env : Env) (s : Session) (sent : List Request)
    (u t r : JSVal) (base uid : String)
    (hm : s.hasMethod "populateEnums" = true)
    (hb : s.url.toStr = .ok base) (hid : u.toStr = .ok uid)
    (hr : env.processRequest (Request.mk "GET" (base ++ (env.api.enums ++ "?userID=") ++ uid)
      (.obj [("authorization", t)]) .null) = .ok r)
    (hres : r.nullish = false) (hresult : (r.getField "result").nullish = false)
    (hpop : ∀ w, (populateEnums ((r.getField "result").getField "enums") w).1 = .ok ())
    (hk : ∀ k ∈ ((r.getField "result").getField "enums").ownKeys, k ∉ reservedNames) :
    loginWithToken env u t { self := s, sent := sent } =
      (.ok r, (populateEnums ((r.getField "result").getField "enums")
        (World.mk (loginWithTokenAssigned s u t r)
          (sent ++ [Request.mk "GET" (base ++ (env.api.enums ++ "?userID=") ++ uid)
            (.obj [("authorization", t)]) .null]))).2) ∧
    (loginWithToken env u t { self := s, sent := sent }).2.sent =
      sent ++ [Request.mk "GET" (base ++ (env.api.enums ++ "?userID=") ++ uid)
        (.obj [("authorization", t)]) .null] ∧
    (loginWithToken env u t { self := s, sent := sent }).2.self.isLoggedIn = .bool true ∧
    (loginWithToken env u t { self := s, sent := sent }).2.self.userID = u ∧
    (loginWithToken env u t { self := s, sent := sent }).2.self.token = t ∧
    (loginWithToken env u t { self := s, sent := sent }).2.self.enums =
      (r.getField "result").getField "enums" ∧
    (loginWithToken env u t { self := s, sent := sent }).2.self.clientCodes =
      (r.getField "result").getField "clientCodes" ∧
    (loginWithToken env u t { self := s, sent := sent }).2.self.isInvestorClient =
      (r.getField "result").getField "isInvestorClient" ∧
    (loginWithToken env u t { self := s, sent := sent }).2.self.source = s.source := by
  have hp : s.proto = none := by
    simp only [Session.hasMethod, Bool.and_eq_true, Option.isNone_iff_eq_none] at hm
    exact hm.1
  have heq := loginWithToken_eq env s sent u t r base uid hm hb hid hr hres hresult hpop
  rw [heq]
  obtain ⟨a0, a1, a2, a3, a4, a5, a6, a7, _⟩ := loginWithTokenAssigned_props s u t r hp
  have fr := fun f hf => populateEnums_frame ((r.getField "result").getField "enums") hk
    (World.mk (loginWithTokenAssigned s u t r)
      (sent ++ [Request.mk "GET" (base ++ (env.api.enums ++ "?userID=") ++ uid)
        (.obj [("authorization", t)]) .null])) a0 f hf
  refine ⟨rfl, (quiet_populateEnums _).sent_eq _, ?_, ?_, ?_, ?_, ?_, ?_, ?_⟩
  · exact Session.get_of_props_data _ (fr "isLoggedIn" (by decide)).1 _ _ rfl
      ((fr "isLoggedIn" (by decide)).2.trans a1)
  · exact Session.get_of_props _ (fr "_userID" (by decide)).1 _ "_userID" _ rfl
      ((fr "_userID" (by decide)).2.trans a6)
  · exact Session.get_of_props _ (fr "_token" (by decide)).1 _ "_token" _ rfl
      ((fr "_token" (by decide)).2.trans a2)
  · exact Session.get_of_props _ (fr "_enums" (by decide)).1 _ "_enums" _ rfl
      ((fr "_enums" (by decide)).2.trans a3)
  · exact Session.get_of_props_data _ (fr "clientCodes" (by decide)).1 _ _ rfl
      ((fr "clientCodes" (by decide)).2.trans a4)
  · exact Session.get_of_props_data _ (fr "isInvestorClient" (by decide)).1 _ _ rfl
      ((fr "isInvestorClient" (by decide)).2.trans a5)
  · have h1 := (fr "_source" (by decide)).1
    have h2 := (fr "_source" (by decide)).2.trans a7
    simp [Session.source, Session.get, h1, hp, Session.accessorField, h2]

theorem loginWithToken_stores_result_witness :
    (loginWithToken (exampleEnv (.ok (exampleResponse exampleEnums))) (.str "u") (.str "tok")
        { self := exampleSession, sent := [] }).2.sent =
      [] ++ [Request.mk "GET" ("http://test-api.com" ++ ("/interactive/enums" ++ "?userID=") ++ "u")
        (.obj [("authorization", .str "tok")]) .null] ∧
    (loginWithToken (exampleEnv (.ok (exampleResponse exampleEnums))) (.str "u") (.str "tok")
        { self := exampleSession, sent := [] }).2.self.token = .str "tok" :=
  have h := loginWithToken_stores_result (exampleEnv (.ok (exampleResponse exampleEnums)))
    exampleSession [] (.str "u") (.str "tok") (exampleResponse exampleEnums)
    "http://test-api.com" "u" (by rfl) (by rfl) (by rfl) (by rfl) (by rfl) (by rfl)
    (fun _ => by rfl) (by decide)
  ⟨h.2.1, h.2.2.2.2.1⟩

/-- C12 as stated fails: for the successful response `{}` (no result)
`loginWithToken` returns a `CustomError` instead of the response and `isLoggedIn`
stays false. -/
theorem loginWithToken_no_result :
    (loginWithToken (exampleEnv (.ok (.obj []))) (.str "u") (.str "tok")
        { self := exampleSession, sent := [] }).1 =
      .ok (.customError (.str "Cannot read properties of null or undefined (reading enums)")
        (.str "TypeError: Cannot read properties of null or undefined (reading enums)")
        (.num 500)) ∧
    (loginWithToken (exampleEnv (.ok (.obj []))) (.str "u") (.str "tok")
        { self := exampleSession, sent := [] }).2.self.isLoggedIn = .bool false :=
  ⟨by rfl, by rfl⟩

/-- C13. In an authenticated session and for every transport outcome, `logOut`
sends exactly one `DELETE url + session path` with headers `{authorization: token}`
and `null` body and leaves the whole session object as it was: `isLoggedIn` is still
true, token, userID, source and the capability tables are unchanged, and the login
gate of a following operation is passed. -/
theorem logOut_keeps_session (env : Env) (w : World) (base : String)
    (ha : w.self.Authenticated) (hb : w.self.url.toStr = .ok base) :
    SendsOnce env w (Request.mk "DELETE" (base ++ env.api.session)
      (.obj [("authorization", w.self.token)]) .null) (logOut env w) ∧
    (logOut env w).2.self = w.self ∧
    (logOut env w).2.self.isLoggedIn.truthy = true ∧
    Exec.callMethod "checkLoggedIn" checkLoggedIn (logOut env w).2 =
      (.ok (.bool true), (logOut env w).2) := by
  obtain ⟨_, _, _, _, h⟩ := passThrough_run env .null w base ha hb
  have h1 := sendOutcome_sendsOnce env "Logout operation failed."
    (Request.mk "DELETE" (base ++ env.api.session) (.obj [("authorization", w.self.token)]) .null) w
  rw [← h] at h1
  have h2 : (logOut env w).2.self = w.self := h1.2.1
  refine ⟨h1, h2, ?_, ?_⟩
  · rw [h2]; exact ha.loggedIn
  · exact gate_open _ (by rw [h2]; exact ha.hasLoginGate) (by rw [h2]; exact ha.loggedIn)

theorem logOut_keeps_session_witness :
    (logOut (exampleEnv (.ok (.obj [("type", .str "success")])))
        { self := exampleLoggedIn, sent := [] }).2.self = exampleLoggedIn ∧
    (logOut (exampleEnv (.ok (.obj [("type", .str "success")])))
        { self := exampleLoggedIn, sent := [] }).2.self.isLoggedIn.truthy = true :=
  have h := logOut_keeps_session (exampleEnv (.ok (.obj [("type", .str "success")])))
    { self := exampleLoggedIn, sent := [] } "http://test-api.com" ⟨by rfl, by rfl, by rfl⟩ (by rfl)
  ⟨h.2.1, h.2.2.1⟩

/-! ## `populateEnums` as a list of assignments -/

theorem applyWrites_append (s : Session) (a b : List (String × JSVal)) :
    applyWrites s (a ++ b) = applyWrites (applyWrites s a) b := by
  simp [applyWrites, List.foldl_append]

theorem Exec.writes_pure {α : Type} (a : α) : Exec.Writes (pure a : Exec α) :=
  ⟨[], .ok a, fun _ => rfl⟩

theorem Exec.writes_lift {α : Type} (x : Except JSVal α) : Exec.Writes (Exec.lift x) :=
  ⟨[], x, fun _ => rfl⟩

theorem Exec.writes_writeThis (k : String) (v : JSVal) : Exec.Writes (Exec.writeThis k v) :=
  ⟨[(k, v)], .ok (), fun _ => rfl⟩

theorem Exec.writes_bind {α β : Type} {m : Exec α} {f : α → Exec β}
    (hm : Exec.Writes m) (hf : ∀ a, Exec.Writes (f a)) : Exec.Writes (m >>= f) := by
  obtain ⟨w1, r1, h1⟩ := hm
  cases r1 with
  | error e =>
    refine ⟨w1, .error e, fun w => ?_⟩
    simp only [Exec.bind_run, h1]
  | ok a =>
    obtain ⟨w2, r2, h2⟩ := hf a
    refine ⟨w1 ++ w2, r2, fun w => ?_⟩
    simp only [Exec.bind_run, h1, h2, applyWrites_append]

theorem writes_populateCategory (enums : JSVal) (k : String) :
    Exec.Writes (populateCategory enums k) := by
  unfold populateCategory
  repeat (first
    | refine Exec.writes_bind ?_ (fun _ => ?_)
    | exact Exec.writes_writeThis _ _
    | exact Exec.writes_lift _
    | exact Exec.writes_pure _
    | split)

theorem writes_populateLoop (enums : JSVal) (ks : List String) :
    Exec.Writes (populateLoop enums ks) := by
  induction ks with
  | nil => exact Exec.writes_pure _
  | cons k rest ih =>
    unfold populateLoop
    exact Exec.writes_bind (writes_populateCategory enums k) (fun _ => ih)

theorem writes_populateEnums (enums : JSVal) : Exec.Writes (populateEnums enums) :=
  writes_populateLoop enums _

/-- One assignment made to two sessions with the same prototype: the prototypes
agree afterwards, and each property is equal in both or untouched in both. -/
theorem put_pair (s t : Session) (k : String) (v : JSVal) (hp : s.proto = t.proto) :
    (s.put k v).proto = (t.put k v).proto ∧
    ∀ x, (s.put k v).props x = (t.put k v).props x ∨
      ((s.put k v).props x = s.props x ∧ (t.put k v).props x = t.props x) := by
  have hset : ∀ b : String, (s.setOwn b v).proto = (t.setOwn b v).proto ∧
      ∀ x, (s.setOwn b v).props x = (t.setOwn b v).props x ∨
        ((s.setOwn b v).props x = s.props x ∧ (t.setOwn b v).props x = t.props x) := by
    intro b
    refine ⟨hp, fun x => ?_⟩
    by_cases hx : x = b
    · left; simp [Session.setOwn, hx]
    · right; simp [Session.setOwn, hx]
  have hproto : (s.setProto v).proto = (t.setProto v).proto ∧
      ∀ x, (s.setProto v).props x = (t.setProto v).props x ∨
        ((s.setProto v).props x = s.props x ∧ (t.setProto v).props x = t.props x) := by
    unfold Session.setProto
    split <;> first | exact ⟨rfl, fun x => Or.inr ⟨rfl, rfl⟩⟩ | exact ⟨hp, fun x => Or.inr ⟨rfl, rfl⟩⟩
  unfold Session.put
  rw [← hp]
  cases s.proto with
  | none =>
    simp only
    split
    · exact hproto
    · split
      · exact hset _
      · exact hset _
  | some p =>
    simp only
    split
    · split
      · exact hset _
      · split
        · exact hset _
        · exact hproto
      · exact hproto
    · exact hset _

/-- The same assignments made to two sessions with the same prototype: each
property ends equal in both, or is untouched in both. -/
theorem applyWrites_pair (ws : List (String × JSVal)) (s t : Session) (hp : s.proto = t.proto) :
    (applyWrites s ws).proto = (applyWrites t ws).proto ∧
    ∀ x, (applyWrites s ws).props x = (applyWrites t ws).props x ∨
      ((applyWrites s ws).props x = s.props x ∧ (applyWrites t ws).props x = t.props x) := by
  induction ws generalizing s t with
  | nil => exact ⟨hp, fun x => Or.inr ⟨rfl, rfl⟩⟩
  | cons kv rest ih =>
    obtain ⟨h1, h2⟩ := put_pair s t kv.1 kv.2 hp
    obtain ⟨h3, h4⟩ := ih (s.put kv.1 kv.2) (t.put kv.1 kv.2) h1
    refine ⟨h3, fun x => ?_⟩
    rcases h4 x with h | ⟨ha, hb⟩
    · exact Or.inl h
    · rcases h2 x with h | ⟨hc, hd⟩
      · left
        show (applyWrites (s.put kv.1 kv.2) rest).props x = (applyWrites (t.put kv.1 kv.2) rest).props x
        rw [ha, hb, h]
      · right
        exact ⟨ha.trans hc, hb.trans hd⟩

theorem Session.ext_props {s t : Session} (hp : s.proto = t.proto)
    (hx : ∀ x, s.props x = t.props x) : s = t := by
  cases s; cases t
  simp only [Session.mk.injEq]
  exact ⟨funext hx, hp⟩

theorem applyWrites_twice (ws : List (String × JSVal)) (s : Session)
    (hp : s.proto = (applyWrites s ws).proto) :
    applyWrites (applyWrites s ws) ws = applyWrites s ws := by
  obtain ⟨h1, h2⟩ := applyWrites_pair ws s (applyWrites s ws) hp
  refine Session.ext_props h1.symm (fun x => ?_)
  rcases h2 x with h | ⟨_, hb⟩
  · exact h.symm
  · exact hb

theorem Session.proto_of_hasMethod {s : Session} {name : String}
    (h : s.hasMethod name = true) : s.proto = none := by
  simp only [Session.hasMethod, Bool.and_eq_true, Option.isNone_iff_eq_none] at h
  exact h.1

theorem Session.put_proto_of_ne (s : Session) (k : String) (v : JSVal) (hk : k ≠ "__proto__") :
    (s.put k v).proto = s.proto := by
  unfold Session.put
  split
  · simp only [hk, if_false]
    split <;> rfl
  · simp only [hk, if_false]
    rfl

theorem keeps_populateCategory_proto (enums : JSVal) (k : String) (hk : k ≠ "__proto__")
    (p : Option JSVal) :
    Exec.Keeps (fun s => s.proto = p) (fun s => s.proto = p) (populateCategory enums k) := by
  unfold populateCategory
  repeat (first
    | refine Exec.keeps_bind (fun s => s.proto = p) ?_ (fun _ h => h) (fun _ => ?_)
    | exact Exec.keeps_writeThis _ _ (fun s h => (s.put_proto_of_ne _ _ hk).trans h)
    | exact Exec.keeps_writeThis _ _ (fun s h => (s.put_proto_of_ne _ _ (by decide)).trans h)
    | exact Exec.keeps_lift _ (fun _ h => h)
    | exact Exec.keeps_pure _ (fun _ h => h)
    | split)

theorem keeps_populateLoop_proto (enums : JSVal) (ks : List String) (hk : "__proto__" ∉ ks)
    (p : Option JSVal) :
    Exec.Keeps (fun s => s.proto = p) (fun s => s.proto = p) (populateLoop enums ks) := by
  induction ks with
  | nil => exact Exec.keeps_pure _ (fun _ h => h)
  | cons k rest ih =>
    unfold populateLoop
    simp only [List.mem_cons, not_or] at hk
    exact Exec.keeps_bind _ (keeps_populateCategory_proto enums k (fun h => hk.1 h.symm) p)
      (fun _ h => h) (fun _ => ih hk.2)

/-- C14. Building the capability tables is idempotent: for every enumeration payload
and every session, calling `this.populateEnums(E)` a second time leaves the session
that the first call left (also when the calls throw); and the body of the method run
twice leaves what it leaves when run once, for every payload without a category named
`__proto__`. -/
theorem populateEnums_idempotent (enums : JSVal) (w : World) :
    (Exec.callMethod "populateEnums" (populateEnums enums)
        (Exec.callMethod "populateEnums" (populateEnums enums) w).2).2 =
      (Exec.callMethod "populateEnums" (populateEnums enums) w).2 ∧
    ("__proto__" ∉ enums.ownKeys →
      (populateEnums enums (populateEnums enums w).2).2 = (populateEnums enums w).2) := by
  obtain ⟨ws, res, h⟩ := writes_populateEnums enums
  constructor
  · cases hm : w.self.hasMethod "populateEnums" with
    | false =>
      have h1 : Exec.callMethod "populateEnums" (populateEnums enums) w =
          (.error (JSVal.typeError ("this." ++ "populateEnums" ++ " is not a function")), w) := by
        simp [Exec.callMethod, hm]
      rw [h1]
      simp only
      rw [h1]
    | true =>
      have h1 : Exec.callMethod "populateEnums" (populateEnums enums) w =
          (res, World.mk (applyWrites w.self ws) w.sent) := by
        simp [Exec.callMethod, hm, h]
      rw [h1]
      simp only
      cases hm2 : (applyWrites w.self ws).hasMethod "populateEnums" with
      | false => simp [Exec.callMethod, hm2]
      | true =>
        have hp : w.self.proto = (applyWrites w.self ws).proto := by
          rw [Session.proto_of_hasMethod hm, Session.proto_of_hasMethod hm2]
        simp [Exec.callMethod, hm2, h, applyWrites_twice ws w.self hp]
  · intro hk
    have hp : w.self.proto = (applyWrites w.self ws).proto := by
      have := keeps_populateLoop_proto enums _ hk w.self.proto w rfl
      rw [show populateLoop enums enums.ownKeys = populateEnums enums from rfl, h] at this
      exact this.symm
    rw [h, h]
    simp only
    rw [applyWrites_twice ws w.self hp]

/-! ## The contents of the capability tables -/

theorem hasKey_upsert (tbl : List (String × JSVal)) (key : String) (v : JSVal) (x : String) :
    JSVal.hasKey x (upsert tbl key v) = true ↔ JSVal.hasKey x tbl = true ∨ x = key := by
  induction tbl with
  | nil => simp [upsert, JSVal.hasKey, eq_comm]
  | cons p rest ih =>
    obtain ⟨k1, v1⟩ := p
    by_cases h1 : k1 = key
    · subst h1
      simp only [upsert, if_true, JSVal.hasKey, List.any_cons, Bool.or_eq_true, decide_eq_true_eq]
      constructor
      · rintro (h | h)
        · exact Or.inl (Or.inl h)
        · exact Or.inl (Or.inr h)
      · rintro ((h | h) | h)
        · exact Or.inl h
        · exact Or.inr h
        · exact Or.inl h.symm
    · simp only [upsert, h1, if_false]
      simp only [JSVal.hasKey, List.any_cons, Bool.or_eq_true, decide_eq_true_eq] at ih ⊢
      rw [ih]
      tauto

theorem hasKey_tableSet (tbl : List (String × JSVal)) (key : String) (v : JSVal) (x : String) :
    JSVal.hasKey x (tableSet tbl key v) = true ↔
      JSVal.hasKey x tbl = true ∨ (x = key ∧ key ≠ "__proto__") := by
  unfold tableSet
  by_cases hk : key = "__proto__"
  · simp [hk]
  · simp only [hk, if_false, hasKey_upsert, ne_eq, not_false_eq_true, and_true]

theorem selfMapped_upsert {tbl : List (String × JSVal)} (h : SelfMapped tbl) (key : String) :
    SelfMapped (upsert tbl key (.str key)) := by
  induction tbl with
  | nil =>
    intro p hp
    simp only [upsert, List.mem_singleton] at hp
    subst hp
    rfl
  | cons q rest ih =>
    obtain ⟨k1, v1⟩ := q
    have hrest : SelfMapped rest := fun p hp => h p (List.mem_cons_of_mem _ hp)
    by_cases h1 : k1 = key
    · subst h1
      simp only [upsert, if_true]
      intro p hp
      simp only [List.mem_cons] at hp
      rcases hp with rfl | hp
      · rfl
      · exact hrest p hp
    · simp only [upsert, h1, if_false]
      intro p hp
      simp only [List.mem_cons] at hp
      rcases hp with rfl | hp
      · exact h _ (List.mem_cons_self _ _)
      · exact ih hrest p hp

theorem selfMapped_tableSet {tbl : List (String × JSVal)} (h : SelfMapped tbl) (key : String) :
    SelfMapped (tableSet tbl key (.str key)) := by
  unfold tableSet
  split
  · exact h
  · exact selfMapped_upsert h key

theorem hasKey_addKeys (ks : List String) (tbl : List (String × JSVal)) (x : String) :
    JSVal.hasKey x (addKeys tbl ks) = true ↔
      JSVal.hasKey x tbl = true ∨ (x ∈ ks ∧ x ≠ "__proto__") := by
  induction ks generalizing tbl with
  | nil => simp [addKeys]
  | cons k rest ih =>
    have : addKeys tbl (k :: rest) = addKeys (tableSet tbl k (.str k)) rest := rfl
    rw [this, ih, hasKey_tableSet]
    simp only [List.mem_cons]
    constructor
    · rintro ((h | ⟨h1, h2⟩) | ⟨h1, h2⟩)
      · exact Or.inl h
      · exact Or.inr ⟨Or.inl h1, h1 ▸ h2⟩
      · exact Or.inr ⟨Or.inr h1, h2⟩
    · rintro (h | ⟨h1 | h1, h2⟩)
      · exact Or.inl (Or.inl h)
      · exact Or.inl (Or.inr ⟨h1, h1 ▸ h2⟩)
      · exact Or.inr ⟨h1, h2⟩

theorem selfMapped_addKeys (ks : List String) {tbl : List (String × JSVal)} (h : SelfMapped tbl) :
    SelfMapped (addKeys tbl ks) := by
  induction ks generalizing tbl with
  | nil => exact h
  | cons k rest ih => exact ih (selfMapped_tableSet h k)

theorem hasKey_aggregate (subs : List (String × JSVal)) (field : String) (js : List String)
    (tbl : List (String × JSVal)) (x : String) :
    JSVal.hasKey x (aggregate subs field js tbl) = true ↔
      JSVal.hasKey x tbl = true ∨ (x ≠ "__proto__" ∧ ∃ j ∈ js, x ∈ entriesOf subs field j) := by
  induction js generalizing tbl with
  | nil => simp [aggregate]
  | cons j rest ih =>
    have : aggregate subs field (j :: rest) tbl =
        aggregate subs field rest (addKeys tbl (entriesOf subs field j)) := rfl
    rw [this, ih, hasKey_addKeys]
    simp only [List.mem_cons, exists_eq_or_imp]
    tauto

theorem selfMapped_aggregate (subs : List (String × JSVal)) (field : String) (js : List String)
    {tbl : List (String × JSVal)} (h : SelfMapped tbl) :
    SelfMapped (aggregate subs field js tbl) := by
  induction js generalizing tbl with
  | nil => exact h
  | cons j rest ih => exact ih (selfMapped_addKeys _ h)

theorem fillTable_strs (xs : List JSVal) (ks : List String) (tbl : List (String × JSVal))
    (h : strItems xs = some ks) : fillTable tbl xs = .ok (addKeys tbl ks) := by
  induction xs generalizing ks tbl with
  | nil =>
    simp only [strItems, Option.some.injEq] at h
    subst h
    rfl
  | cons x rest ih =>
    cases x with
    | str s0 =>
      simp only [strItems, Option.map_eq_some'] at h
      obtain ⟨l, hl, rfl⟩ := h
      simp only [fillTable, JSVal.toStr]
      exact ih l _ hl
    | _ => simp [strItems] at h

theorem collect_strs (tbl : List (String × JSVal)) (d : JSVal) (field : String)
    (ks : List String) (hd : d.nullish = false)
    (h : optionalStrings (d.getField field) = some ks) :
    collect tbl d field = .ok (addKeys tbl ks) := by
  unfold collect
  rw [JSVal.getProp_of_not_nullish hd]
  cases hv : d.getField field with
  | undefined =>
    rw [hv] at h
    simp only [optionalStrings, Option.some.injEq] at h
    subst h
    rfl
  | arr xs =>
    rw [hv] at h
    simp only [optionalStrings] at h
    simp [bind, Except.bind, JSVal.truthy, JSVal.iterate, fillTable_strs xs ks tbl h]
  | _ => rw [hv] at h; simp [optionalStrings] at h

theorem isDescriptor_spec {d : JSVal} (h : isDescriptor d = true) :
    d.nullish = false ∧
    (∀ subs j, d = JSVal.lookupField j subs →
      optionalStrings (d.getField "orderType") = some (entriesOf subs "orderType" j) ∧
      optionalStrings (d.getField "productType") = some (entriesOf subs "productType" j) ∧
      optionalStrings (d.getField "timeInForce") = some (entriesOf subs "timeInForce" j)) := by
  cases d with
  | obj fs =>
    simp only [isDescriptor, Bool.and_eq_true, Option.isSome_iff_exists] at h
    obtain ⟨⟨⟨a, ha⟩, ⟨b, hb⟩⟩, ⟨c, hc⟩⟩ := h
    refine ⟨rfl, fun subs j hj => ?_⟩
    simp only [entriesOf, ← hj, ha, hb, hc, Option.getD_some, and_self]
  | _ => simp [isDescriptor] at h

theorem scanSubKeys_eq (subs : List (String × JSVal)) (js : List String) (t : Tables)
    (h : ∀ j ∈ js, isDescriptor (JSVal.lookupField j subs) = true) :
    scanSubKeys (.obj subs) js t =
      .ok { exchangeSegments := addKeys t.exchangeSegments js,
            orderTypes := aggregate subs "orderType" js t.orderTypes,
            productTypes := aggregate subs "productType" js t.productTypes,
            timeInForce := aggregate subs "timeInForce" js t.timeInForce } := by
  induction js generalizing t with
  | nil => rfl
  | cons j rest ih =>
    obtain ⟨hn, hs⟩ := isDescriptor_spec (h j (List.mem_cons_self _ _))
    obtain ⟨h1, h2, h3⟩ := hs subs j rfl
    have e : (JSVal.obj subs).getField j = JSVal.lookupField j subs := rfl
    simp only [scanSubKeys, e, collect_strs _ _ _ _ hn h1, collect_strs _ _ _ _ hn h2,
      collect_strs _ _ _ _ hn h3, bind, Except.bind]
    rw [ih _ (fun j1 h1 => h j1 (List.mem_cons_of_mem _ h1))]
    rfl

theorem lookupField_of_not_hasKey (k : String) (fs : List (String × JSVal))
    (h : JSVal.hasKey k fs = false) : JSVal.lookupField k fs = .undefined := by
  induction fs with
  | nil => rfl
  | cons p rest ih =>
    obtain ⟨k1, v1⟩ := p
    simp only [JSVal.hasKey, List.any_cons, Bool.or_eq_false_iff, decide_eq_false_iff_not] at h
    simp only [JSVal.lookupField, h.1, if_false]
    exact ih h.2

/-- One round of the loop for a flat category (a list of strings). -/
theorem populateCategory_flat (cats : List (String × JSVal)) (k : String) (xs : List JSVal)
    (ks : List String) (hv : JSVal.lookupField k cats = .arr xs) (hs : strItems xs = some ks)
    (w : World) :
    populateCategory (.obj cats) k w =
      (.ok (), World.mk (w.self.put k (.obj (addKeys [] ks))) w.sent) := by
  have e : (JSVal.obj cats).getProp k = .ok (.arr xs) := by
    simp [JSVal.getProp, JSVal.nullish, JSVal.getField, hv]
  have e2 : (JSVal.arr xs).getProp "length" = .ok (.num xs.length) := by
    simp [JSVal.getProp, JSVal.nullish, JSVal.getField]
  simp only [populateCategory, Exec.bind_run, Exec.lift_run, e, e2, JSVal.nullish,
    Bool.false_eq_true, if_false, JSVal.iterate, fillTable_strs xs ks [] hs, Exec.writeThis_run]

/-- One round of the loop for a nested category without a sub-key named `length`. -/
theorem populateCategory_nested (cats : List (String × JSVal)) (k : String)
    (subs : List (String × JSVal)) (hv : JSVal.lookupField k cats = .obj subs)
    (hd : ∀ j ∈ subs.map Prod.fst, isDescriptor (JSVal.lookupField j subs) = true)
    (hl : JSVal.hasKey "length" subs = false) (w : World) :
    populateCategory (.obj cats) k w =
      (.ok (), World.mk
        ((((w.self.put k (.obj (addKeys [] (subs.map Prod.fst)))).put "orderTypes"
          (.obj (aggregate subs "orderType" (subs.map Prod.fst) []))).put "productTypes"
          (.obj (aggregate subs "productType" (subs.map Prod.fst) []))).put "timeInForce"
          (.obj (aggregate subs "timeInForce" (subs.map Prod.fst) []))) w.sent) := by
  have e : (JSVal.obj cats).getProp k = .ok (.obj subs) := by
    simp [JSVal.getProp, JSVal.nullish, JSVal.getField, hv]
  have e2 : (JSVal.obj subs).getProp "length" = .ok .undefined := by
    simp [JSVal.getProp, JSVal.nullish, JSVal.getField, lookupField_of_not_hasKey _ _ hl]
  simp only [populateCategory, Exec.bind_run, Exec.lift_run, e, e2, JSVal.nullish, if_true,
    JSVal.ownKeys, scanSubKeys_eq subs _ _ hd, Exec.writeThis_run]

theorem populateCategory_wellShaped (cats : List (String × JSVal)) (k : String)
    (h : (isFlatList (JSVal.lookupField k cats) || isNestedMap (JSVal.lookupField k cats)) = true)
    (hl : (match JSVal.lookupField k cats with
      | .obj subs => !(JSVal.hasKey "length" subs)
      | _ => true) = true) (w : World) :
    ∃ w1, populateCategory (.obj cats) k w = (.ok (), w1) := by
  cases hv : JSVal.lookupField k cats with
  | arr xs =>
    rw [hv] at h
    simp only [isFlatList, isNestedMap, Bool.or_false, Option.isSome_iff_exists] at h
    obtain ⟨ks, hks⟩ := h
    exact ⟨_, populateCategory_flat cats k xs ks hv hks w⟩
  | obj subs =>
    rw [hv] at h hl
    simp only [isFlatList, isNestedMap, Bool.false_or, List.all_eq_true] at h
    simp only [Bool.not_eq_true'] at hl
    refine ⟨_, populateCategory_nested cats k subs hv ?_ hl w⟩
    intro j hj
    simp only [List.mem_map] at hj
    obtain ⟨p, hp, rfl⟩ := hj
    exact h p hp
  | _ => rw [hv] at h; simp [isFlatList, isNestedMap] at h

theorem populateLoop_wellShaped (cats : List (String × JSVal)) (ks : List String)
    (h : ∀ k ∈ ks,
      (isFlatList (JSVal.lookupField k cats) || isNestedMap (JSVal.lookupField k cats)) = true ∧
      (match JSVal.lookupField k cats with
        | .obj subs => !(JSVal.hasKey "length" subs)
        | _ => true) = true) (w : World) :
    (populateLoop (.obj cats) ks w).1 = .ok () := by
  induction ks generalizing w with
  | nil => rfl
  | cons k rest ih =>
    obtain ⟨h1, h2⟩ := h k (List.mem_cons_self _ _)
    obtain ⟨w1, hw1⟩ := populateCategory_wellShaped cats k h1 h2 w
    simp only [populateLoop, Exec.bind_run, hw1]
    exact ih (fun k1 hk1 => h k1 (List.mem_cons_of_mem _ hk1)) w1

/-- C16 (amended). `populateEnums` does not throw on a well-shaped payload none of
whose nested categories has a sub-key named `length`: a mapping from category names to
flat lists of strings or to mappings from sub-keys to descriptors (objects in which
each of `orderType`, `productType` and `timeInForce` is absent or a list of strings);
a descriptor without lists leaves the aggregated tables as they are. -/
theorem populateEnums_no_throw (enums : JSVal) (h : isWellShaped enums = true)
    (hl : noLengthSubKey enums = true) :
    (∀ w, (populateEnums enums w).1 = .ok ()) ∧
    (∀ (tbl : List (String × JSVal)) (fs : List (String × JSVal)) (field : String),
      JSVal.lookupField field fs = .undefined → collect tbl (.obj fs) field = .ok tbl) := by
  constructor
  · intro w
    cases enums with
    | obj cats =>
      simp only [isWellShaped, List.all_eq_true] at h
      simp only [noLengthSubKey, List.all_eq_true] at hl
      refine populateLoop_wellShaped cats _ ?_ w
      intro k hk
      simp only [JSVal.ownKeys, List.mem_map] at hk
      obtain ⟨p, hp, rfl⟩ := hk
      exact ⟨h p hp, hl p hp⟩
    | _ => simp [isWellShaped] at h
  · intro tbl fs field hf
    exact collect_strs tbl (.obj fs) field [] rfl (by simp [JSVal.getField, hf, optionalStrings])

theorem populateEnums_no_throw_witness :
    (populateEnums exampleEnums { self := exampleSession, sent := [] }).1 = .ok () :=
  (populateEnums_no_throw exampleEnums (by rfl) (by rfl)).1 _

/-- C16 as stated fails: a nested category with a sub-key named `length` is taken
for a list, and iterating it throws. -/
theorem populateEnums_length_subKey :
    isWellShaped (.obj [("exchangeSegments",
        .obj [("length", .obj [("orderType", .arr [.str "LIMIT"])])])]) = true ∧
    (populateEnums (.obj [("exchangeSegments",
        .obj [("length", .obj [("orderType", .arr [.str "LIMIT"])])])])
      { self := exampleSession, sent := [] }).1 =
      .error (JSVal.typeError "value is not iterable") :=
  ⟨by rfl, by rfl⟩

theorem strItems_map_str (strs : List String) : strItems (strs.map JSVal.str) = some strs := by
  induction strs with
  | nil => rfl
  | cons a rest ih => simp [strItems, ih]

theorem Session.get_put_same (s : Session) (k : String) (v : JSVal) (hp : s.proto = none)
    (hk : k ≠ "__proto__") : (s.put k v).proto = none ∧ (s.put k v).get k = v := by
  unfold Session.put Session.get
  rw [hp]
  simp only [hk, if_false]
  cases ha : Session.accessorField k with
  | none => simp [Session.setOwn, hp, ha]
  | some b => simp [Session.setOwn, hp, ha]

theorem Session.get_put_aggregate (s : Session) (k a : String) (v : JSVal) (hp : s.proto = none)
    (ha : a ∈ ["orderTypes", "productTypes", "timeInForce"]) (hka : k ≠ a) :
    (s.put a v).proto = none ∧ (s.put a v).get k = s.get k ∧ (s.put a v).get a = v := by
  simp only [List.mem_cons, List.mem_singleton, List.not_mem_nil, or_false] at ha
  have hne : ∀ b, Session.accessorField k = some b → b ≠ a := by
    intro b hb
    unfold Session.accessorField at hb
    rcases ha with rfl | rfl | rfl <;>
      (repeat (first | split at hb | (cases hb; decide) | contradiction))
  have haa : Session.accessorField a = none := by
    rcases ha with rfl | rfl | rfl <;> rfl
  have hap : a ≠ "__proto__" := by
    rcases ha with rfl | rfl | rfl <;> decide
  unfold Session.put Session.get
  rw [hp]
  simp only [hap, if_false, haa]
  refine ⟨hp, ?_, ?_⟩
  · cases hb : Session.accessorField k with
    | none => simp [Session.setOwn, hp, hka]
    | some b => simp [Session.setOwn, hp, hne b hb]
  · simp [Session.setOwn, hp]

/-- C15 (amended). On a session with the class prototype, for a payload with one
nested category named `C`, where `C` is none of `orderTypes`, `productTypes`,
`timeInForce` and `__proto__`, no sub-key is named `length` and every descriptor is an
object whose `orderType`, `productType` and `timeInForce` are absent or lists of
strings: `populateEnums` stores four tables; the keys of the table under `C` are
exactly the sub-keys, the keys of `orderTypes`, `productTypes` and `timeInForce` are
exactly the entries of the corresponding lists of all sub-keys (the name `__proto__`
is never stored as a key), and for a flat category of strings the keys of its table
are exactly the strings of the list; every table maps each key to itself. -/
theorem capability_tables (C : String) (subs : List (String × JSVal)) (w : World)
    (hp : w.self.proto = none)
    (hC : C ∉ ["orderTypes", "productTypes", "timeInForce", "__proto__"])
    (hd : ∀ j ∈ subs.map Prod.fst, isDescriptor (JSVal.lookupField j subs) = true)
    (hl : JSVal.hasKey "length" subs = false) :
    (∃ seg ot pt tif : List (String × JSVal),
      (populateEnums (.obj [(C, .obj subs)]) w).1 = .ok () ∧
      (populateEnums (.obj [(C, .obj subs)]) w).2.self.get C = .obj seg ∧
      (populateEnums (.obj [(C, .obj subs)]) w).2.self.get "orderTypes" = .obj ot ∧
      (populateEnums (.obj [(C, .obj subs)]) w).2.self.get "productTypes" = .obj pt ∧
      (populateEnums (.obj [(C, .obj subs)]) w).2.self.get "timeInForce" = .obj tif ∧
      (∀ x, JSVal.hasKey x seg = true ↔ x ∈ subs.map Prod.fst ∧ x ≠ "__proto__") ∧
      (∀ x, JSVal.hasKey x ot = true ↔
        x ≠ "__proto__" ∧ ∃ j ∈ subs.map Prod.fst, x ∈ entriesOf subs "orderType" j) ∧
      (∀ x, JSVal.hasKey x pt = true ↔
        x ≠ "__proto__" ∧ ∃ j ∈ subs.map Prod.fst, x ∈ entriesOf subs "productType" j) ∧
      (∀ x, JSVal.hasKey x tif = true ↔
        x ≠ "__proto__" ∧ ∃ j ∈ subs.map Prod.fst, x ∈ entriesOf subs "timeInForce" j) ∧
      SelfMapped seg ∧ SelfMapped ot ∧ SelfMapped pt ∧ SelfMapped tif) ∧
    (∀ (F : String) (strs : List String), F ≠ "__proto__" →
      ∃ tbl : List (String × JSVal),
        (populateEnums (.obj [(F, .arr (strs.map JSVal.str))]) w).1 = .ok () ∧
        (populateEnums (.obj [(F, .arr (strs.map JSVal.str))]) w).2.self.get F = .obj tbl ∧
        (∀ x, JSVal.hasKey x tbl = true ↔ x ∈ strs ∧ x ≠ "__proto__") ∧ SelfMapped tbl) := by
  have hnil : SelfMapped [] := fun p hp => absurd hp (List.not_mem_nil p)
  simp only [List.mem_cons, List.mem_singleton, List.not_mem_nil, or_false, not_or] at hC
  constructor
  · refine ⟨addKeys [] (subs.map Prod.fst), aggregate subs "orderType" (subs.map Prod.fst) [],
      aggregate subs "productType" (subs.map Prod.fst) [],
      aggregate subs "timeInForce" (subs.map Prod.fst) [], ?_⟩
    have hrun : populateEnums (.obj [(C, .obj subs)]) w =
        (.ok (), World.mk
          ((((w.self.put C (.obj (addKeys [] (subs.map Prod.fst)))).put "orderTypes"
            (.obj (aggregate subs "orderType" (subs.map Prod.fst) []))).put "productTypes"
            (.obj (aggregate subs "productType" (subs.map Prod.fst) []))).put "timeInForce"
            (.obj (aggregate subs "timeInForce" (subs.map Prod.fst) []))) w.sent) := by
      have hv : JSVal.lookupField C [(C, JSVal.obj subs)] = .obj subs := by
        simp [JSVal.lookupField]
      simp only [populateEnums, JSVal.ownKeys, List.map_cons, List.map_nil, populateLoop,
        Exec.bind_run, populateCategory_nested _ C subs hv hd hl w, Exec.pure_run]
    rw [hrun]
    obtain ⟨p1, g1⟩ := Session.get_put_same w.self C (.obj (addKeys [] (subs.map Prod.fst))) hp hC.2.2.2
    obtain ⟨p2, g2, g2'⟩ := Session.get_put_aggregate _ C "orderTypes"
      (.obj (aggregate subs "orderType" (subs.map Prod.fst) [])) p1 (by decide) hC.1
    obtain ⟨p3, g3, g3'⟩ := Session.get_put_aggregate _ C "productTypes"
      (.obj (aggregate subs "productType" (subs.map Prod.fst) [])) p2 (by decide) hC.2.1
    obtain ⟨_, g4, g4'⟩ := Session.get_put_aggregate _ C "timeInForce"
      (.obj (aggregate subs "timeInForce" (subs.map Prod.fst) [])) p3 (by decide) hC.2.2.1
    have o3 := (Session.get_put_aggregate _ "orderTypes" "productTypes"
      (.obj (aggregate subs "productType" (subs.map Prod.fst) [])) p2 (by decide) (by decide)).2.1
    have o4 := (Session.get_put_aggregate _ "orderTypes" "timeInForce"
      (.obj (aggregate subs "timeInForce" (subs.map Prod.fst) [])) p3 (by decide) (by decide)).2.1
    have q4 := (Session.get_put_aggregate _ "productTypes" "timeInForce"
      (.obj (aggregate subs "timeInForce" (subs.map Prod.fst) [])) p3 (by decide) (by decide)).2.1
    refine ⟨rfl, ?_, ?_, ?_, g4', ?_, ?_, ?_, ?_, selfMapped_addKeys _ hnil,
      selfMapped_aggregate _ _ _ hnil, selfMapped_aggregate _ _ _ hnil,
      selfMapped_aggregate _ _ _ hnil⟩
    · exact g4.trans (g3.trans (g2.trans g1))
    · exact o4.trans (o3.trans g2')
    · exact q4.trans g3'
    · intro x
      rw [hasKey_addKeys]
      simp [JSVal.hasKey]
    · intro x
      rw [hasKey_aggregate]
      simp [JSVal.hasKey]
    · intro x
      rw [hasKey_aggregate]
      simp [JSVal.hasKey]
    · intro x
      rw [hasKey_aggregate]
      simp [JSVal.hasKey]
  · intro F strs hF
    refine ⟨addKeys [] strs, ?_⟩
    have hv : JSVal.lookupField F [(F, JSVal.arr (strs.map JSVal.str))] =
        .arr (strs.map JSVal.str) := by
      simp [JSVal.lookupField]
    have hrun : populateEnums (.obj [(F, .arr (strs.map JSVal.str))]) w =
        (.ok (), World.mk (w.self.put F (.obj (addKeys [] strs))) w.sent) := by
      simp only [populateEnums, JSVal.ownKeys, List.map_cons, List.map_nil, populateLoop,
        Exec.bind_run, populateCategory_flat _ F _ strs hv (strItems_map_str strs) w,
        Exec.pure_run]
    rw [hrun]
    refine ⟨rfl, (Session.get_put_same w.self F _ hp hF).2, ?_, selfMapped_addKeys _ hnil⟩
    intro x
    rw [hasKey_addKeys]
    simp [JSVal.hasKey]

theorem capability_tables_witness :
    ∃ seg ot : List (String × JSVal),
      (populateEnums (.obj [("exchangeSegments", .obj exampleSubs)])
        { self := exampleSession, sent := [] }).2.self.get "exchangeSegments" = .obj seg ∧
      (populateEnums (.obj [("exchangeSegments", .obj exampleSubs)])
        { self := exampleSession, sent := [] }).2.self.get "orderTypes" = .obj ot ∧
      (∀ x, JSVal.hasKey x seg = true ↔ x ∈ exampleSubs.map Prod.fst ∧ x ≠ "__proto__") ∧
      (∀ x, JSVal.hasKey x ot = true ↔
        x ≠ "__proto__" ∧ ∃ j ∈ exampleSubs.map Prod.fst, x ∈ entriesOf exampleSubs "orderType" j) ∧
      SelfMapped seg ∧ SelfMapped ot := by
  obtain ⟨seg, ot, _, _, _, h2, h3, _, _, h6, h7, _, _, h10, h11, _, _⟩ :=
    (capability_tables "exchangeSegments" exampleSubs { self := exampleSession, sent := [] }
      (by rfl) (by decide)
      (by
        intro j hj
        simp only [exampleSubs, List.map_cons, List.map_nil, List.mem_cons, List.mem_singleton,
          List.not_mem_nil, or_false] at hj
        rcases hj with rfl | rfl <;> rfl)
      (by rfl)).1
  exact ⟨seg, ot, h2, h3, h6, h7, h10, h11⟩

/-- C15 as stated fails: for a nested category named `orderTypes` the table stored
under that name is the aggregated table of order types, not the table of sub-keys. -/
theorem nested_category_named_orderTypes :
    (populateEnums (.obj [("orderTypes", .obj [("NSECM", .obj [("orderType", .arr [.str "LIMIT"])])])])
        { self := exampleSession, sent := [] }).1 = .ok () ∧
    (populateEnums (.obj [("orderTypes", .obj [("NSECM", .obj [("orderType", .arr [.str "LIMIT"])])])])
        { self := exampleSession, sent := [] }).2.self.get "orderTypes" =
      .obj [("LIMIT", .str "LIMIT")] :=
  ⟨by rfl, by rfl⟩

/-! ## Tables after a second login -/

theorem populateCategory_writes (cats : List (String × JSVal)) (k : String)
    (h : (isFlatList (JSVal.lookupField k cats) || isNestedMap (JSVal.lookupField k cats)) = true)
    (hl : (match JSVal.lookupField k cats with
      | .obj subs => !(JSVal.hasKey "length" subs)
      | _ => true) = true) (w : World) :
    populateCategory (.obj cats) k w =
      (.ok (), World.mk (applyWrites w.self (categoryWrites cats k)) w.sent) := by
  cases hv : JSVal.lookupField k cats with
  | arr xs =>
    rw [hv] at h
    simp only [isFlatList, isNestedMap, Bool.or_false, Option.isSome_iff_exists] at h
    obtain ⟨ks, hks⟩ := h
    rw [populateCategory_flat cats k xs ks hv hks w]
    simp [categoryWrites, hv, hks, applyWrites]
  | obj subs =>
    rw [hv] at h hl
    simp only [isFlatList, isNestedMap, Bool.false_or, List.all_eq_true] at h
    simp only [Bool.not_eq_true'] at hl
    rw [populateCategory_nested cats k subs hv ?_ hl w]
    · simp [categoryWrites, hv, applyWrites]
    · intro j hj
      simp only [List.mem_map] at hj
      obtain ⟨p, hp, rfl⟩ := hj
      exact h p hp
  | _ => rw [hv] at h; simp [isFlatList, isNestedMap] at h

theorem populateLoop_writes (cats : List (String × JSVal)) (ks : List String)
    (h : ∀ k ∈ ks,
      (isFlatList (JSVal.lookupField k cats) || isNestedMap (JSVal.lookupField k cats)) = true ∧
      (match JSVal.lookupField k cats with
        | .obj subs => !(JSVal.hasKey "length" subs)
        | _ => true) = true) (w : World) :
    populateLoop (.obj cats) ks w =
      (.ok (), World.mk (applyWrites w.self (payloadWrites cats ks)) w.sent) := by
  induction ks generalizing w with
  | nil => rfl
  | cons k rest ih =>
    obtain ⟨h1, h2⟩ := h k (List.mem_cons_self _ _)
    simp only [populateLoop, Exec.bind_run, populateCategory_writes cats k h1 h2 w,
      ih (fun k1 hk1 => h k1 (List.mem_cons_of_mem _ hk1)), payloadWrites, applyWrites_append]

theorem populateEnums_writes (cats : List (String × JSVal))
    (h : isWellShaped (.obj cats) = true) (hl : noLengthSubKey (.obj cats) = true) (w : World) :
    populateEnums (.obj cats) w =
      (.ok (), World.mk (applyWrites w.self (payloadWrites cats (cats.map Prod.fst))) w.sent) := by
  simp only [isWellShaped, List.all_eq_true] at h
  simp only [noLengthSubKey, List.all_eq_true] at hl
  have key : ∀ k ∈ cats.map Prod.fst,
      (isFlatList (JSVal.lookupField k cats) || isNestedMap (JSVal.lookupField k cats)) = true ∧
      (match JSVal.lookupField k cats with
        | .obj subs => !(JSVal.hasKey "length" subs)
        | _ => true) = true := by
    intro k hk
    rw [List.mem_map] at hk
    obtain ⟨p, hp, rfl⟩ := hk
    exact ⟨h p hp, hl p hp⟩
  exact populateLoop_writes cats (cats.map Prod.fst) key w

theorem Session.get_alive (s : Session) (hp : s.proto = none) (k : String) :
    s.get k = (s.props (Session.slotOf k)).getD .undefined := by
  unfold Session.get Session.slotOf
  rw [hp]
  cases Session.accessorField k <;> rfl

theorem applyWrites_proto (ws : List (String × JSVal)) (s : Session)
    (hk : ∀ kv ∈ ws, kv.1 ≠ "__proto__") : (applyWrites s ws).proto = s.proto := by
  induction ws generalizing s with
  | nil => rfl
  | cons kv rest ih =>
    have h1 := ih (s.put kv.1 kv.2) (fun kv1 h => hk kv1 (List.mem_cons_of_mem _ h))
    have h2 := s.put_proto_of_ne kv.1 kv.2 (hk kv (List.mem_cons_self _ _))
    exact h1.trans h2

theorem applyWrites_get_eq (ws : List (String × JSVal)) (s t : Session)
    (hs : s.proto = none) (ht : t.proto = none) (hk : ∀ kv ∈ ws, kv.1 ≠ "__proto__")
    (k : String) (h : s.get k = t.get k) :
    (applyWrites s ws).get k = (applyWrites t ws).get k := by
  have ps := (applyWrites_proto ws s hk).trans hs
  have pt := (applyWrites_proto ws t hk).trans ht
  rw [Session.get_alive _ ps, Session.get_alive _ pt]
  rw [Session.get_alive _ hs, Session.get_alive _ ht] at h
  rcases (applyWrites_pair ws s t (hs.trans ht.symm)).2 (Session.slotOf k) with e | ⟨e1, e2⟩
  · rw [e]
  · rw [e1, e2]; exact h

/-- A name assigned by a list of assignments reads the same in two sessions with
the class prototype after the assignments. -/
theorem applyWrites_get_written (ws : List (String × JSVal)) (s t : Session)
    (hs : s.proto = none) (ht : t.proto = none) (hk : ∀ kv ∈ ws, kv.1 ≠ "__proto__")
    (k : String) (hw : k ∈ ws.map Prod.fst) :
    (applyWrites s ws).get k = (applyWrites t ws).get k := by
  induction ws generalizing s t with
  | nil => simp at hw
  | cons kv rest ih =>
    have hne := hk kv (List.mem_cons_self _ _)
    have hrest : ∀ kv1 ∈ rest, kv1.1 ≠ "__proto__" := fun kv1 h => hk kv1 (List.mem_cons_of_mem _ h)
    have ps := (s.put_proto_of_ne kv.1 kv.2 hne).trans hs
    have pt := (t.put_proto_of_ne kv.1 kv.2 hne).trans ht
    show (applyWrites (s.put kv.1 kv.2) rest).get k = (applyWrites (t.put kv.1 kv.2) rest).get k
    by_cases hin : k ∈ rest.map Prod.fst
    · exact ih _ _ ps pt hrest hin
    · simp only [List.map_cons, List.mem_cons] at hw
      rcases hw with rfl | hw
      · refine applyWrites_get_eq rest _ _ ps pt hrest _ ?_
        rw [(Session.get_put_same s _ kv.2 hs hne).2, (Session.get_put_same t _ kv.2 ht hne).2]
      · exact absurd hw hin

theorem mem_payloadWrites_keys (cats : List (String × JSVal)) (ks : List String) (k : String)
    (hk : k ∈ ks)
    (h : (isFlatList (JSVal.lookupField k cats) || isNestedMap (JSVal.lookupField k cats)) = true) :
    k ∈ (payloadWrites cats ks).map Prod.fst := by
  induction ks with
  | nil => simp at hk
  | cons k0 rest ih =>
    simp only [payloadWrites, List.map_append, List.mem_append]
    simp only [List.mem_cons] at hk
    rcases hk with rfl | hk
    · left
      cases hv : JSVal.lookupField k cats with
      | arr xs => simp [categoryWrites, hv]
      | obj subs => simp [categoryWrites, hv]
      | _ => rw [hv] at h; simp [isFlatList, isNestedMap] at h
    · exact Or.inr (ih hk)

theorem payloadWrites_keys_ne (cats : List (String × JSVal)) (ks : List String)
    (hk : "__proto__" ∉ ks) : ∀ kv ∈ payloadWrites cats ks, kv.1 ≠ "__proto__" := by
  induction ks with
  | nil => intro kv h; simp [payloadWrites] at h
  | cons k0 rest ih =>
    simp only [List.mem_cons, not_or] at hk
    intro kv h
    simp only [payloadWrites, List.mem_append] at h
    rcases h with h | h
    · unfold categoryWrites at h
      split at h
      · simp only [List.mem_singleton] at h
        subst h
        exact fun e => hk.1 e.symm
      · simp only [List.mem_cons, List.mem_singleton, List.not_mem_nil, or_false] at h
        rcases h with rfl | rfl | rfl | rfl
        · exact fun e => hk.1 e.symm
        · show "orderTypes" ≠ "__proto__"
          decide
        · show "productTypes" ≠ "__proto__"
          decide
        · show "timeInForce" ≠ "__proto__"
          decide
      · simp at h
    · exact ih hk.2 kv h

/-- The session a login leaves when the response carries a well-shaped payload:
the assignments of `logIn` followed by those of `populateEnums`. -/
theorem logIn_state (env : Env) (s : Session) (sent : List Request) (c r : JSVal) (u : String)
    (cats : List (String × JSVal))
    (hm : s.hasMethod "populateEnums" = true)
    (hu : s.url.plusStr env.api.session = .ok u)
    (hc : c.nullish = false)
    (hr : env.processRequest (Request.mk "POST" u (.obj []) c) = .ok r)
    (hres : r.nullish = false)
    (he : (r.getField "result").getField "enums" = .obj cats)
    (hw : isWellShaped (.obj cats) = true) (hl : noLengthSubKey (.obj cats) = true) :
    (logIn env c { self := s, sent := sent }).1 = .ok r ∧
    (logIn env c { self := s, sent := sent }).2.self =
      applyWrites s (logInWrites c r ++ payloadWrites cats (cats.map Prod.fst)) := by
  have hresult : (r.getField "result").nullish = false := by
    cases hv : r.getField "result" <;> simp_all [JSVal.nullish, JSVal.getField]
  have hpop : ∀ w, (populateEnums ((r.getField "result").getField "enums") w).1 = .ok () := by
    intro w
    rw [he, populateEnums_writes cats hw hl w]
  rw [logIn_eq env s sent c r u hm hu hc hr hres hresult hpop, he,
    populateEnums_writes cats hw hl, applyWrites_append]
  exact ⟨rfl, rfl⟩

/-- C17 (amended). Let a login with credentials `c` be answered with the same
response `r`, carrying a well-shaped payload `E2` without a category named `__proto__`
and without a sub-key named `length`, once on a session `s` (a fresh one) and once on a
session `s1` (one left by an earlier login). Then every name that the login with `E2`
assigns, in particular every category of `E2`, reads the same in both sessions
afterwards, and every own property of the second session is equal to that of the first
or is one that this login does not assign, left as the earlier login stored it. -/
theorem tables_after_relogin (env env1 : Env) (s s1 : Session) (sent sent1 : List Request)
    (c r : JSVal) (u u1 : String) (cats : List (String × JSVal))
    (hm : s.hasMethod "populateEnums" = true) (hm1 : s1.hasMethod "populateEnums" = true)
    (hu : s.url.plusStr env.api.session = .ok u)
    (hu1 : s1.url.plusStr env1.api.session = .ok u1)
    (hc : c.nullish = false)
    (hr : env.processRequest (Request.mk "POST" u (.obj []) c) = .ok r)
    (hr1 : env1.processRequest (Request.mk "POST" u1 (.obj []) c) = .ok r)
    (hres : r.nullish = false)
    (he : (r.getField "result").getField "enums" = .obj cats)
    (hw : isWellShaped (.obj cats) = true) (hl : noLengthSubKey (.obj cats) = true)
    (hproto : "__proto__" ∉ cats.map Prod.fst) :
    (∀ k ∈ cats.map Prod.fst,
      (logIn env1 c { self := s1, sent := sent1 }).2.self.get k =
        (logIn env c { self := s, sent := sent }).2.self.get k) ∧
    (∀ k ∈ (logInWrites c r ++ payloadWrites cats (cats.map Prod.fst)).map Prod.fst,
      (logIn env1 c { self := s1, sent := sent1 }).2.self.get k =
        (logIn env c { self := s, sent := sent }).2.self.get k) ∧
    (∀ x,
      (logIn env1 c { self := s1, sent := sent1 }).2.self.props x =
        (logIn env c { self := s, sent := sent }).2.self.props x ∨
      ((logIn env c { self := s, sent := sent }).2.self.props x = s.props x ∧
        (logIn env1 c { self := s1, sent := sent1 }).2.self.props x = s1.props x)) := by
  have hA := (logIn_state env s sent c r u cats hm hu hc hr hres he hw hl).2
  have hB := (logIn_state env1 s1 sent1 c r u1 cats hm1 hu1 hc hr1 hres he hw hl).2
  rw [hA, hB]
  have ps := Session.proto_of_hasMethod hm
  have ps1 := Session.proto_of_hasMethod hm1
  have hne : ∀ kv ∈ logInWrites c r ++ payloadWrites cats (cats.map Prod.fst),
      kv.1 ≠ "__proto__" := by
    intro kv hkv
    rw [List.mem_append] at hkv
    rcases hkv with h | h
    · simp only [logInWrites, List.mem_cons, List.mem_singleton, List.not_mem_nil, or_false] at h
      rcases h with rfl | rfl | rfl | rfl | rfl | rfl | rfl <;> simp
    · exact payloadWrites_keys_ne cats _ hproto kv h
  have hwritten : ∀ k ∈ (logInWrites c r ++ payloadWrites cats (cats.map Prod.fst)).map Prod.fst,
      (applyWrites s1 (logInWrites c r ++ payloadWrites cats (cats.map Prod.fst))).get k =
        (applyWrites s (logInWrites c r ++ payloadWrites cats (cats.map Prod.fst))).get k :=
    fun k hk => applyWrites_get_written _ s1 s ps1 ps hne k hk
  refine ⟨?_, hwritten, ?_⟩
  · intro k hk
    refine hwritten k ?_
    rw [List.map_append, List.mem_append]
    right
    refine mem_payloadWrites_keys cats _ k hk ?_
    simp only [isWellShaped, List.all_eq_true] at hw
    rw [List.mem_map] at hk
    obtain ⟨p, hp, rfl⟩ := hk
    exact hw p hp
  · intro x
    rcases (applyWrites_pair _ s1 s (ps1.trans ps.symm)).2 x with h | ⟨h1, h2⟩
    · exact Or.inl h
    · exact Or.inr ⟨h2, h1⟩

theorem tables_after_relogin_witness :
    (logIn (exampleEnv (.ok (exampleResponse (.obj [("orderSide", .arr [.str "BUY"])]))))
        exampleCredentials { self := exampleAfterLogin, sent := [] }).2.self.get "orderSide" =
      (logIn (exampleEnv (.ok (exampleResponse (.obj [("orderSide", .arr [.str "BUY"])]))))
        exampleCredentials { self := exampleSession, sent := [] }).2.self.get "orderSide" :=
  (tables_after_relogin
    (exampleEnv (.ok (exampleResponse (.obj [("orderSide", .arr [.str "BUY"])]))))
    (exampleEnv (.ok (exampleResponse (.obj [("orderSide", .arr [.str "BUY"])]))))
    exampleSession exampleAfterLogin [] [] exampleCredentials
    (exampleResponse (.obj [("orderSide", .arr [.str "BUY"])]))
    "http://test-api.com/interactive/user/session" "http://test-api.com/interactive/user/session"
    [("orderSide", .arr [.str "BUY"])]
    (by rfl) (by rfl) (by rfl) (by rfl) (by rfl) (by rfl) (by rfl) (by rfl) (by rfl) (by rfl)
    (by rfl) (by decide)).1 "orderSide" (by decide)

/-- C17 as stated fails: after a login with `exampleEnums` and a second login with
an empty payload the tables of the first login are still held, while a fresh session
holds none after the single login with the empty payload. -/
theorem tables_survive_relogin :
    (logIn (exampleEnv (.ok (exampleResponse (.obj [])))) exampleCredentials
        { self := exampleAfterLogin, sent := [] }).1 = .ok (exampleResponse (.obj [])) ∧
    (logIn (exampleEnv (.ok (exampleResponse (.obj [])))) exampleCredentials
        { self := exampleAfterLogin, sent := [] }).2.self.get "orderSide" =
      .obj [("BUY", .str "BUY"), ("SELL", .str "SELL")] ∧
    (logIn (exampleEnv (.ok (exampleResponse (.obj [])))) exampleCredentials
        { self := exampleSession, sent := [] }).1 = .ok (exampleResponse (.obj [])) ∧
    (logIn (exampleEnv (.ok (exampleResponse (.obj [])))) exampleCredentials
        { self := exampleSession, sent := [] }).2.self.get "orderSide" = .undefined :=
  ⟨by rfl, by rfl, by rfl, by rfl⟩

/-! ## Order history -/

theorem jsEndsWith_iff (s suffix : String) :
    JSVal.jsEndsWith s suffix = true ↔ ∃ q : String, s = q ++ suffix := by
  unfold JSVal.jsEndsWith
  rw [List.isSuffixOf_iff_suffix]
  constructor
  · rintro ⟨l, hl⟩
    refine ⟨⟨l⟩, ?_⟩
    apply String.ext
    simp [hl]
  · rintro ⟨q, rfl⟩
    exact ⟨q.data, by simp⟩

/-- C18. In an authenticated session, for every order-history path template `p`
and every identifier with a string value, `getOrderHistory(id)` sends exactly one
`GET url + p' + id` with headers `{authorization: token}`, where `p'` is `p` when `p`
ends with `"/"` and `p + "/"` otherwise; so the URL ends with `"/" + id`, and the
separator is added only when `p` does not already end with one. -/
theorem getOrderHistory_url (env : Env) (id : JSVal) (w : World) (base ids : String)
    (ha : w.self.Authenticated) (hb : w.self.url.toStr = .ok base) (hid : id.toStr = .ok ids) :
    SendsOnce env w
      (Request.mk "GET"
        (base ++ (if JSVal.jsEndsWith env.api.orderHistory "/" = true then env.api.orderHistory
          else env.api.orderHistory ++ "/") ++ ids)
        (.obj [("authorization", w.self.token)]) .null)
      (getOrderHistory env id w) ∧
    (∃ pre : String,
      base ++ (if JSVal.jsEndsWith env.api.orderHistory "/" = true then env.api.orderHistory
        else env.api.orderHistory ++ "/") ++ ids = pre ++ ("/" ++ ids)) ∧
    ((JSVal.jsEndsWith env.api.orderHistory "/" = true ∧
        (if JSVal.jsEndsWith env.api.orderHistory "/" = true then env.api.orderHistory
          else env.api.orderHistory ++ "/") = env.api.orderHistory) ∨
      (JSVal.jsEndsWith env.api.orderHistory "/" = false ∧
        (if JSVal.jsEndsWith env.api.orderHistory "/" = true then env.api.orderHistory
          else env.api.orderHistory ++ "/") = env.api.orderHistory ++ "/")) := by
  have hb1 : (w.self.get "url").toStr = .ok base := hb
  have key : getOrderHistory env id w = sendOutcome env "Get order history operation failed."
      (Request.mk "GET"
        (base ++ (if JSVal.jsEndsWith env.api.orderHistory "/" = true then env.api.orderHistory
          else env.api.orderHistory ++ "/") ++ ids)
        (.obj [("authorization", w.self.token)]) .null) w := by
    simp only [getOrderHistory, Exec.tryCatch, getOrderHistoryTry, Exec.bind_run,
      gate_open w ha.hasLoginGate ha.loggedIn, Exec.readThis_run, Exec.lift_run,
      plusStr_of_toStr hb1, strPlus_of_toStr hid, send_run, Exec.pure_run, sendOutcome,
      Session.token]
    cases env.processRequest _ <;> rfl
  refine ⟨?_, ?_, ?_⟩
  · rw [key]
    exact sendOutcome_sendsOnce _ _ _ _
  · cases h : JSVal.jsEndsWith env.api.orderHistory "/" with
    | true =>
      obtain ⟨q, hq⟩ := (jsEndsWith_iff _ _).1 h
      refine ⟨base ++ q, ?_⟩
      simp only [if_true]
      rw [hq]
      simp only [String.append_assoc]
    | false =>
      refine ⟨base ++ env.api.orderHistory, ?_⟩
      simp only [Bool.false_eq_true, if_false, String.append_assoc]
  · cases h : JSVal.jsEndsWith env.api.orderHistory "/" with
    | true => exact Or.inl ⟨rfl, by simp⟩
    | false => exact Or.inr ⟨rfl, by simp⟩

theorem getOrderHistory_url_witness :
    SendsOnce (exampleEnv (.ok .null)) { self := exampleLoggedIn, sent := [] }
      (Request.mk "GET" "http://test-api.com/interactive/orders/1991237756"
        (.obj [("authorization", .str "T")]) .null)
      (getOrderHistory (exampleEnv (.ok .null)) (.num 1991237756)
        { self := exampleLoggedIn, sent := [] }) :=
  (getOrderHistory_url (exampleEnv (.ok .null)) (.num 1991237756)
    { self := exampleLoggedIn, sent := [] } "http://test-api.com" "1991237756"
    ⟨by rfl, by rfl, by rfl⟩ (by rfl) (by rfl)).1

/-! ## The transport adapter -/

/-- The `catch` block raises again the value it caught, when that value is an
object, and hands nothing to the HTTP library. -/
theorem processRequestCatch_result (h : Http) (error : JSVal) (st : NetLog)
    (he : error.nullish = false) :
    (processRequestCatch h error st).1 = .error error ∧
      (processRequestCatch h error st).2.calls = st.calls := by
  unfold processRequestCatch
  simp only [JSVal.getProp, he, Bool.false_eq_true, if_false]
  by_cases h1 : ((error.getField "response").truthy = true) <;>
    by_cases h2 : ((error.getField "request").truthy = true) <;> simp [h1, h2]

/-- The `catch` block hands nothing to the HTTP library. -/
theorem processRequestCatch_calls (h : Http) (error : JSVal) (st : NetLog) :
    (processRequestCatch h error st).2.calls = st.calls := by
  unfold processRequestCatch
  cases hp : error.getProp "response" with
  | error e => rfl
  | ok r =>
    simp only
    split_ifs <;> rfl

/-- The `catch` block never returns a value. -/
theorem processRequestCatch_fails (h : Http) (error : JSVal) (st : NetLog) :
    ∃ e, (processRequestCatch h error st).1 = .error e := by
  unfold processRequestCatch
  cases hp : error.getProp "response" with
  | error e => exact ⟨e, rfl⟩
  | ok r =>
    refine ⟨error, ?_⟩
    simp only
    split_ifs <;> rfl

/-- The configuration `processRequest` builds from its arguments. -/
theorem processRequestRun_eq (h : Http) (req : Request) (hh : req.headers.nullish = false) :
    processRequestRun h req =
      (let config : AxiosConfig :=
        AxiosConfig.mk req.method req.url
          (.obj [("authorization", req.headers.getField "authorization")])
          (if toUpperCase req.method = "POST" ∨ toUpperCase req.method = "PUT" ∨
              toUpperCase req.method = "PATCH" then some req.data else none)
      let st1 : NetLog :=
        NetLog.mk [.str "Request object sent to the server (Axios config):",
            h.stringify (.obj [("url", .str config.url), ("method", .str config.method),
              ("headers", config.headers), ("dataContent", dataToLog config.data)])]
          [config]
      match h.axios config with
      | .error e => processRequestCatch h e st1
      | .ok response =>
          let st2 : NetLog :=
            { st1 with logged := st1.logged ++
                [.str "Response object received from the server (Axios response.data):"] }
          match response.getProp "data" with
          | .error e => processRequestCatch h e st2
          | .ok d => (.ok d, { st2 with logged := st2.logged ++ [h.stringify d] })) := by
  simp only [processRequestRun, JSVal.getProp, hh]
  rfl

/-- C19. For every method string, url, headers object and data, `processRequest`
hands exactly one configuration to the HTTP library: it has the given method and
url, its headers are exactly the `authorization` entry of the given headers, and
its data field is the given data if and only if the upper-cased method is `POST`,
`PUT` or `PATCH` (otherwise no data field is set); when the HTTP call resolves
with a response object, `processRequest` returns the `data` field of the response. -/
theorem processRequest_config (h : Http) (method url : String) (headers data : JSVal)
    (hh : headers.nullish = false) :
    ∃ config : AxiosConfig,
      (processRequestRun h (Request.mk method url headers data)).2.calls = [config] ∧
      config.method = method ∧ config.url = url ∧
      config.headers = .obj [("authorization", headers.getField "authorization")] ∧
      ((toUpperCase method = "POST" ∨ toUpperCase method = "PUT" ∨
          toUpperCase method = "PATCH") → config.data = some data) ∧
      (¬ (toUpperCase method = "POST" ∨ toUpperCase method = "PUT" ∨
          toUpperCase method = "PATCH") → config.data = none) ∧
      ∀ response, h.axios config = .ok response → response.nullish = false →
        processRequest h (Request.mk method url headers data) =
          .ok (response.getField "data") := by
  refine ⟨AxiosConfig.mk method url (.obj [("authorization", headers.getField "authorization")])
    (if toUpperCase method = "POST" ∨ toUpperCase method = "PUT" ∨
        toUpperCase method = "PATCH" then some data else none), ?_, rfl, rfl, rfl, ?_, ?_, ?_⟩
  · rw [processRequestRun_eq h _ hh]
    simp only
    cases hax : h.axios _ with
    | error e => exact processRequestCatch_calls h e _
    | ok response =>
      simp only
      cases hd : response.getProp "data" with
      | error e => exact processRequestCatch_calls h e _
      | ok d => rfl
  · intro hm
    simp [hm]
  · intro hm
    simp [hm]
  · intro response hr hn
    unfold processRequest
    rw [processRequestRun_eq h _ hh]
    simp only [hr, JSVal.getProp, hn]
    rfl

/-- C19 at a `post` of the examples' library. -/
theorem processRequest_config_witness :
    ∃ config : AxiosConfig,
      (processRequestRun (exampleHttp (.ok (.obj [("data", .num 5)])))
        (Request.mk "post" "u" (.obj [("authorization", .str "T"), ("x", .num 1)])
          (.num 3))).2.calls = [config] ∧
      config.method = "post" ∧ config.url = "u" ∧
      config.headers = .obj [("authorization",
        (JSVal.obj [("authorization", .str "T"), ("x", .num 1)]).getField "authorization")] ∧
      ((toUpperCase "post" = "POST" ∨ toUpperCase "post" = "PUT" ∨
          toUpperCase "post" = "PATCH") → config.data = some (.num 3)) ∧
      (¬ (toUpperCase "post" = "POST" ∨ toUpperCase "post" = "PUT" ∨
          toUpperCase "post" = "PATCH") → config.data = none) ∧
      ∀ response, (exampleHttp (.ok (.obj [("data", .num 5)]))).axios config = .ok response →
        response.nullish = false →
        processRequest (exampleHttp (.ok (.obj [("data", .num 5)])))
          (Request.mk "post" "u" (.obj [("authorization", .str "T"), ("x", .num 1)])
            (.num 3)) = .ok (response.getField "data") :=
  processRequest_config (exampleHttp (.ok (.obj [("data", .num 5)]))) "post" "u"
    (.obj [("authorization", .str "T"), ("x", .num 1)]) (.num 3) rfl

/-- C20. With an HTTP library that resolves with response objects and rejects with
error objects, and a headers object, `processRequest` fails exactly when the one
HTTP call it issues fails, and the value it raises is the value the library
rejected with, unchanged, whatever the `response` and `request` fields of that
value are (present or not), so that these fields still tell the three classes of
failure apart. -/
theorem processRequest_fails_iff (h : Http) (req : Request) (hw : h.WellFormed)
    (hh : req.headers.nullish = false) :
    ∃ config : AxiosConfig, (processRequestRun h req).2.calls = [config] ∧
      ∀ e, processRequest h req = .error e ↔ h.axios config = .error e := by
  refine ⟨AxiosConfig.mk req.method req.url
    (.obj [("authorization", req.headers.getField "authorization")])
    (if toUpperCase req.method = "POST" ∨ toUpperCase req.method = "PUT" ∨
        toUpperCase req.method = "PATCH" then some req.data else none), ?_, ?_⟩
  · rw [processRequestRun_eq h _ hh]
    simp only
    cases hax : h.axios _ with
    | error e => exact processRequestCatch_calls h e _
    | ok response =>
      simp only
      cases hd : response.getProp "data" with
      | error e => exact processRequestCatch_calls h e _
      | ok d => rfl
  · intro e
    unfold processRequest
    rw [processRequestRun_eq h _ hh]
    simp only
    have hc := hw (AxiosConfig.mk req.method req.url
      (.obj [("authorization", req.headers.getField "authorization")])
      (if toUpperCase req.method = "POST" ∨ toUpperCase req.method = "PUT" ∨
        toUpperCase req.method = "PATCH" then some req.data else none))
    cases hax : h.axios _ with
    | error e0 =>
      rw [hax] at hc
      simp only
      rw [(processRequestCatch_result h e0 _ hc).1]
    | ok response =>
      rw [hax] at hc
      simp only [JSVal.getProp, hc]
      simp

/-- C20 at the three classes of failure of the examples' library: an error with a
response, an error with a request and no response, and another error. -/
theorem processRequest_fails_iff_witness :
    (∃ config : AxiosConfig,
      (processRequestRun (exampleHttp (.error (.obj [("response", .obj [("status", .num 400)])])))
        (Request.mk "GET" "u" (.obj [("authorization", .str "T")]) .null)).2.calls = [config] ∧
      ∀ e, processRequest (exampleHttp (.error (.obj [("response", .obj [("status", .num 400)])])))
          (Request.mk "GET" "u" (.obj [("authorization", .str "T")]) .null) = .error e ↔
        (exampleHttp (.error (.obj [("response", .obj [("status", .num 400)])]))).axios config
          = .error e) ∧
    processRequest (exampleHttp (.error (.obj [("response", .obj [("status", .num 400)])])))
      (Request.mk "GET" "u" (.obj [("authorization", .str "T")]) .null) =
        .error (.obj [("response", .obj [("status", .num 400)])]) ∧
    processRequest (exampleHttp (.error (.obj [("request", .obj []), ("message", .str "Network Error")])))
      (Request.mk "GET" "u" (.obj [("authorization", .str "T")]) .null) =
        .error (.obj [("request", .obj []), ("message", .str "Network Error")]) ∧
    processRequest (exampleHttp (.error (.obj [("message", .str "Request setup failed")])))
      (Request.mk "GET" "u" (.obj [("authorization", .str "T")]) .null) =
        .error (.obj [("message", .str "Request setup failed")]) :=
  ⟨processRequest_fails_iff (exampleHttp (.error (.obj [("response", .obj [("status", .num 400)])])))
    (Request.mk "GET" "u" (.obj [("authorization", .str "T")]) .null)
    (fun _ => rfl) rfl, rfl, rfl, rfl⟩

/-- What `processRequest` has passed to `logFile` by the time it calls the HTTP
library: the two request lines, the second one the text of a summary that holds
the `authorization` value itself and, of the data, the keys or the type only. -/
theorem request_log (h : Http) (req : Request) (hh : req.headers.nullish = false) :
    (processRequestRun h req).2.logged.take 2 =
      [.str "Request object sent to the server (Axios config):",
       h.stringify (.obj [("url", .str req.url), ("method", .str req.method),
         ("headers", .obj [("authorization", req.headers.getField "authorization")]),
         ("dataContent", dataToLog
           (if toUpperCase req.method = "POST" ∨ toUpperCase req.method = "PUT" ∨
              toUpperCase req.method = "PATCH" then some req.data else none))])] := by
  rw [processRequestRun_eq h _ hh]
  simp only
  cases hax : h.axios _ with
  | error e =>
    simp only
    unfold processRequestCatch
    cases hp : e.getProp "response" with
    | error e1 => rfl
    | ok r =>
      simp only
      split_ifs <;> rfl
  | ok response =>
    simp only
    cases hd : response.getProp "data" with
    | error e =>
      simp only
      unfold processRequestCatch
      cases hp : e.getProp "response" with
      | error e1 => rfl
      | ok r =>
        simp only
        split_ifs <;> rfl
    | ok d => rfl

/-- C30. Two `GET` calls to the same url whose headers differ only in the value of
`authorization` (`"A"` and `"B"`): the request lines logged before the HTTP call
differ, each holds the authorization value of its call. -/
theorem request_log_holds_authorization :
    (processRequestRun (exampleHttp (.ok (.obj [("data", .null)])))
        (Request.mk "GET" "u" (.obj [("authorization", .str "A")]) .null)).2.logged.take 2 =
      [.str "Request object sent to the server (Axios config):",
       .str "\x7b\"url\":\"u\",\"method\":\"GET\",\"headers\":\x7b\"authorization\":\"A\"\x7d,\"dataContent\":\"N/A\"\x7d"] ∧
    (processRequestRun (exampleHttp (.ok (.obj [("data", .null)])))
        (Request.mk "GET" "u" (.obj [("authorization", .str "B")]) .null)).2.logged.take 2 =
      [.str "Request object sent to the server (Axios config):",
       .str "\x7b\"url\":\"u\",\"method\":\"GET\",\"headers\":\x7b\"authorization\":\"B\"\x7d,\"dataContent\":\"N/A\"\x7d"] ∧
    (processRequestRun (exampleHttp (.ok (.obj [("data", .null)])))
        (Request.mk "GET" "u" (.obj [("authorization", .str "A")]) .null)).2.logged.take 2 ≠
    (processRequestRun (exampleHttp (.ok (.obj [("data", .null)])))
        (Request.mk "GET" "u" (.obj [("authorization", .str "B")]) .null)).2.logged.take 2 := by
  refine ⟨rfl, rfl, ?_⟩
  intro hEq
  have h1 : (processRequestRun (exampleHttp (.ok (.obj [("data", .null)])))
        (Request.mk "GET" "u" (.obj [("authorization", .str "A")]) .null)).2.logged.take 2 =
      [.str "Request object sent to the server (Axios config):",
       .str "\x7b\"url\":\"u\",\"method\":\"GET\",\"headers\":\x7b\"authorization\":\"A\"\x7d,\"dataContent\":\"N/A\"\x7d"] := rfl
  have h2 : (processRequestRun (exampleHttp (.ok (.obj [("data", .null)])))
        (Request.mk "GET" "u" (.obj [("authorization", .str "B")]) .null)).2.logged.take 2 =
      [.str "Request object sent to the server (Axios config):",
       .str "\x7b\"url\":\"u\",\"method\":\"GET\",\"headers\":\x7b\"authorization\":\"B\"\x7d,\"dataContent\":\"N/A\"\x7d"] := rfl
  rw [h1, h2] at hEq
  simp at hEq

/-- Two bodies with the same keys in the same order give the same request lines. -/
theorem request_log_data_keys (h : Http) (method url : String) (headers : JSVal)
    (fs gs : List (String × JSVal)) (hh : headers.nullish = false)
    (hk : fs.map Prod.fst = gs.map Prod.fst) :
    (processRequestRun h (Request.mk method url headers (.obj fs))).2.logged.take 2 =
      (processRequestRun h (Request.mk method url headers (.obj gs))).2.logged.take 2 := by
  rw [request_log h _ hh, request_log h _ hh]
  simp only
  split_ifs
  · simp [dataToLog, JSVal.truthy, typeOf, JSVal.ownKeys, hk]
  · rfl

/-! ## End to end: the session client over the transport adapter -/

theorem Exec.forwards_of_quiet {env : Env} {m : Exec JSVal} (hq : Exec.Quiet m) :
    Exec.Forwards env m := by
  constructor
  intro w w1 r h
  have h1 := hq.sent_eq w
  rw [h] at h1
  exact Or.inl h1

theorem Exec.forwards_bind {α : Type} {env : Env} {m : Exec α} {f : α → Exec JSVal}
    (hm : Exec.Quiet m) (hf : ∀ a, Exec.Forwards env (f a)) : Exec.Forwards env (m >>= f) := by
  constructor
  intro w w1 r h
  have h1 := hm.sent_eq w
  simp only [Exec.bind_run] at h
  cases hmw : m w with
  | mk r0 w0 =>
    rw [hmw] at h h1
    cases r0 with
    | ok a =>
      simp only at h h1
      rcases (hf a).forwards w0 w1 r h with h2 | ⟨req, h2, h3, h4⟩
      · exact Or.inl (h2.trans h1)
      · exact Or.inr ⟨req, by rw [h2, h1], h3, h4⟩
    | error e =>
      simp only [Prod.mk.injEq] at h
      refine Or.inl ?_
      rw [← h.2]
      exact h1

theorem Exec.forwards_send {env : Env} (mt u : String) (hd d : JSVal) {k : JSVal → Exec JSVal}
    (hhd : hd.nullish = false) (hq : ∀ r, Exec.Quiet (k r)) :
    Exec.Forwards env (Exec.send env mt u hd d >>= k) := by
  constructor
  intro w w1 r h
  simp only [Exec.bind_run, Exec.send] at h
  refine Or.inr ⟨Request.mk mt u hd d, ?_, hhd, ?_⟩
  · cases hp : env.processRequest (Request.mk mt u hd d) with
    | error e =>
      rw [hp] at h
      simp only [Prod.mk.injEq] at h
      rw [← h.2]
    | ok v =>
      rw [hp] at h
      simp only at h
      have := (hq v).sent_eq (World.mk w.self (w.sent ++ [Request.mk mt u hd d]))
      rw [h] at this
      exact this
  · intro e he
    rw [he] at h
    simp only [Prod.mk.injEq] at h
    exact h.1.symm

/-- Every operation forwards the rejection of its one request to its `catch` block. -/
theorem forwards_tryBlock (env : Env) (c : Call) : Exec.Forwards env (c.tryBlock env) := by
  cases c
  all_goals
    simp only [Call.tryBlock, logInTry, loginWithTokenTry, logOutTry, getProfileTry, getBalanceTry,
      getHoldingsTry, getPositionsTry, positionConversionTry, squareOffTry, placeOrderTry,
      modifyOrderTry, cancelOrderTry, placeCoverOrderTry, exitCoverOrderTry, getOrderBookTry,
      getTradeBookTry, getOrderHistoryTry]
    repeat (first
      | refine Exec.forwards_send _ _ _ _ rfl (fun _ => ?_)
      | refine Exec.forwards_bind ?_ (fun _ => ?_)
      | refine Exec.quiet_bind ?_ (fun _ => ?_)
      | exact Exec.quiet_callMethod _ quiet_checkLoggedIn
      | exact Exec.quiet_callMethod _ (quiet_checkClientCodes _)
      | exact Exec.quiet_callMethod _ (quiet_populateEnums _)
      | exact Exec.quiet_writeThis _ _
      | exact Exec.quiet_readThis _
      | exact Exec.quiet_lift _
      | exact Exec.quiet_pure _
      | split)

/-- When the HTTP library rejects the configuration of a request with an error
object, `processRequest` rejects with that object. -/
theorem processRequest_of_reject (h : Http) (req : Request) (e : JSVal)
    (hh : req.headers.nullish = false) (hax : h.axios (requestConfig req) = .error e)
    (he : e.nullish = false) : processRequest h req = .error e := by
  unfold processRequest
  rw [processRequestRun_eq h _ hh]
  unfold requestConfig at hax
  simp only [hax]
  exact (processRequestCatch_result h e _ he).1

/-- C29. End to end over `processRequest`: when an operation of the session client
has handed its request to `processRequest` and the HTTP library rejects the call
with an error object that is not a `CustomError`, has no `statusCode` field (the
status of the server is in `response.status` only) and whose message has a string
form (as an absent message and every text have), the operation returns a
`CustomError` with statusCode 500, with the message of the error when it is truthy
and the fallback message of the operation otherwise, and with the stack of the
error: nothing of the `response` field, so not the server status, is in it. -/
theorem status_500_end_to_end (h : Http) (api : RestApi)
    (usp : JSVal → Except JSVal String) (c : Call) (w : World) (req : Request) (e : JSVal)
    (text : String)
    (hs : (c.run (Env.mk api (processRequest h) usp) w).2.sent = w.sent ++ [req])
    (hax : h.axios (requestConfig req) = .error e)
    (he : e.truthy = true) (hc : e.isCustomError = false)
    (hsc : e.getField "statusCode" = .undefined)
    (hm : (e.getField "message").toStr = .ok text) :
    (c.run (Env.mk api (processRequest h) usp) w).1 =
      .ok (.customError
        (if (e.getField "message").truthy = true then e.getField "message"
          else .str c.fallback)
        (if (e.getField "stack").truthy = true then e.getField "stack" else .undefined)
        (.num 500)) := by
  have hst : ∀ e1 w1, (catchHandler c.fallback e1 w1).2 = w1 :=
    fun e1 w1 => (catchHandler_outcome c.fallback e1 w1).1
  rw [Call.run_eq] at hs ⊢
  unfold Exec.tryCatch at hs ⊢
  cases hb : c.tryBlock (Env.mk api (processRequest h) usp) w with
  | mk r w1 =>
    rw [hb] at hs
    have hw1 : w1.sent = w.sent ++ [req] := by
      cases r with
      | ok v => exact hs
      | error e1 =>
        simp only [hst] at hs
        exact hs
    have hr : r = .error e := by
      rcases (forwards_tryBlock _ c).forwards w w1 r hb with h2 | ⟨req1, h2, h3, h4⟩
      · rw [h2] at hw1
        simp at hw1
      · rw [h2] at hw1
        have hreq : req1 = req := by simpa using hw1
        subst hreq
        exact h4 e (processRequest_of_reject h req1 e h3 hax (JSVal.nullish_of_truthy he))
    subst hr
    have hu : JSVal.truthy .undefined = false := rfl
    simp only [catchHandler_eq, hc, he, hsc, hu, true_and, Bool.false_eq_true, if_false,
      and_false]
    rw [CustomError_eq]
    by_cases hmt : (e.getField "message").truthy = true
    · simp only [if_pos hmt, hm]
    · simp only [if_neg hmt, JSVal.toStr]

/-- C29 at `getProfile` in the logged-in session of the examples, with a library
that rejects with status 400 in `response.status`. -/
theorem status_500_end_to_end_witness :
    ((Call.getProfile .null).run
      (Env.mk exampleApi
        (processRequest (exampleHttp (.error (.obj [
          ("message", .str "Request failed"), ("response", .obj [("status", .num 400)])]))))
        (fun _ => .ok ""))
      (World.mk exampleLoggedIn [])).1 =
      .ok (.customError
        (if ((JSVal.obj [("message", .str "Request failed"),
              ("response", .obj [("status", .num 400)])]).getField "message").truthy = true
          then (JSVal.obj [("message", .str "Request failed"),
              ("response", .obj [("status", .num 400)])]).getField "message"
          else .str (Call.getProfile .null).fallback)
        (if ((JSVal.obj [("message", .str "Request failed"),
              ("response", .obj [("status", .num 400)])]).getField "stack").truthy = true
          then (JSVal.obj [("message", .str "Request failed"),
              ("response", .obj [("status", .num 400)])]).getField "stack"
          else .undefined)
        (.num 500)) :=
  status_500_end_to_end
    (exampleHttp (.error (.obj [
      ("message", .str "Request failed"), ("response", .obj [("status", .num 400)])])))
    exampleApi (fun _ => .ok "") (Call.getProfile .null) (World.mk exampleLoggedIn [])
    (Request.mk "GET" "http://test-api.com/interactive/user/profile"
      (.obj [("authorization", .str "T")]) .null)
    (.obj [("message", .str "Request failed"), ("response", .obj [("status", .num 400)])])
    "Request failed"
    (by rfl) (by rfl) (by rfl) (by rfl) (by rfl) (by rfl)

/-! ## The frame of `populateEnums` -/

/-- An assignment under a name that is no field writer keeps the prototype and every
slot. -/
theorem Session.put_other (s : Session) (k : String) (v : JSVal) (hk : k ∉ fieldWriters) :
    (s.put k v).proto = s.proto ∧ ∀ f ∈ fieldSlots, (s.put k v).props f = s.props f := by
  simp only [fieldWriters, fieldSlots, sessionFields, List.cons_append, List.nil_append,
    List.mem_cons, List.mem_singleton, not_or, List.not_mem_nil, not_false_eq_true,
    and_true] at hk
  have hne : ∀ f ∈ fieldSlots, f ≠ k := by
    intro f hf
    rintro rfl
    simp only [fieldSlots, sessionFields, List.cons_append, List.nil_append, List.mem_cons,
      List.mem_singleton, List.not_mem_nil, or_false] at hf
    rcases hf with h | h | h | h | h | h | h | h | h | h | h | h | h <;> simp [h] at hk
  have hp : k ≠ "__proto__" := hk.1
  have ha : Session.accessorField k = none := by
    simp [Session.accessorField, hk]
  constructor
  · unfold Session.put
    cases hq : s.proto <;> simp [hp, ha, Session.setOwn, hq]
  · intro f hf
    have := hne f hf
    unfold Session.put
    cases hq : s.proto <;> simp [hp, ha, Session.setOwn, this]

/-- A read of a session field depends on the prototype and the slots only. -/
theorem Session.get_congr (s t : Session) (hp : t.proto = s.proto)
    (hs : ∀ f ∈ fieldSlots, t.props f = s.props f) (f : String) (hf : f ∈ sessionFields) :
    t.get f = s.get f := by
  simp only [sessionFields, List.mem_cons, List.mem_singleton, List.not_mem_nil, or_false] at hf
  have a1 := hs "url" (by decide)
  have a2 := hs "token" (by decide)
  have a3 := hs "userID" (by decide)
  have a4 := hs "source" (by decide)
  have a5 := hs "enums" (by decide)
  have a6 := hs "clientCodes" (by decide)
  have a7 := hs "isInvestorClient" (by decide)
  have a8 := hs "isLoggedIn" (by decide)
  have b1 := hs "_url" (by decide)
  have b2 := hs "_token" (by decide)
  have b3 := hs "_userID" (by decide)
  have b4 := hs "_source" (by decide)
  have b5 := hs "_enums" (by decide)
  rcases hf with h | h | h | h | h | h | h | h <;> subst h <;>
    simp [Session.get, hp, Session.accessorField, a1, a2, a3, a4, a5, a6, a7, a8, b1, b2, b3,
      b4, b5]

theorem keeps_populateCategory_other (enums : JSVal) (k : String) (hk : k ∉ fieldWriters)
    (s0 : Session) :
    Exec.Keeps (fun s => s.proto = s0.proto ∧ ∀ f ∈ fieldSlots, s.props f = s0.props f)
      (fun s => s.proto = s0.proto ∧ ∀ f ∈ fieldSlots, s.props f = s0.props f)
      (populateCategory enums k) := by
  unfold populateCategory
  repeat (first
    | refine Exec.keeps_bind
        (fun s => s.proto = s0.proto ∧ ∀ f ∈ fieldSlots, s.props f = s0.props f) ?_
        (fun _ h => h) (fun _ => ?_)
    | exact Exec.keeps_writeThis _ _ (fun s h =>
        ⟨(s.put_other _ _ hk).1.trans h.1,
          fun f hf => ((s.put_other _ _ hk).2 f hf).trans (h.2 f hf)⟩)
    | exact Exec.keeps_writeThis _ _ (fun s h =>
        ⟨(s.put_other _ _ (by decide)).1.trans h.1,
          fun f hf => ((s.put_other _ _ (by decide)).2 f hf).trans (h.2 f hf)⟩)
    | exact Exec.keeps_lift _ (fun _ h => h)
    | exact Exec.keeps_pure _ (fun _ h => h)
    | split)

theorem keeps_populateLoop_other (enums : JSVal) (ks : List String)
    (hk : ∀ k ∈ ks, k ∉ fieldWriters) (s0 : Session) :
    Exec.Keeps (fun s => s.proto = s0.proto ∧ ∀ f ∈ fieldSlots, s.props f = s0.props f)
      (fun s => s.proto = s0.proto ∧ ∀ f ∈ fieldSlots, s.props f = s0.props f)
      (populateLoop enums ks) := by
  induction ks with
  | nil => exact Exec.keeps_pure _ (fun _ h => h)
  | cons k rest ih =>
    unfold populateLoop
    exact Exec.keeps_bind _
      (keeps_populateCategory_other enums k (hk k (List.mem_cons_self _ _)) s0) (fun _ h => h)
      (fun _ => ih (fun k1 h1 => hk k1 (List.mem_cons_of_mem _ h1)))

/-- C28. For every enumeration payload none of whose category names is a session
field, the backing property of an accessor or `__proto__`, and for every session
state, `populateEnums` leaves `url`, `token`, `userID`, `source`, `enums`,
`clientCodes`, `isInvestorClient` and `isLoggedIn` as they were, whether it returns
or throws. -/
theorem populateEnums_keeps_fields (enums : JSVal) (w : World)
    (hk : ∀ k ∈ enums.ownKeys, k ∉ fieldWriters) :
    ∀ f ∈ sessionFields, (populateEnums enums w).2.self.get f = w.self.get f := by
  intro f hf
  have h := keeps_populateLoop_other enums _ hk w.self w ⟨rfl, fun _ _ => rfl⟩
  exact Session.get_congr _ _ h.1 h.2 f hf

/-- C28 at the enumeration payload and the logged-in session of the examples. -/
theorem populateEnums_keeps_fields_witness :
    (∀ k ∈ exampleEnums.ownKeys, k ∉ fieldWriters) ∧
    ∀ f ∈ sessionFields,
      (populateEnums exampleEnums (World.mk exampleLoggedIn [])).2.self.get f =
        exampleLoggedIn.get f :=
  ⟨by decide, populateEnums_keeps_fields exampleEnums (World.mk exampleLoggedIn []) (by decide)⟩

/-- C28 as stated fails: a payload with a category named `isLoggedIn` overwrites the
flag, and one with a category named `token` overwrites the token. -/
theorem populateEnums_writes_isLoggedIn :
    exampleLoggedIn.isLoggedIn = .bool true ∧
    (populateEnums (.obj [("isLoggedIn", .arr [.str "X"])])
      (World.mk exampleLoggedIn [])).2.self.isLoggedIn = .obj [("X", .str "X")] ∧
    exampleLoggedIn.token = .str "T" ∧
    (populateEnums (.obj [("token", .arr [.str "X"])])
      (World.mk exampleLoggedIn [])).2.self.token = .obj [("X", .str "X")] :=
  ⟨by rfl, by rfl, by rfl, by rfl⟩

/-! ## The logger -/

/-- The indented JSON text of an object, an array or a `CustomError` exists. -/
theorem jsonIndented_isSome (v : JSVal) (h : isObject v = true) :
    ∃ t, jsonIndented "" v = some t := by
  cases v with
  | arr xs =>
    unfold jsonIndented
    split <;> exact ⟨_, rfl⟩
  | obj fs =>
    unfold jsonIndented
    split <;> exact ⟨_, rfl⟩
  | customError m st sc =>
    unfold jsonIndented
    exact ⟨_, rfl⟩
  | _ => simp [isObject, typeOf] at h

/-- The string form of a value that is no object. -/
theorem toStr_of_not_isObject (v : JSVal) (h : isObject v = false) :
    ∃ t, v.toStr = .ok t := by
  cases v with
  | undefined => exact ⟨_, rfl⟩
  | null => exact ⟨_, rfl⟩
  | bool b => cases b <;> exact ⟨_, rfl⟩
  | num n => exact ⟨_, rfl⟩
  | str s => exact ⟨_, rfl⟩
  | arr xs => simp [isObject, typeOf] at h
  | obj fs => simp [isObject, typeOf] at h
  | customError m st sc => simp [isObject, typeOf] at h

/-- C26. For every value (string, number, boolean, `null`, `undefined`, array,
object or `CustomError`), every working directory and clock, `logFile` returns
without raising, having requested exactly one append, to the log file of the day,
of `"[" + timestamp + "] " + text + " \n"`, where `text` is the 2-space-indented JSON
text of a non-null object and the string form of any other value; and the callback
it hands to the append returns without raising for every outcome of the append
(an error or none). -/
theorem logFile_never_raises (cwd : String) (d1 d2 : Date) (v : JSVal) :
    ∃ text : String,
      logFile cwd d1 d2 v =
        (.ok (), [(getLogFileName cwd d1,
          "[" ++ getDateTimeFormatted d2 ++ "] " ++ text ++ " \n")]) ∧
      (isObject v = true → jsonIndented "" v = some text) ∧
      (isObject v = false → v.toStr = .ok text) ∧
      ∀ err : JSVal, appendCallback err = .ok () := by
  have hcb : ∀ err : JSVal, appendCallback err = .ok () := by
    intro err
    unfold appendCallback
    split <;> rfl
  cases h : isObject v with
  | true =>
    obtain ⟨t, ht⟩ := jsonIndented_isSome v h
    refine ⟨t, ?_, fun _ => ht, fun h1 => by simp at h1, hcb⟩
    simp [logFile, h, jsonStringifyIndented, ht, JSVal.toStr]
  | false =>
    obtain ⟨t, ht⟩ := toStr_of_not_isObject v h
    refine ⟨t, ?_, fun h1 => by simp at h1, fun _ => ht, hcb⟩
    simp [logFile, h, ht]

/-! ## The streaming client -/

/-- C23. After the run `exampleReconnects` the instance is connected and the
recurring checks 0 and 1, each started by a `disconnect` event, are both active,
the stored one being 1. A tick of check 0 then observes `isConnected = true`, calls
`init` no further time and leaves `socketMD.interval` null, but the check it cancels
is check 1: check 0 stays active and ticks again. -/
theorem tick_cancels_stored_interval :
    (runSteps exampleSocketEnv exampleReconnects
      (XTSEmitter (.str "http://d") (.str "http://x"))).isConnected = true ∧
    (runSteps exampleSocketEnv exampleReconnects
      (XTSEmitter (.str "http://d") (.str "http://x"))).timers = [0, 1] ∧
    (runSteps exampleSocketEnv exampleReconnects
      (XTSEmitter (.str "http://d") (.str "http://x"))).interval = some 1 ∧
    (runSteps exampleSocketEnv (exampleReconnects ++ [.tick 0])
      (XTSEmitter (.str "http://d") (.str "http://x"))).timers = [0] ∧
    (runSteps exampleSocketEnv (exampleReconnects ++ [.tick 0])
      (XTSEmitter (.str "http://d") (.str "http://x"))).interval = none ∧
    (runSteps exampleSocketEnv (exampleReconnects ++ [.tick 0])
      (XTSEmitter (.str "http://d") (.str "http://x"))).inits.length =
      (runSteps exampleSocketEnv exampleReconnects
        (XTSEmitter (.str "http://d") (.str "http://x"))).inits.length ∧
    (runSteps exampleSocketEnv (exampleReconnects ++ [.tick 0, .tick 0])
      (XTSEmitter (.str "http://d") (.str "http://x"))).timers = [0] :=
  ⟨by rfl, by rfl, by rfl, by rfl, by rfl, by rfl, by rfl⟩

@[simp] theorem Sock.sock_pure_run {α : Type} (a : α) (s : Emitter) :
    (pure a : Sock α) s = (.ok a, s) := rfl

@[simp] theorem Sock.sock_bind_run {α β : Type} (m : Sock α) (f : α → Sock β) (s : Emitter) :
    (m >>= f) s = (match m s with
      | (.ok a, s1) => f a s1
      | (.error e, s1) => (.error e, s1)) := rfl

@[simp] theorem Sock.modify_run (f : Emitter → Emitter) (s : Emitter) :
    Sock.modify f s = (.ok (), f s) := rfl

@[simp] theorem Sock.sock_lift_run {α : Type} (x : Except JSVal α) (s : Emitter) :
    Sock.lift x s = (x, s) := rfl

@[simp] theorem Sock.get_run (s : Emitter) : Sock.get s = (.ok s, s) := rfl

theorem Sock.frame_pure {α : Type} (a : α) : Sock.Frame (pure a : Sock α) :=
  ⟨fun _ => ⟨rfl, rfl⟩⟩

theorem Sock.frame_lift {α : Type} (x : Except JSVal α) : Sock.Frame (Sock.lift x) :=
  ⟨fun _ => ⟨rfl, rfl⟩⟩

theorem Sock.frame_get : Sock.Frame Sock.get := ⟨fun _ => ⟨rfl, rfl⟩⟩

theorem Sock.frame_modify (f : Emitter → Emitter)
    (h : ∀ s, (f s).connections = s.connections ∧ (f s).socketMarketData = s.socketMarketData) :
    Sock.Frame (Sock.modify f) := ⟨h⟩

theorem Sock.frame_bind {α β : Type} {m : Sock α} {f : α → Sock β}
    (hm : Sock.Frame m) (hf : ∀ a, Sock.Frame (f a)) : Sock.Frame (m >>= f) := by
  constructor
  intro s
  have h1 := hm.conn_eq s
  simp only [Sock.sock_bind_run]
  cases hms : m s with
  | mk r s1 =>
    rw [hms] at h1
    cases r with
    | ok a =>
      have h2 := (hf a).conn_eq s1
      exact ⟨h2.1.trans h1.1, h2.2.trans h1.2⟩
    | error e => exact h1

theorem Sock.frame_tryCatch {body : Sock Unit} {handler : JSVal → Sock Unit}
    (hb : Sock.Frame body) (hh : ∀ e, Sock.Frame (handler e)) :
    Sock.Frame (Sock.tryCatch body handler) := by
  constructor
  intro s
  have h1 := hb.conn_eq s
  unfold Sock.tryCatch
  cases hbs : body s with
  | mk r s1 =>
    rw [hbs] at h1
    cases r with
    | ok a => exact h1
    | error e =>
      have h2 := (hh e).conn_eq s1
      exact ⟨h2.1.trans h1.1, h2.2.trans h1.2⟩

theorem frame_logLine (msg : String) : Sock.Frame (logLine msg) := ⟨fun _ => ⟨rfl, rfl⟩⟩

theorem frame_consoleLine (args : List JSVal) : Sock.Frame (consoleLine args) :=
  ⟨fun _ => ⟨rfl, rfl⟩⟩

theorem frame_invoke (l : Listener) (arg : JSVal) : Sock.Frame (invoke l arg) :=
  ⟨fun _ => ⟨rfl, rfl⟩⟩

theorem frame_startInterval : Sock.Frame startInterval := ⟨fun _ => ⟨rfl, rfl⟩⟩

theorem frame_clearStoredInterval : Sock.Frame clearStoredInterval := by
  constructor
  intro s
  simp only [clearStoredInterval, Sock.modify_run]
  cases s.interval <;> exact ⟨rfl, rfl⟩

theorem frame_wire (name : String) (h : Handler) : Sock.Frame (wire name h) := by
  constructor
  intro s
  unfold wire
  split <;> exact ⟨rfl, rfl⟩

theorem frame_register (env : SocketEnv) (m : OnMethod) (fn : Callback) :
    Sock.Frame (register env m fn) := ⟨fun _ => ⟨rfl, rfl⟩⟩

theorem frame_call (env : SocketEnv) (l : Listener) (data : JSVal) :
    Sock.Frame (l.call env data) := by
  unfold Listener.call
  split
  · exact frame_invoke _ _
  · refine Sock.frame_tryCatch ?_ (fun e => ?_)
    · exact Sock.frame_bind (Sock.frame_lift _) (fun _ => frame_invoke _ _)
    · repeat (first
        | refine Sock.frame_bind ?_ (fun _ => ?_)
        | exact Sock.frame_lift _
        | exact frame_logLine _
        | exact frame_invoke _ _)

theorem frame_runListeners (env : SocketEnv) (data : JSVal) (ls : List Listener) :
    Sock.Frame (runListeners env data ls) := by
  induction ls with
  | nil => exact Sock.frame_pure _
  | cons l rest ih =>
    unfold runListeners
    exact Sock.frame_bind (frame_call env l data) (fun _ => ih)

theorem frame_emit (env : SocketEnv) (event : String) (data : JSVal) :
    Sock.Frame (emit env event data) := by
  constructor
  intro s
  unfold emit
  simp only
  split
  · split <;> exact ⟨rfl, rfl⟩
  · exact (frame_runListeners env data _).conn_eq _

theorem frame_handler (env : SocketEnv) (h : Handler) (data : JSVal) :
    Sock.Frame (h.run env data) := by
  cases h
  all_goals
    unfold Handler.run
    repeat (first
      | refine Sock.frame_bind ?_ (fun _ => ?_)
      | exact frame_emit _ _ _
      | exact frame_consoleLine _
      | exact frame_startInterval
      | exact Sock.frame_lift _
      | exact Sock.frame_modify _ (fun _ => ⟨rfl, rfl⟩))

theorem frame_runHandlers (env : SocketEnv) (data : JSVal) (hs : List Handler) :
    Sock.Frame (runHandlers env data hs) := by
  induction hs with
  | nil => exact Sock.frame_pure _
  | cons h rest ih =>
    unfold runHandlers
    exact Sock.frame_bind (frame_handler env h data) (fun _ => ih)

theorem frame_socketEvent (env : SocketEnv) (handle : Nat) (name : String) (data : JSVal) :
    Sock.Frame (socketEvent env handle name data) :=
  ⟨fun s => (frame_runHandlers env data _).conn_eq s⟩

theorem Sock.sock_keeps_bind {α β : Type} {P Q : Emitter → Prop} (R : Emitter → Prop)
    {m : Sock α} {f : α → Sock β}
    (hm : Sock.Keeps P R m) (hRQ : ∀ s, R s → Q s) (hf : ∀ a, Sock.Keeps R Q (f a)) :
    Sock.Keeps P Q (m >>= f) := by
  intro s hs
  have h1 := hm s hs
  simp only [Sock.sock_bind_run]
  cases hms : m s with
  | mk r s1 =>
    rw [hms] at h1
    cases r with
    | ok a => exact hf a s1 h1
    | error e => exact hRQ _ h1

theorem pendingAfter_append (p : Option Nat) (t u : List ConnAction) :
    pendingAfter p (t ++ u) = (pendingAfter p t).bind (fun q => pendingAfter q u) := by
  induction t generalizing p with
  | nil => rfl
  | cons a rest ih =>
    cases a with
    | opened h url path rc tok uid =>
      simp only [List.cons_append, pendingAfter]
      split
      · exact ih _
      · rfl
    | closed h =>
      simp only [List.cons_append, pendingAfter]
      exact ih _

theorem Sock.keeps_of_frame {α : Type} {m : Sock α} (hm : Sock.Frame m) :
    Sock.Keeps Emitter.Linked Emitter.Linked m := by
  intro s hs
  have h := hm.conn_eq s
  unfold Emitter.Linked at hs ⊢
  rw [h.1, h.2]
  exact hs

theorem keeps_dropConnection :
    Sock.Keeps Emitter.Linked (fun s => s.Linked ∧ s.socketMarketData = none)
      dropConnection := by
  intro s hs
  unfold Emitter.Linked at hs
  simp only [dropConnection, Sock.modify_run]
  cases hsm : s.socketMarketData with
  | none => exact ⟨by unfold Emitter.Linked; rw [hsm] at hs; rw [hs, hsm], hsm⟩
  | some h =>
    refine ⟨?_, rfl⟩
    unfold Emitter.Linked
    simp only
    rw [pendingAfter_append, hs, hsm]
    simp [pendingAfter]

theorem keeps_openConnection :
    Sock.Keeps (fun s => s.Linked ∧ s.socketMarketData = none) Emitter.Linked
      openConnection := by
  intro s hs
  obtain ⟨h1, h2⟩ := hs
  unfold Emitter.Linked at h1 ⊢
  simp only [openConnection, Sock.modify_run]
  rw [pendingAfter_append, h1, h2]
  simp [pendingAfter]

theorem keeps_init (env : SocketEnv) (reqObject : JSVal) :
    Sock.Keeps Emitter.Linked Emitter.Linked (init env reqObject) := by
  unfold init
  repeat (first
    | refine Sock.sock_keeps_bind (fun s => s.Linked ∧ s.socketMarketData = none)
        keeps_dropConnection (fun _ h => h.1) (fun _ => ?_)
    | refine Sock.sock_keeps_bind Emitter.Linked keeps_openConnection (fun _ h => h) (fun _ => ?_)
    | refine Sock.sock_keeps_bind Emitter.Linked ?_ (fun _ h => h) (fun _ => ?_)
    | exact Sock.keeps_of_frame (frame_wire _ _)
    | exact Sock.keeps_of_frame (frame_logLine _)
    | exact Sock.keeps_of_frame (Sock.frame_lift _)
    | exact Sock.keeps_of_frame Sock.frame_get
    | exact Sock.keeps_of_frame (Sock.frame_modify _ (fun _ => ⟨rfl, rfl⟩)))

theorem keeps_tick (env : SocketEnv) (timer : Nat) :
    Sock.Keeps Emitter.Linked Emitter.Linked (tick env timer) := by
  intro s hs
  unfold tick
  split
  · unfold intervalCallback
    split
    · exact Sock.keeps_of_frame (Sock.frame_bind frame_clearStoredInterval
        (fun _ => Sock.frame_modify _ (fun _ => ⟨rfl, rfl⟩))) s hs
    · exact keeps_init env _ s hs
  · exact hs

/-- In every reachable state every connection was opened with none pending, and the
pending one is the stored one. -/
theorem Emitter.Reachable.linked {env : SocketEnv} {defaultUrl : JSVal} {s : Emitter}
    (h : Emitter.Reachable env defaultUrl s) : s.Linked := by
  induction h with
  | construct url => rfl
  | step s st _ ih =>
    cases st with
    | init r => exact keeps_init env r s ih
    | register m fn => exact Sock.keeps_of_frame (frame_register env m fn) s ih
    | event hd name data => exact Sock.keeps_of_frame (frame_socketEvent env hd name data) s ih
    | tick t => exact keeps_tick env t s ih

theorem pendingAfter_of_opened (p q : Option Nat) (pre post : List ConnAction) (a : ConnAction)
    (h : Nat) (ha : ∃ url path rc tok uid, a = .opened h url path rc tok uid)
    (hs : pendingAfter p (pre ++ a :: post) = some q) :
    pendingAfter (some h) post = some q := by
  obtain ⟨url, path, rc, tok, uid, rfl⟩ := ha
  induction pre generalizing p with
  | nil =>
    simp only [List.nil_append, pendingAfter] at hs
    split at hs
    · exact hs
    · simp at hs
  | cons b rest ih =>
    cases b with
    | opened h1 url1 path1 rc1 tok1 uid1 =>
      simp only [List.cons_append, pendingAfter] at hs
      split at hs
      · exact ih _ hs
      · simp at hs
    | closed h1 =>
      simp only [List.cons_append, pendingAfter] at hs
      exact ih _ hs

theorem closed_of_pendingAfter (h : Nat) (post : List ConnAction) (q : Option Nat)
    (hs : pendingAfter (some h) post = some q) (hq : q ≠ some h) :
    ∃ mid rest, post = mid ++ .closed h :: rest ∧ ∀ a ∈ mid, a.isOpened = false := by
  induction post with
  | nil =>
    simp only [pendingAfter, Option.some.injEq] at hs
    exact absurd hs.symm hq
  | cons b rest ih =>
    cases b with
    | opened h1 url1 path1 rc1 tok1 uid1 =>
      simp [pendingAfter] at hs
    | closed h1 =>
      by_cases h1h : h1 = h
      · subst h1h
        exact ⟨[], rest, rfl, by simp⟩
      · have hne : ¬ (some h = some h1) := fun hh => h1h (Option.some.inj hh).symm
        simp only [pendingAfter, hne, if_false] at hs
        obtain ⟨mid, rest1, e1, h2⟩ := ih hs
        refine ⟨.closed h1 :: mid, rest1, by rw [e1]; rfl, ?_⟩
        intro a ha
        rcases List.mem_cons.1 ha with rfl | ha
        · rfl
        · exact h2 a ha

/-- The state after a sequence of steps from the constructed instance is reachable. -/
theorem reachable_runSteps (env : SocketEnv) (defaultUrl url : JSVal) (steps : List Step) :
    Emitter.Reachable env defaultUrl (runSteps env steps (XTSEmitter defaultUrl url)) := by
  have key : ∀ (steps : List Step) (s : Emitter), Emitter.Reachable env defaultUrl s →
      Emitter.Reachable env defaultUrl (runSteps env steps s) := by
    intro steps
    induction steps with
    | nil => exact fun s hs => hs
    | cons st rest ih => exact fun s hs => ih _ (Emitter.Reachable.step s st hs)
  exact key steps _ (Emitter.Reachable.construct url)

/-- C21. In every state reachable from the construction of an instance by calls of
`init` and of the `on...` methods, events of its connections and timer ticks: every
connection the instance has opened, other than the one stored in
`socketMD.socketMarketData`, has had `disconnect()` called on it after it was opened
and before the next connection was opened. -/
theorem one_live_connection (env : SocketEnv) (defaultUrl : JSVal) (s : Emitter)
    (hr : Emitter.Reachable env defaultUrl s) (pre post : List ConnAction) (h : Nat)
    (url : JSVal) (path : String) (rc : Bool) (tok uid : JSVal)
    (hc : s.connections = pre ++ .opened h url path rc tok uid :: post)
    (hne : s.socketMarketData ≠ some h) :
    ∃ mid rest, post = mid ++ .closed h :: rest ∧ ∀ a ∈ mid, a.isOpened = false := by
  have hl := hr.linked
  unfold Emitter.Linked at hl
  rw [hc] at hl
  exact closed_of_pendingAfter h post _
    (pendingAfter_of_opened _ _ pre post _ h ⟨url, path, rc, tok, uid, rfl⟩ hl) hne

/-- C21 after a login, the loss of the connection and one tick: the first
connection was closed before the second was opened. -/
theorem one_live_connection_witness :
    ∃ mid rest,
      [ConnAction.closed 0,
       ConnAction.opened 1 (.str "http://x") "/interactive/socket.io" false (.str "t") (.str "u")]
        = mid ++ .closed 0 :: rest ∧
      ∀ a ∈ mid, a.isOpened = false :=
  one_live_connection exampleSocketEnv (.str "http://d")
    (runSteps exampleSocketEnv
      [.init (.obj [("userID", .str "u"), ("token", .str "t")]),
       .event 0 "disconnect" (.str "transport close"), .tick 0]
      (XTSEmitter (.str "http://d") (.str "http://x")))
    (reachable_runSteps _ _ _ _) []
    [ConnAction.closed 0,
     ConnAction.opened 1 (.str "http://x") "/interactive/socket.io" false (.str "t") (.str "u")]
    0 (.str "http://x") "/interactive/socket.io" false (.str "t") (.str "u") (by rfl)
    (by
      have h1 : (runSteps exampleSocketEnv
        [.init (.obj [("userID", .str "u"), ("token", .str "t")]),
         .event 0 "disconnect" (.str "transport close"), .tick 0]
        (XTSEmitter (.str "http://d") (.str "http://x"))).socketMarketData = some 1 := rfl
      rw [h1]
      decide)

theorem init_ok (env : SocketEnv) (r : JSVal) (s : Emitter)
    (hi : (init env r s).1 = .ok ()) :
    ∃ msg : String, (init env r s).2 =
      { s with
        inits := s.inits ++ [r],
        userID := r.getField "userID",
        token := r.getField "token",
        connections :=
          (match s.socketMarketData with
            | none => s.connections
            | some h => s.connections ++ [.closed h]) ++
          [.opened s.handleCount s.url "/interactive/socket.io" false (r.getField "token")
            (r.getField "userID")],
        socketMarketData := some s.handleCount,
        handleCount := s.handleCount + 1,
        logged := s.logged ++ [msg],
        handlers := s.handlers ++
          [(s.handleCount, "connect", .connect), (s.handleCount, env.names.joined, .joined),
           (s.handleCount, "connect_error", .connectError), (s.handleCount, "error", .error),
           (s.handleCount, "disconnect", .disconnect), (s.handleCount, env.names.order, .order),
           (s.handleCount, env.names.trade, .trade),
           (s.handleCount, env.names.position, .position),
           (s.handleCount, env.names.logout, .logout)] } := by
  cases hn : r.nullish with
  | true =>
    simp [init, JSVal.getProp, hn] at hi
  | false =>
    cases hu : s.url.toStr with
    | error e =>
      cases hsm : s.socketMarketData <;>
        simp [init, JSVal.getProp, hn, dropConnection, openConnection, JSVal.strPlus, hu, hsm] at hi
    | ok a =>
      cases ht : (r.getField "token").toStr with
      | error e =>
        cases hsm : s.socketMarketData <;>
          simp [init, JSVal.getProp, hn, dropConnection, openConnection, JSVal.strPlus, hu, hsm,
            ht] at hi
      | ok b =>
        cases hd : (r.getField "userID").toStr with
        | error e =>
          cases hsm : s.socketMarketData <;>
            simp [init, JSVal.getProp, hn, dropConnection, openConnection, JSVal.strPlus, hu,
              hsm, ht, hd] at hi
        | ok c =>
          refine ⟨"socket is initialized with the following parameters url " ++ a ++
            " token " ++ b ++ " userID " ++ c, ?_⟩
          cases hsm : s.socketMarketData <;>
            simp [init, JSVal.getProp, hn, dropConnection, openConnection, JSVal.strPlus, hu,
              hsm, ht, hd, logLine, wire]

theorem Sock.local_pure {α : Type} (a : α) : Sock.Local (pure a : Sock α) :=
  ⟨fun s => ⟨s.delivered, s.logged, rfl⟩⟩

theorem Sock.local_lift {α : Type} (x : Except JSVal α) : Sock.Local (Sock.lift x) :=
  ⟨fun s => ⟨s.delivered, s.logged, rfl⟩⟩

theorem local_logLine (msg : String) : Sock.Local (logLine msg) :=
  ⟨fun s => ⟨s.delivered, s.logged ++ [msg], rfl⟩⟩

theorem local_invoke (l : Listener) (arg : JSVal) : Sock.Local (invoke l arg) :=
  ⟨fun s => ⟨s.delivered ++ [(l.id, arg)], s.logged, rfl⟩⟩

theorem Sock.local_bind {α β : Type} {m : Sock α} {f : α → Sock β}
    (hm : Sock.Local m) (hf : ∀ a, Sock.Local (f a)) : Sock.Local (m >>= f) := by
  constructor
  intro s
  obtain ⟨d, l, h1⟩ := hm.state_eq s
  simp only [Sock.sock_bind_run]
  cases hms : m s with
  | mk r s1 =>
    rw [hms] at h1
    simp only at h1
    subst h1
    cases r with
    | ok a =>
      obtain ⟨d2, l2, h2⟩ := (hf a).state_eq { s with delivered := d, logged := l }
      exact ⟨d2, l2, h2⟩
    | error e => exact ⟨d, l, rfl⟩

theorem Sock.local_tryCatch {body : Sock Unit} {handler : JSVal → Sock Unit}
    (hb : Sock.Local body) (hh : ∀ e, Sock.Local (handler e)) :
    Sock.Local (Sock.tryCatch body handler) := by
  constructor
  intro s
  obtain ⟨d, l, h1⟩ := hb.state_eq s
  unfold Sock.tryCatch
  cases hbs : body s with
  | mk r s1 =>
    rw [hbs] at h1
    simp only at h1
    subst h1
    cases r with
    | ok a => exact ⟨d, l, rfl⟩
    | error e =>
      obtain ⟨d2, l2, h2⟩ := (hh e).state_eq { s with delivered := d, logged := l }
      exact ⟨d2, l2, h2⟩

theorem local_call (env : SocketEnv) (l : Listener) (data : JSVal) :
    Sock.Local (l.call env data) := by
  unfold Listener.call
  split
  · exact local_invoke _ _
  · refine Sock.local_tryCatch ?_ (fun e => ?_)
    · exact Sock.local_bind (Sock.local_lift _) (fun _ => local_invoke _ _)
    · repeat (first
        | refine Sock.local_bind ?_ (fun _ => ?_)
        | exact Sock.local_lift _
        | exact local_logLine _
        | exact local_invoke _ _)

theorem local_runListeners (env : SocketEnv) (data : JSVal) (ls : List Listener) :
    Sock.Local (runListeners env data ls) := by
  induction ls with
  | nil => exact Sock.local_pure _
  | cons l rest ih =>
    unfold runListeners
    exact Sock.local_bind (local_call env l data) (fun _ => ih)

/-- The call `emit(event, data)` adds the event to the published ones and changes
nothing else but the logs of the callbacks and of `logFile`. -/
theorem emit_state (env : SocketEnv) (event : String) (data : JSVal) (s : Emitter) :
    ∃ d l, (emit env event data s).2 =
      { s with published := s.published ++ [(event, data)], delivered := d, logged := l } := by
  unfold emit
  simp only
  split
  · split <;> exact ⟨s.delivered, s.logged, rfl⟩
  · obtain ⟨d, l, h⟩ := (local_runListeners env data _).state_eq
      { s with published := s.published ++ [(event, data)] }
    exact ⟨d, l, h⟩

/-- Calls of `on...` methods change the listeners only. -/
theorem afterRegistrations_eq (env : SocketEnv) (defaultUrl url : JSVal)
    (regs : List (OnMethod × Callback)) :
    ∃ ls, afterRegistrations env defaultUrl url regs =
      { XTSEmitter defaultUrl url with listeners := ls } := by
  have key : ∀ (regs : List (OnMethod × Callback)) (s : Emitter),
      ∃ ls, runSteps env (regs.map (fun r => Step.register r.1 r.2)) s =
        { s with listeners := ls } := by
    intro regs
    induction regs with
    | nil => exact fun s => ⟨s.listeners, rfl⟩
    | cons r rest ih =>
      intro s
      obtain ⟨ls, h⟩ := ih ((Step.register r.1 r.2).apply env s)
      exact ⟨ls, h⟩
  exact key regs _

/-- A call of `init` is logged once, whether it returns or throws. -/
theorem init_inits (env : SocketEnv) (r : JSVal) (s : Emitter) :
    (init env r s).2.inits = s.inits ++ [r] := by
  have key : Sock.Keeps (fun t => t.inits = s.inits) (fun t => t.inits = s.inits ++ [r])
      (init env r) := by
    unfold init
    refine Sock.sock_keeps_bind (fun t => t.inits = s.inits ++ [r]) ?_ (fun _ h => h) (fun _ => ?_)
    · intro t ht
      simp only [Sock.modify_run]
      rw [ht]
    repeat (first
      | refine Sock.sock_keeps_bind (fun t => t.inits = s.inits ++ [r]) ?_ (fun _ h => h)
          (fun _ => ?_)
      | exact fun _ ht => ht
      | (intro t ht
         simp only [dropConnection, Sock.modify_run]
         split <;> exact ht)
      | (intro t ht
         unfold wire
         split <;> exact ht))
  exact key s rfl

/-- The `disconnect` handler: the flag is cleared, a recurring check of 5000 is
started and stored, and the event is published locally. -/
theorem disconnect_state (env : SocketEnv) (data : JSVal) (s : Emitter) :
    ∃ d l, (Handler.run env .disconnect data s).2 =
      { s with
        console := s.console ++ [[.str "socket got disconnected"]],
        isConnected := false,
        interval := some s.timerCount,
        timers := s.timers ++ [s.timerCount],
        timerCount := s.timerCount + 1,
        intervals := s.intervals ++ [(s.timerCount, 5000)],
        published := s.published ++ [("disconnect", data)],
        delivered := d, logged := l } := by
  simp only [Handler.run, Sock.sock_bind_run, consoleLine, Sock.modify_run, startInterval]
  obtain ⟨d, l, h⟩ := emit_state env "disconnect" data
    { s with
        console := s.console ++ [[.str "socket got disconnected"]],
        isConnected := false,
        interval := some s.timerCount,
        timers := s.timers ++ [s.timerCount],
        timerCount := s.timerCount + 1,
        intervals := s.intervals ++ [(s.timerCount, 5000)] }
  refine ⟨d, l, ?_⟩
  rw [← h]

theorem runHandlers_single (env : SocketEnv) (data : JSVal) (h : Handler) (s : Emitter) :
    runHandlers env data [h] s = h.run env data s := by
  simp only [runHandlers, Sock.sock_bind_run, Sock.sock_pure_run]
  cases h.run env data s with
  | mk r s1 => cases r <;> rfl

/-- On the connection a returning `init` has just opened, a `disconnect` event runs
the `disconnect` handler and no other. -/
theorem event_after_init (env : SocketEnv) (r data : JSVal) (s : Emitter)
    (hi : (init env r s).1 = .ok ()) (hfresh : ∀ x ∈ s.handlers, x.1 ≠ s.handleCount)
    (hn : env.names.Avoids "disconnect") :
    socketEvent env s.handleCount "disconnect" data (init env r s).2 =
      Handler.run env .disconnect data (init env r s).2 := by
  obtain ⟨msg, h1⟩ := init_ok env r s hi
  have hh := congrArg Emitter.handlers h1
  simp only at hh
  obtain ⟨h2, h3, h4, h5, h6⟩ := hn
  have hold : s.handlers.filter
      (fun x => decide (x.1 = s.handleCount ∧ x.2.1 = "disconnect")) = [] := by
    rw [List.filter_eq_nil_iff]
    intro x hx
    simp [hfresh x hx]
  unfold socketEvent
  rw [hh, List.filter_append, hold]
  simp only [List.nil_append, List.filter, h2, h3, h4, h5, h6, and_false, and_true,
    decide_False, decide_True, true_and]
  simp only [show ¬ ("connect" = "disconnect") by decide,
    show ¬ ("connect_error" = "disconnect") by decide,
    show ¬ ("error" = "disconnect") by decide, decide_False, and_false, List.map]
  exact runHandlers_single env data _ _

theorem afterRegistrations_fields (env : SocketEnv) (defaultUrl url : JSVal)
    (regs : List (OnMethod × Callback)) :
    (afterRegistrations env defaultUrl url regs).handlers = [] ∧
    (afterRegistrations env defaultUrl url regs).handleCount = 0 ∧
    (afterRegistrations env defaultUrl url regs).timers = [] ∧
    (afterRegistrations env defaultUrl url regs).timerCount = 0 ∧
    (afterRegistrations env defaultUrl url regs).intervals = [] ∧
    (afterRegistrations env defaultUrl url regs).inits = [] ∧
    (afterRegistrations env defaultUrl url regs).published = [] := by
  obtain ⟨ls, hs0⟩ := afterRegistrations_eq env defaultUrl url regs
  rw [hs0]
  exact ⟨rfl, rfl, rfl, rfl, rfl, rfl, rfl⟩

/-- C22. On an instance with any listeners registered, after a call
`init(reqObject)` that returns and a single `disconnect` event with payload `data`
on the connection it has opened (the configured event names being other than
`disconnect`): `isConnected` is false, the local event `disconnect` has been
published with `data` (and no other event), a recurring check of 5000 is active, and
`init` has been called once, by the caller. After one tick of that check, the
instance still not connected, `init` has been called exactly once more, with
`{userID, token}` holding the `userID` and the `token` of `reqObject`. -/
theorem reconnect_after_one_tick (env : SocketEnv) (defaultUrl url : JSVal)
    (regs : List (OnMethod × Callback)) (reqObject data : JSVal)
    (hn : env.names.Avoids "disconnect")
    (hi : (init env reqObject (afterRegistrations env defaultUrl url regs)).1 = .ok ()) :
    (runSteps env [.init reqObject, .event 0 "disconnect" data]
      (afterRegistrations env defaultUrl url regs)).isConnected = false ∧
    (runSteps env [.init reqObject, .event 0 "disconnect" data]
      (afterRegistrations env defaultUrl url regs)).published = [("disconnect", data)] ∧
    (runSteps env [.init reqObject, .event 0 "disconnect" data]
      (afterRegistrations env defaultUrl url regs)).timers = [0] ∧
    (runSteps env [.init reqObject, .event 0 "disconnect" data]
      (afterRegistrations env defaultUrl url regs)).intervals = [(0, 5000)] ∧
    (runSteps env [.init reqObject, .event 0 "disconnect" data]
      (afterRegistrations env defaultUrl url regs)).inits = [reqObject] ∧
    (runSteps env [.init reqObject, .event 0 "disconnect" data, .tick 0]
      (afterRegistrations env defaultUrl url regs)).inits =
      [reqObject,
       .obj [("userID", reqObject.getField "userID"), ("token", reqObject.getField "token")]] := by
  obtain ⟨f1, f2, f3, f4, f5, f6, f7⟩ := afterRegistrations_fields env defaultUrl url regs
  generalize afterRegistrations env defaultUrl url regs = s0 at hi f1 f2 f3 f4 f5 f6 f7 ⊢
  obtain ⟨msg, h1⟩ := init_ok env reqObject s0 hi
  have hev := event_after_init env reqObject data s0 hi (by simp [f1]) hn
  rw [f2] at hev
  obtain ⟨d, l, h2⟩ := disconnect_state env data (init env reqObject s0).2
  have e2 : runSteps env [.init reqObject, .event 0 "disconnect" data] s0 =
      (Handler.run env .disconnect data (init env reqObject s0).2).2 := by
    simp only [runSteps, List.foldl, Step.apply, Step.run]
    rw [hev]
  have e3 : runSteps env [.init reqObject, .event 0 "disconnect" data, .tick 0] s0 =
      (tick env 0 (runSteps env [.init reqObject, .event 0 "disconnect" data] s0)).2 := rfl
  rw [e3, e2, h2, h1]
  simp only [f3, f4, f5, f6, f7, List.nil_append]
  refine ⟨trivial, trivial, trivial, trivial, trivial, ?_⟩
  simp only [tick, List.contains, List.elem, beq_self_eq_true, if_true, intervalCallback,
    Bool.false_eq_true, if_false]
  rw [init_inits]
  simp only [f6, List.nil_append, List.cons_append]

/-- C22 for a login with `{userID: "u", token: "t"}` on an instance with one
`onDisconnect` callback, in the runtime of the examples. -/
theorem reconnect_after_one_tick_witness :
    (runSteps exampleSocketEnv
      [.init (.obj [("userID", .str "u"), ("token", .str "t")]),
       .event 0 "disconnect" (.str "transport close")]
      (afterRegistrations exampleSocketEnv (.str "http://d") (.str "http://x")
        [(.onDisconnect, fun _ => .ok ())])).isConnected = false ∧
    (runSteps exampleSocketEnv
      [.init (.obj [("userID", .str "u"), ("token", .str "t")]),
       .event 0 "disconnect" (.str "transport close")]
      (afterRegistrations exampleSocketEnv (.str "http://d") (.str "http://x")
        [(.onDisconnect, fun _ => .ok ())])).published =
      [("disconnect", .str "transport close")] ∧
    (runSteps exampleSocketEnv
      [.init (.obj [("userID", .str "u"), ("token", .str "t")]),
       .event 0 "disconnect" (.str "transport close")]
      (afterRegistrations exampleSocketEnv (.str "http://d") (.str "http://x")
        [(.onDisconnect, fun _ => .ok ())])).timers = [0] ∧
    (runSteps exampleSocketEnv
      [.init (.obj [("userID", .str "u"), ("token", .str "t")]),
       .event 0 "disconnect" (.str "transport close")]
      (afterRegistrations exampleSocketEnv (.str "http://d") (.str "http://x")
        [(.onDisconnect, fun _ => .ok ())])).intervals = [(0, 5000)] ∧
    (runSteps exampleSocketEnv
      [.init (.obj [("userID", .str "u"), ("token", .str "t")]),
       .event 0 "disconnect" (.str "transport close")]
      (afterRegistrations exampleSocketEnv (.str "http://d") (.str "http://x")
        [(.onDisconnect, fun _ => .ok ())])).inits =
      [.obj [("userID", .str "u"), ("token", .str "t")]] ∧
    (runSteps exampleSocketEnv
      [.init (.obj [("userID", .str "u"), ("token", .str "t")]),
       .event 0 "disconnect" (.str "transport close"), .tick 0]
      (afterRegistrations exampleSocketEnv (.str "http://d") (.str "http://x")
        [(.onDisconnect, fun _ => .ok ())])).inits =
      [.obj [("userID", .str "u"), ("token", .str "t")],
       .obj [("userID", JSVal.getField (.obj [("userID", .str "u"), ("token", .str "t")]) "userID"),
             ("token", JSVal.getField (.obj [("userID", .str "u"), ("token", .str "t")]) "token")]] :=
  reconnect_after_one_tick exampleSocketEnv (.str "http://d") (.str "http://x")
    [(.onDisconnect, fun _ => .ok ())] (.obj [("userID", .str "u"), ("token", .str "t")])
    (.str "transport close")
    ⟨by decide, by decide, by decide, by decide, by decide⟩ (by rfl)

theorem runListeners_ok (env : SocketEnv) (data : JSVal) (ls : List Listener)
    (h : ∀ l ∈ ls, l.Returns env data) (s : Emitter) :
    (runListeners env data ls s).1 = .ok () := by
  induction ls generalizing s with
  | nil => rfl
  | cons l rest ih =>
    simp only [runListeners, Sock.sock_bind_run]
    have h1 := h l (List.mem_cons_self _ _) s
    cases hc : l.call env data s with
    | mk r s1 =>
      rw [hc] at h1
      simp only at h1
      subst h1
      exact ih (fun l1 hl1 => h l1 (List.mem_cons_of_mem _ hl1)) s1

/-- C25. For every `connect_error` value `err` that is not `null` or `undefined` and
every set of registered listeners, the `connect_error` handler publishes exactly one
local event, `error` with payload `{type: "connect_error", message: err.message,
description: err.description, cause: err.cause}`, and starts no retry (no timer, no
call of `init`, no connection opened or closed); when at least one listener is
registered for `error` and each of them returns, the handler returns; when none is
registered, it throws the value the runtime throws for an unhandled `error` event. -/
theorem connect_error_published (env : SocketEnv) (err : JSVal) (s : Emitter)
    (he : err.nullish = false) :
    (∃ d l, (Handler.run env .connectError err s).2 =
      { s with
        console := s.console ++ [[.str "socket connection error:", err.getField "message"]],
        published := s.published ++ [("error", connectErrorPayload err)],
        delivered := d, logged := l }) ∧
    (s.listeners.filter (fun l => l.event = "error") ≠ [] →
      (∀ l ∈ s.listeners, l.event = "error" → l.Returns env (connectErrorPayload err)) →
      (Handler.run env .connectError err s).1 = .ok ()) ∧
    (s.listeners.filter (fun l => l.event = "error") = [] →
      (Handler.run env .connectError err s).1 =
        .error (env.unhandled (connectErrorPayload err))) := by
  simp only [Handler.run, Sock.sock_bind_run, Sock.sock_lift_run, JSVal.getProp, he, consoleLine,
    Sock.modify_run, Bool.false_eq_true, if_false]
  refine ⟨?_, ?_, ?_⟩
  · obtain ⟨d, l, h⟩ := emit_state env "error" (connectErrorPayload err)
      { s with
        console := s.console ++ [[.str "socket connection error:", err.getField "message"]] }
    exact ⟨d, l, h⟩
  · intro hne hr
    unfold emit
    simp only
    split
    · rename_i heq
      exact absurd heq hne
    · rename_i l rest heq
      refine runListeners_ok env _ _ ?_ _
      intro l1 hl1
      have hm : l1 ∈ s.listeners.filter (fun l => l.event = "error") := by
        have heq1 : List.filter (fun l => decide (l.event = "error")) s.listeners = l :: rest := heq
        rw [heq1]
        exact hl1
      have hm2 := List.mem_filter.1 hm
      exact hr l1 hm2.1 (by simpa using hm2.2)
  · intro hnil
    unfold emit
    simp only
    split
    · simp [connectErrorPayload]
    · rename_i l rest heq
      have heq1 : List.filter (fun l => decide (l.event = "error")) s.listeners = l :: rest := heq
      rw [hnil] at heq1
      simp at heq1

/-- C25 at the error `{message: "timeout"}`, on the instance of the examples with
one `onError` callback that returns. -/
theorem connect_error_published_witness :
    (∃ d l, (Handler.run exampleSocketEnv .connectError (.obj [("message", .str "timeout")])
        (exampleEmitter .onError (fun _ => .ok ()))).2 =
      { exampleEmitter .onError (fun _ => .ok ()) with
        console := (exampleEmitter .onError (fun _ => .ok ())).console ++
          [[.str "socket connection error:",
            JSVal.getField (.obj [("message", .str "timeout")]) "message"]],
        published := (exampleEmitter .onError (fun _ => .ok ())).published ++
          [("error", connectErrorPayload (.obj [("message", .str "timeout")]))],
        delivered := d, logged := l }) ∧
    (Handler.run exampleSocketEnv .connectError (.obj [("message", .str "timeout")])
      (exampleEmitter .onError (fun _ => .ok ()))).1 = .ok () :=
  ⟨(connect_error_published exampleSocketEnv (.obj [("message", .str "timeout")])
      (exampleEmitter .onError (fun _ => .ok ())) rfl).1,
   (connect_error_published exampleSocketEnv (.obj [("message", .str "timeout")])
      (exampleEmitter .onError (fun _ => .ok ())) rfl).2.1
      (by
        have h : (exampleEmitter .onError (fun _ => .ok ())).listeners.filter
            (fun l => l.event = "error") =
          [Listener.mk "error" .direct 0 (fun _ => .ok ())] := rfl
        rw [h]
        simp)
      (by
        have h : (exampleEmitter .onError (fun _ => .ok ())).listeners =
          [Listener.mk "error" .direct 0 (fun _ => .ok ())] := rfl
        rw [h]
        intro l hl _ s
        rw [List.mem_singleton] at hl
        subst hl
        rfl)⟩

/-- C25 as stated fails: with no listener registered the `connect_error` handler
throws the error of the runtime for an unhandled `error` event, and with an
`onError` callback that throws it throws the value of the callback. -/
theorem connect_error_throws :
    (Handler.run exampleSocketEnv .connectError (.obj [("message", .str "timeout")])
      (XTSEmitter (.str "http://d") (.str "http://x"))).1 =
      .error (.obj [("code", .str "ERR_UNHANDLED_ERROR"),
        ("context", .obj [("type", .str "connect_error"), ("message", .str "timeout"),
          ("description", .undefined), ("cause", .undefined)])]) ∧
    (Handler.run exampleSocketEnv .connectError (.obj [("message", .str "timeout")])
      (exampleEmitter .onError (fun _ => .error (.str "callback failed")))).1 =
      .error (.str "callback failed") :=
  ⟨by rfl, by rfl⟩

/-- A parsing listener called with a payload that has a text: when the text parses,
the callback is called with the parsed value first; when it does not parse, the
failure is logged and the callback is called with the payload itself, once, and the
listener ends as the callback does. -/
theorem parsing_listener_delivers (env : SocketEnv) (l : Listener) (what method text : String)
    (d : JSVal) (s : Emitter) (hw : l.wrapper = .parsing what method)
    (ht : d.toStr = .ok text) :
    (∀ v, env.parse text = .ok v →
      ∃ rest, (l.call env d s).2.delivered = s.delivered ++ (l.id, v) :: rest) ∧
    (∀ msg, env.parse text = .error msg →
      l.call env d s =
        (l.fn d, { s with
          logged := s.logged ++
            ["Error parsing " ++ what ++ " data in " ++ method ++ ": " ++ msg ++
              ", raw data: " ++ text],
          delivered := s.delivered ++ [(l.id, d)] })) := by
  constructor
  · intro v hv
    simp only [Listener.call, hw, Sock.tryCatch, Sock.sock_bind_run, Sock.sock_lift_run, jsonParse, ht, hv,
      invoke]
    cases hf : l.fn v with
    | ok u => exact ⟨[], rfl⟩
    | error e =>
      simp only [Sock.sock_bind_run, Sock.sock_lift_run, logLine, Sock.modify_run, invoke]
      repeat' split
      all_goals
        simp only [Prod.mk.injEq] at *
        casesm* _ ∧ _
        subst_vars
        first
          | (refine ⟨[], ?_⟩
             simp
             done)
          | (refine ⟨[(l.id, d)], ?_⟩
             simp)
  · intro msg hm
    simp [Listener.call, hw, Sock.tryCatch, jsonParse, ht, hm, invoke, parseError,
      JSVal.getProp, JSVal.nullish, JSVal.getField, JSVal.lookupField, JSVal.strPlus,
      JSVal.toStr, logLine]

/-- C24. The payload `{toString: 1}`, an object with no text, published as an
`order` event to an instance with one `onOrder` callback: `JSON.parse` throws, and
so does the making of the log line in the `catch` block, before the callback is
called. Nothing is logged, the callback is never called, and `emit` throws. -/
theorem payload_without_text_dropped :
    (emit exampleSocketEnv "order" (.obj [("toString", .num 1)])
      (exampleEmitter .onOrder (fun _ => .ok ()))).1 =
      .error (JSVal.typeError "Cannot convert object to primitive value") ∧
    (emit exampleSocketEnv "order" (.obj [("toString", .num 1)])
      (exampleEmitter .onOrder (fun _ => .ok ()))).2.delivered = [] ∧
    (emit exampleSocketEnv "order" (.obj [("toString", .num 1)])
      (exampleEmitter .onOrder (fun _ => .ok ()))).2.logged = [] :=
  ⟨by rfl, by rfl, by rfl⟩

/-- C27. The text of the empty object published as an `order` event to an instance
with one `onOrder` callback that throws an error: the callback is called with the
parsed value, and, its error being caught as if the parsing had failed, it is
called a second time, with the text; the log line reports a parse failure. -/
theorem throwing_callback_called_twice :
    (emit exampleSocketEnv "order" (.str "\x7b\x7d")
      (exampleEmitter .onOrder (fun _ => .error (.obj [("message", .str "callback failed")])))
      ).2.delivered = [(0, .obj []), (0, .str "\x7b\x7d")] ∧
    (emit exampleSocketEnv "order" (.str "\x7b\x7d")
      (exampleEmitter .onOrder (fun _ => .error (.obj [("message", .str "callback failed")])))
      ).2.logged =
      ["Error parsing order data in onOrder: callback failed, raw data: \x7b\x7d"] :=
  ⟨by rfl, by rfl⟩
end XTS
